import Mathlib

/-!
# Version histories and the N-data-center conflict resolver

A shallow embedding of the version-history branch model
(`persistence.VersionHistory`, `persistence.VersionHistories`) and of the
conflict resolver (`nDCConflictResolverImpl`) exercised by
`service/history/nDCConflictResolver_test.go` and called from
`service/frontend/adminHandler.go`.

Machine integers (`int64`, `int`) are `Int`; the one place where arithmetic
is performed on an event ID (`eventID + 1`) wraps to 64 bits explicitly.
Pointers to a `VersionHistories` object are references into a heap, because
the cached mutable state, the caller and the rebuilt mutable state share one
such object.
-/

namespace Temporal

/-! ## Data model -/

/-- Error kinds returned by the version-history operations and the resolver. -/
inductive Err where
  | emptyHistory
  | indexOutOfRange
  | itemNotFound
  | noCommonAncestor
  | badRequest (message : String)
  | entityNotExists (message : String)
  | internalServiceError (message : String)
  | serviceBusy (message : String)
  | external (message : String)
deriving DecidableEq, Repr

/-- The pair `(eventID, version)`, both `int64`. -/
structure VersionHistoryItem where
  eventID : Int
  version : Int
deriving DecidableEq, Repr

/-- One branch: an opaque branch token and the ordered items. -/
structure VersionHistory where
  branchToken : List Nat
  items : List VersionHistoryItem
deriving DecidableEq, Repr

/-- The branches of one execution and the index of the current one. -/
structure VersionHistories where
  histories : List VersionHistory
  currentIndex : Int
deriving DecidableEq, Repr

/-- Modelled from the spec: constant `common.FirstEventID` (package `common`
is not among the sources), the ID of the first event of a history; the value
is the upstream one. -/
def FirstEventID : Int := 1

/-- Two's-complement wrap of an integer to the `int64` range. -/
def wrapInt64 (x : Int) : Int := (x + 2 ^ 63) % 2 ^ 64 - 2 ^ 63

/-- Constructor `persistence.NewVersionHistoryItem(eventID, version)`, as the
tests and `adminHandler.go` call it. -/
def NewVersionHistoryItem (eventID version : Int) : VersionHistoryItem :=
  ⟨eventID, version⟩

/-- Constructor `persistence.NewVersionHistory(branchToken, items)`, as the
tests call it. -/
def NewVersionHistory (branchToken : List Nat) (items : List VersionHistoryItem) :
    VersionHistory :=
  ⟨branchToken, items⟩

/-- Modelled from the spec: `persistence.NewVersionHistories` is not among
the sources; the tests build a set from its first branch, and section 3
makes the current index a valid index, so the single branch is current. -/
def NewVersionHistories (v : VersionHistory) : VersionHistories :=
  ⟨[v], 0⟩

namespace VersionHistory

/-- Modelled from the spec: `GetFirstItem` (file `versionHistory.go` is not
among the sources) fails with `EmptyHistory` if items is empty. -/
def GetFirstItem (v : VersionHistory) : Except Err VersionHistoryItem :=
  match v.items with
  | [] => .error .emptyHistory
  | x :: _ => .ok x

/-- Modelled from the spec: `GetLastItem` fails with `EmptyHistory` if items
is empty. -/
def GetLastItem (v : VersionHistory) : Except Err VersionHistoryItem :=
  match v.items.getLast? with
  | none => .error .emptyHistory
  | some x => .ok x

/-- Walk used by `ContainsItem`: `prev` is the event ID of the preceding item,
so the item `cur` stands for the events `prev + 1 .. cur.eventID`, all of them
at `cur.version`. -/
def containsItemFrom (prev : Int) : List VersionHistoryItem → VersionHistoryItem → Bool
  | [], _ => false
  | cur :: rest, it =>
    (decide (it.version = cur.version) && decide (prev < it.eventID)
        && decide (it.eventID ≤ cur.eventID))
      || containsItemFrom cur.eventID rest it

/-- Modelled from the spec: `ContainsItem(item)` (not among the sources)
is true iff the branch assigns `item.version` to the event `item.eventID`,
that is, the branch was built causally through that point. -/
def ContainsItem (v : VersionHistory) (it : VersionHistoryItem) : Bool :=
  containsItemFrom (FirstEventID - 1) v.items it

/-- The walk of `FindLCAItem` over both item sequences taken from the end:
on equal versions the earlier of the two items is the answer, otherwise the
side carrying the greater version steps back. -/
def findLCAFromEnd :
    List VersionHistoryItem → List VersionHistoryItem → Except Err VersionHistoryItem
  | [], _ => .error .noCommonAncestor
  | _ :: _, [] => .error .noCommonAncestor
  | x :: xs, y :: ys =>
    if x.version = y.version then
      if x.eventID > y.eventID then .ok y else .ok x
    else if x.version > y.version then findLCAFromEnd xs (y :: ys)
    else findLCAFromEnd (x :: xs) ys
termination_by xs ys => xs.length + ys.length

/-- Modelled from the spec: `FindLCAItem(other)` (not among the sources)
walks both item sequences from the end, comparing eventID/version pairs, and
returns the latest item present in both; it fails with `NoCommonAncestor`
when the walk runs off either sequence. An item stands for the run of events
that ends at its event ID, so `(2, 12)` is present in `[(5, 12)]`, as
`TestRebuild` and the scenario of section 8 require. -/
def FindLCAItem (v other : VersionHistory) : Except Err VersionHistoryItem :=
  findLCAFromEnd v.items.reverse other.items.reverse

end VersionHistory

namespace VersionHistories

/-- Modelled from the spec: `GetVersionHistory(idx)` (not among the
sources) is an accessor that fails with `IndexOutOfRange` for an invalid index;
the index is a Go `int`, so a negative one is invalid too. -/
def GetVersionHistory (h : VersionHistories) (idx : Int) : Except Err VersionHistory :=
  if 0 ≤ idx then
    match h.histories.get? idx.toNat with
    | some v => .ok v
    | none => .error .indexOutOfRange
  else .error .indexOutOfRange

/-- Accessor `GetCurrentVersionHistoryIndex()`, as the test reads it. -/
def GetCurrentVersionHistoryIndex (h : VersionHistories) : Int :=
  h.currentIndex

/-- Modelled from the spec: `GetCurrentVersionHistory()` is the accessor at
the current index. -/
def GetCurrentVersionHistory (h : VersionHistories) : Except Err VersionHistory :=
  h.GetVersionHistory h.currentIndex

/-- The dedup test of `AddVersionHistory`: the full item sequence of the new
branch exactly prefixes, or exactly extends, the one of a stored branch. -/
def prefixesOrExtends (newBranch stored : VersionHistory) : Bool :=
  newBranch.items.isPrefixOf stored.items || stored.items.isPrefixOf newBranch.items

/-- Modelled from the spec: `AddVersionHistory(newBranch)` (not among the
sources). If the full item sequence of `newBranch` exactly prefixes/extends a
stored branch, no new entry is created and the result says so, with that
branch's index; otherwise `newBranch` is appended and its new index returned.
The current index is not changed. The result is `(created, index, set)`. -/
def AddVersionHistory (h : VersionHistories) (newBranch : VersionHistory) :
    Except Err (Bool × Int × VersionHistories) :=
  match h.histories.findIdx? (prefixesOrExtends newBranch) with
  | some i => .ok (false, (i : Int), h)
  | none =>
    .ok (true, (h.histories.length : Int),
      { histories := h.histories ++ [newBranch], currentIndex := h.currentIndex })

end VersionHistories

/-! ## Conflict resolver -/

/-- The key naming one execution, `definition.WorkflowIdentifier`. -/
structure WorkflowIdentifier where
  domainID : String
  workflowID : String
  runID : String
deriving DecidableEq, Repr

/-- Constructor `definition.NewWorkflowIdentifier`, as the tests call it. -/
def NewWorkflowIdentifier (domainID workflowID runID : String) : WorkflowIdentifier :=
  ⟨domainID, workflowID, runID⟩

/-- The fields of `persistence.WorkflowExecutionInfo` the resolver reads. -/
structure WorkflowExecutionInfo where
  DomainID : String
  WorkflowID : String
  RunID : String
deriving DecidableEq, Repr

/-- Address of a `VersionHistories` object. -/
abbrev Ref := Nat

/-- The in-memory execution state. `versionHistories` is a pointer: the cached
state and a rebuilt state may point to the same object. `pendingWork` stands
for the pending-work collections, which only the state rebuilder fills. -/
structure MutableState where
  versionHistories : Ref
  executionInfo : WorkflowExecutionInfo
  updateCondition : Int
  pendingWork : List Nat
deriving DecidableEq, Repr

/-- One invocation of a collaborator of the resolver: the state rebuilder
(`nDCStateRebuilder.rebuild`) or the execution context (`clear`,
`setHistorySize`). -/
inductive Call where
  | rebuild (source : WorkflowIdentifier) (branchToken : List Nat) (startEventID : Int)
      (target : WorkflowIdentifier) (requestID : String)
  | clear
  | setHistorySize (size : Int)
deriving DecidableEq, Repr

/-- What the resolver can change: the `VersionHistories` objects it holds
pointers to, and the invocations of its collaborators, oldest first. -/
structure World where
  heap : Ref → VersionHistories
  calls : List Call

/-- The state rebuilder, an external collaborator: from source identifier,
branch token, start event ID, target identifier and request ID to the rebuilt
mutable state and the size of the history read, or an error. -/
abbrev StateRebuilder :=
  WorkflowIdentifier → List Nat → Int → WorkflowIdentifier → String →
    Except Err (MutableState × Int)

/-- Store `v` at address `r`. -/
def World.setHeap (w : World) (r : Ref) (v : VersionHistories) : Ref → VersionHistories :=
  fun q => if q = r then v else w.heap q

/-- The test of step 2 of `prepareMutableState`: the target is a strict
extension whose prefix matches the current branch up to its last item. -/
def isStrictExtension (target current : VersionHistory) : Bool :=
  current.items.isPrefixOf target.items && decide (current.items ≠ target.items)

/-- Modelled from the spec: `nDCConflictResolverImpl.rebuild(branchIndex,
requestID)` (file `nDCConflictResolver.go` is not among the sources), by
the six steps of section 4.2; `ms` is the cached mutable state, the source of
the rebuild, and `currentBranch` is the branch its `VersionHistories` reports
as current (the start event ID is an argument of the state rebuilder, so the
branch is known before the rebuilder runs). After a successful rebuild the
shared `VersionHistories` object has `branchIndex` as its current index, which
`TestRebuild` asserts and the scenario of section 8 states. -/
def rebuild (stateRebuilder : StateRebuilder) (ms : MutableState) (w : World)
    (branchIndex : Int) (requestID : String) : Except Err MutableState × World :=
  let updateCondition := ms.updateCondition
  let versionHistories := w.heap ms.versionHistories
  let executionInfo := ms.executionInfo
  match versionHistories.GetVersionHistory branchIndex with
  | .error e => (.error e, w)
  | .ok target =>
    match versionHistories.GetCurrentVersionHistory with
    | .error e => (.error e, w)
    | .ok currentBranch =>
      match target.FindLCAItem currentBranch with
      | .error e => (.error e, w)
      | .ok lca =>
        let workflowIdentifier := NewWorkflowIdentifier
          executionInfo.DomainID executionInfo.WorkflowID executionInfo.RunID
        let startEventID := wrapInt64 (lca.eventID + 1)
        let invoked : List Call := w.calls ++
          [Call.rebuild workflowIdentifier target.branchToken startEventID
            workflowIdentifier requestID]
        match stateRebuilder workflowIdentifier target.branchToken startEventID
            workflowIdentifier requestID with
        | .error e => (.error e, { heap := w.heap, calls := invoked })
        | .ok (newMutableState, historySize) =>
          (.ok { newMutableState with
                  versionHistories := ms.versionHistories
                  updateCondition := updateCondition },
            { heap := w.setHeap ms.versionHistories
                { histories := versionHistories.histories, currentIndex := branchIndex }
              calls := invoked ++ [Call.clear, Call.setHistorySize historySize] })

/-- Modelled from the spec: `nDCConflictResolverImpl.prepareMutableState(
branchIndex, incomingVersion)` by the transition rule of section 4.2, which
decides on the branch index alone and does not consult the incoming version.
The request ID handed to `rebuild` is generated inside the call (the test
accepts any), so it is an input here. The result is
`(mutableState, isRebuilt)`. -/
def prepareMutableState (stateRebuilder : StateRebuilder) (ms : MutableState) (w : World)
    (branchIndex : Int) (_incomingVersion : Int) (requestID : String) :
    Except Err (MutableState × Bool) × World :=
  let versionHistories := w.heap ms.versionHistories
  match versionHistories.GetVersionHistory branchIndex with
  | .error e => (.error e, w)
  | .ok target =>
    if branchIndex = versionHistories.GetCurrentVersionHistoryIndex then
      (.ok (ms, false), w)
    else
      match versionHistories.GetCurrentVersionHistory with
      | .error e => (.error e, w)
      | .ok currentBranch =>
        if isStrictExtension target currentBranch then
          (.ok (ms, false), w)
        else
          match rebuild stateRebuilder ms w branchIndex requestID with
          | (.error e, w1) => (.error e, w1)
          | (.ok rebuilt, w1) => (.ok (rebuilt, true), w1)

/-! ## Well-formedness and the scenarios of the tests -/

/-- Invariant of section 3 on the items of one branch: strictly increasing by
event ID, non-decreasing in version. -/
def WellFormedItems (l : List VersionHistoryItem) : Prop :=
  l.Pairwise (fun x y => x.eventID < y.eventID) ∧
    l.Pairwise (fun x y => x.version ≤ y.version)

instance (l : List VersionHistoryItem) : Decidable (WellFormedItems l) := by
  unfold WellFormedItems; infer_instance

/-- Two branches of one execution fork at `p`: both contain `p` (they share
the history up to it), and past `p` no version is carried by both, a version
being written along one branch only. -/
def ForkAt (a b : VersionHistory) (p : VersionHistoryItem) : Prop :=
  a.ContainsItem p = true ∧ b.ContainsItem p = true ∧
    ∀ x ∈ a.items, ∀ y ∈ b.items,
      p.eventID < x.eventID → p.eventID < y.eventID → x.version ≠ y.version

instance (a b : VersionHistory) (p : VersionHistoryItem) : Decidable (ForkAt a b p) := by
  unfold ForkAt; infer_instance

/-- Two version histories of the same execution that share a common prefix:
they fork at some item. -/
def SameExecution (a b : VersionHistory) : Prop :=
  ∃ p, ForkAt a b p

/-- Whether a call is an invocation of the state rebuilder. -/
def Call.isRebuild : Call → Bool
  | .rebuild _ _ _ _ _ => true
  | _ => false

/-- Branch 0 of `TestRebuild`: one item `(5, 12)`. -/
def testBranch0 : VersionHistory :=
  NewVersionHistory [0] [NewVersionHistoryItem 5 12]

/-- Branch 1 of `TestRebuild`: one item `(2, 12)`. -/
def testBranch1 : VersionHistory :=
  NewVersionHistory [1] [NewVersionHistoryItem 2 12]

/-- The set of `TestRebuild` after `AddVersionHistory`: both branches, the
first one current. -/
def testVersionHistories : VersionHistories :=
  ⟨[testBranch0, testBranch1], 0⟩

/-- The set of `TestPrepareMutableState_Rebuild`: current branch `[(2, 12)]`,
stale branch `[(1, 12)]` at index 1. -/
def testStaleVersionHistories : VersionHistories :=
  ⟨[NewVersionHistory [0] [NewVersionHistoryItem 2 12],
    NewVersionHistory [1] [NewVersionHistoryItem 1 12]], 0⟩

/-- A set whose second branch `[(2, 12), (5, 13)]` is a strict extension of
the current branch `[(2, 12)]`. -/
def testExtendedVersionHistories : VersionHistories :=
  ⟨[NewVersionHistory [0] [NewVersionHistoryItem 2 12],
    NewVersionHistory [1] [NewVersionHistoryItem 2 12, NewVersionHistoryItem 5 13]], 0⟩

/-- The cached mutable state of the tests: update condition 59, pointing to
the object at address 0. -/
def testMutableState : MutableState :=
  ⟨0, ⟨"domain", "workflow", "run"⟩, 59, []⟩

/-- The mutable state the mocked state rebuilder hands back; it points to an
object of its own at address 1. -/
def testRebuiltMutableState : MutableState :=
  ⟨1, ⟨"domain", "workflow", "run"⟩, 0, [7]⟩

/-- The mocked state rebuilder of the tests: it returns the rebuilt state and
history size 12345. -/
def testStateRebuilder : StateRebuilder :=
  fun _ _ _ _ _ => .ok (testRebuiltMutableState, 12345)

/-- A state rebuilder that fails, as when the store is unavailable. -/
def failingStateRebuilder : StateRebuilder :=
  fun _ _ _ _ _ => .error (.external "store unavailable")

/-- The world of a test: the caller's set at address 0, elsewhere the set the
mocked rebuilt state returns in `TestRebuild` (one branch `[(2, 12)]` with a
nil token), and no collaborator invoked yet. -/
def testWorld (hs : VersionHistories) : World :=
  { heap := fun r =>
      if r = 0 then hs
      else NewVersionHistories (NewVersionHistory [] [NewVersionHistoryItem 2 12]),
    calls := [] }

/-! ## Admin handler (`service/frontend/adminHandler.go`) -/

/-- Modelled from the spec: constant `common.EmptyEventID` (package `common`
is not among the sources); the value is the upstream one. -/
def EmptyEventID : Int := -23

/-- Modelled from the spec: constant `common.EmptyVersion` (package `common`
is not among the sources); the value is the upstream one, distinct from
`EmptyEventID`. -/
def EmptyVersion : Int := -24

/-- Text of an error, `err.Error()`. -/
def Err.Error : Err → String
  | .emptyHistory => "EmptyHistory"
  | .indexOutOfRange => "IndexOutOfRange"
  | .itemNotFound => "ItemNotFound"
  | .noCommonAncestor => "NoCommonAncestor"
  | .badRequest m => m
  | .entityNotExists m => m
  | .internalServiceError m => m
  | .serviceBusy m => m
  | .external m => m

namespace VersionHistories

/-- Modelled from the spec: `FindFirstVersionHistoryIndexByItem(item)` (not
among the sources) scans `histories` and returns the index of the first branch
whose item sequence contains `item`; it fails with `ItemNotFound` if none
match. -/
def FindFirstVersionHistoryIndexByItem (h : VersionHistories) (item : VersionHistoryItem) :
    Except Err Int :=
  match h.histories.findIdx? (fun v => v.ContainsItem item) with
  | some i => .ok (i : Int)
  | none => .error .itemNotFound

end VersionHistories

/-- Modelled from the spec: `VersionHistory.ToProto()` (not among the sources)
converts a branch to its wire message, which carries the same branch token
and items; the message is represented by the same structure. -/
def VersionHistory.ToProto (v : VersionHistory) : VersionHistory := v

/-- Modelled from the spec: `VersionHistories.ToProto()` (not among the
sources), the wire message of a set, represented by the same structure. -/
def VersionHistories.ToProto (h : VersionHistories) : VersionHistories := h

/-- Modelled from the spec: `persistence.NewVersionHistoriesFromProto` (not
among the sources), the set a non-nil wire message stands for. -/
def NewVersionHistoriesFromProto (h : VersionHistories) : VersionHistories := h

/-- Length of a byte slice that may be nil, `len(b)`. -/
def lenBytes : Option (List Nat) → Nat
  | none => 0
  | some b => b.length

/-- Message `commonproto.WorkflowExecution`. -/
structure WorkflowExecution where
  WorkflowId : String
  RunId : String
deriving DecidableEq, Repr

/-- Getter `GetWorkflowId()`, which answers the empty string on a nil
execution. -/
def GetWorkflowId : Option WorkflowExecution → String
  | none => ""
  | some e => e.WorkflowId

/-- Getter `GetRunId()`, which answers the empty string on a nil execution. -/
def GetRunId : Option WorkflowExecution → String
  | none => ""
  | some e => e.RunId

/-- Message `commonproto.DataBlob`; `persistence.DataBlob` and its `ToProto()`
are represented by the same structure. -/
structure DataBlob where
  EncodingType : Nat
  Data : List Nat
deriving DecidableEq, Repr

/-- Constant `enums.EncodingTypeThriftRW`, kept as a tag. -/
def EncodingTypeThriftRW : Nat := 1

/-- Message `adminservice.GetWorkflowExecutionRawHistoryV2Request`;
`MaximumPageSize` is an `int32`, the event IDs and versions are `int64`. -/
structure GetWorkflowExecutionRawHistoryV2Request where
  Domain : String
  Execution : Option WorkflowExecution
  StartEventId : Int
  StartEventVersion : Int
  EndEventId : Int
  EndEventVersion : Int
  MaximumPageSize : Int
  NextPageToken : Option (List Nat)
deriving DecidableEq, Repr

/-- Message `adminservice.GetWorkflowExecutionRawHistoryV2Response`. -/
structure GetWorkflowExecutionRawHistoryV2Response where
  HistoryBatches : List DataBlob
  NextPageToken : Option (List Nat)
  VersionHistory : VersionHistory
deriving DecidableEq, Repr

/-- The page token of the V2 API, `getWorkflowRawHistoryV2Token`. -/
structure getWorkflowRawHistoryV2Token where
  DomainName : String
  WorkflowID : String
  RunID : String
  StartEventID : Int
  StartEventVersion : Int
  EndEventID : Int
  EndEventVersion : Int
  PersistenceToken : Option (List Nat)
  VersionHistories : Option VersionHistories
deriving DecidableEq, Repr

/-- Replication info of a mutable state, passed through unread. -/
abbrev ReplicationInfo := List (String × Int × Int)

/-- Message `adminservice.GetWorkflowExecutionRawHistoryRequest`. -/
structure GetWorkflowExecutionRawHistoryRequest where
  Domain : String
  Execution : Option WorkflowExecution
  FirstEventId : Int
  NextEventId : Int
  MaximumPageSize : Int
  NextPageToken : Option (List Nat)
deriving DecidableEq, Repr

/-- Message `adminservice.GetWorkflowExecutionRawHistoryResponse`. -/
structure GetWorkflowExecutionRawHistoryResponse where
  HistoryBatches : List DataBlob
  ReplicationInfo : ReplicationInfo
  NextPageToken : Option (List Nat)
deriving DecidableEq, Repr

/-- The continuation token of the first API,
`getHistoryContinuationTokenGRPC`, with the fields the handler uses. -/
structure getHistoryContinuationTokenGRPC where
  RunID : String
  BranchToken : List Nat
  FirstEventID : Int
  NextEventID : Int
  PersistenceToken : Option (List Nat)
  ReplicationInfo : ReplicationInfo
deriving DecidableEq, Repr

/-- The fields of `historyservice.GetMutableStateResponse` the handler reads;
the version histories are taken to be set. -/
structure GetMutableStateResponse where
  NextEventId : Int
  CurrentBranchToken : List Nat
  ReplicationInfo : ReplicationInfo
  VersionHistories : VersionHistories
deriving DecidableEq, Repr

/-- Request `persistence.ReadHistoryBranchRequest`. -/
structure ReadHistoryBranchRequest where
  BranchToken : List Nat
  MinEventID : Int
  MaxEventID : Int
  PageSize : Int
  NextPageToken : Option (List Nat)
  ShardID : Int
deriving DecidableEq, Repr

/-- Response `persistence.ReadRawHistoryBranchResponse`. -/
structure ReadRawHistoryBranchResponse where
  HistoryEventBlobs : List DataBlob
  NextPageToken : Option (List Nat)
  Size : Int
deriving DecidableEq, Repr

/-- The arguments of one call of `history.PaginateHistory`, after the history
manager and the by-batch flag. -/
structure PaginateHistoryCall where
  BranchToken : List Nat
  FirstEventID : Int
  NextEventID : Int
  PersistenceToken : Option (List Nat)
  PageSize : Int
  ShardID : Int
deriving DecidableEq, Repr

/-- One read of the history store by a handler. -/
inductive StoreRead where
  | readRawHistoryBranch (request : ReadHistoryBranchRequest)
  | paginateHistory (call : PaginateHistoryCall)
deriving DecidableEq, Repr

/-- The handler with its collaborators, none of which is among the sources:
the domain cache, the history client, the history manager,
`history.PaginateHistory`, the payload serializer, `uuid.Parse` (true when the
result is not nil), `common.WorkflowIDToHistoryShard`, the JSON codec of the
two tokens, `status.FromError` and `adapter.ToProtoError`. A batch of history
events is a list of numbers. Metrics and logging leave no trace here. -/
structure AdminHandler where
  numberOfHistoryShards : Int
  GetDomainID : String → Except Err String
  GetMutableState : String → Option WorkflowExecution → Except Err GetMutableStateResponse
  ReadRawHistoryBranch : ReadHistoryBranchRequest → Except Err ReadRawHistoryBranchResponse
  PaginateHistory : PaginateHistoryCall →
    Except Err (List (List Nat) × Option (List Nat) × Int)
  SerializeBatchEvents : List Nat → Except Err (List Nat)
  uuidParse : String → Bool
  WorkflowIDToHistoryShard : String → Int → Int
  jsonMarshalRawHistoryToken : getWorkflowRawHistoryV2Token → Except Err (List Nat)
  jsonUnmarshalRawHistoryToken : List Nat → Except Err getWorkflowRawHistoryV2Token
  jsonMarshalHistoryToken : getHistoryContinuationTokenGRPC → Except Err (List Nat)
  jsonUnmarshalHistoryToken : List Nat → Except Err getHistoryContinuationTokenGRPC
  statusFromError : Err → Bool
  ToProtoError : Err → Err

namespace AdminHandler

/-- Function `errorThrift`: the four known kinds pass, any other error becomes
an internal service error carrying its text. -/
def errorThrift (_adh : AdminHandler) (err : Err) : Err :=
  match err with
  | .internalServiceError _ => err
  | .badRequest _ => err
  | .serviceBusy _ => err
  | .entityNotExists _ => err
  | _ => .internalServiceError err.Error

/-- Function `error`: a gRPC status error passes, any other error goes through
`errorThrift` and `adapter.ToProtoError`. -/
def error (adh : AdminHandler) (err : Err) : Err :=
  if adh.statusFromError err then err
  else adh.ToProtoError (adh.errorThrift err)

/-- Function `serializeRawHistoryToken`. -/
def serializeRawHistoryToken (adh : AdminHandler) :
    Option getWorkflowRawHistoryV2Token → Except Err (Option (List Nat))
  | none => .ok none
  | some token =>
    match adh.jsonMarshalRawHistoryToken token with
    | .error e => .error e
    | .ok bytes => .ok (some bytes)

/-- Function `deserializeRawHistoryToken`. -/
def deserializeRawHistoryToken (adh : AdminHandler) (bytes : List Nat) :
    Except Err getWorkflowRawHistoryV2Token :=
  adh.jsonUnmarshalRawHistoryToken bytes

/-- Function `deserializeHistoryToken`. -/
def deserializeHistoryToken (adh : AdminHandler) (bytes : List Nat) :
    Except Err getHistoryContinuationTokenGRPC :=
  adh.jsonUnmarshalHistoryToken bytes

/-- Function `serializeHistoryToken`. -/
def serializeHistoryToken (adh : AdminHandler) :
    Option getHistoryContinuationTokenGRPC → Except Err (Option (List Nat))
  | none => .ok none
  | some token =>
    match adh.jsonMarshalHistoryToken token with
    | .error e => .error e
    | .ok bytes => .ok (some bytes)

/-- Function `validateGetWorkflowExecutionRawHistoryV2Request`; the result is
the error, `none` for nil. -/
def validateGetWorkflowExecutionRawHistoryV2Request (adh : AdminHandler)
    (request : GetWorkflowExecutionRawHistoryV2Request) : Option Err :=
  let execution := request.Execution
  if (GetWorkflowId execution).length = 0 then
    some (.badRequest "Invalid WorkflowID.")
  else if (GetRunId execution).length = 0 ∨ adh.uuidParse (GetRunId execution) = false then
    some (.badRequest "Invalid RunID.")
  else
    let pageSize := request.MaximumPageSize
    if pageSize ≤ 0 then
      some (.badRequest "Invalid PageSize.")
    else if request.StartEventId = EmptyEventID ∧
        request.StartEventVersion = EmptyVersion ∧
        request.EndEventId = EmptyEventID ∧
        request.EndEventVersion = EmptyVersion then
      some (.badRequest "Invalid event query range.")
    else if (request.StartEventId ≠ EmptyEventID ∧ request.StartEventVersion = EmptyVersion) ∨
        (request.StartEventId = EmptyEventID ∧ request.StartEventVersion ≠ EmptyVersion) then
      some (.badRequest "Invalid start event id and start event version combination.")
    else if (request.EndEventId ≠ EmptyEventID ∧ request.EndEventVersion = EmptyVersion) ∨
        (request.EndEventId = EmptyEventID ∧ request.EndEventVersion ≠ EmptyVersion) then
      some (.badRequest "Invalid end event id and end event version combination.")
    else none

/-- Lines 822-827 of `setRequestDefaultValueAndGetTargetVersionHistory`: the
default of the start event. The test on the start event ID compares it with
`common.EmptyVersion`, as the source does. -/
def startEventDefaulted (request : GetWorkflowExecutionRawHistoryV2Request)
    (firstItem : VersionHistoryItem) : GetWorkflowExecutionRawHistoryV2Request :=
  if request.StartEventId = EmptyVersion ∨ request.StartEventVersion = EmptyVersion then
    { request with
        StartEventId := FirstEventID - 1
        StartEventVersion := firstItem.version }
  else request

/-- Lines 828-833 of `setRequestDefaultValueAndGetTargetVersionHistory`: the
default of the end event. -/
def endEventDefaulted (request : GetWorkflowExecutionRawHistoryV2Request)
    (lastItem : VersionHistoryItem) : GetWorkflowExecutionRawHistoryV2Request :=
  if request.EndEventId = EmptyEventID ∨ request.EndEventVersion = EmptyVersion then
    { request with
        EndEventId := wrapInt64 (lastItem.eventID + 1)
        EndEventVersion := lastItem.version }
  else request

/-- Function `setRequestDefaultValueAndGetTargetVersionHistory`. The request
is a pointer in the source and is changed in place, so the result carries the
request as the call leaves it, also when the call fails. -/
def setRequestDefaultValueAndGetTargetVersionHistory (_adh : AdminHandler)
    (request : GetWorkflowExecutionRawHistoryV2Request)
    (versionHistories : VersionHistories) :
    Except Err VersionHistory × GetWorkflowExecutionRawHistoryV2Request :=
  match versionHistories.GetCurrentVersionHistory with
  | .error e => (.error e, request)
  | .ok currentBranch =>
    match currentBranch.GetFirstItem with
    | .error e => (.error e, request)
    | .ok firstItem =>
      match currentBranch.GetLastItem with
      | .error e => (.error e, request)
      | .ok lastItem =>
        let request1 := startEventDefaulted request firstItem
        let request2 := endEventDefaulted request1 lastItem
        if request2.StartEventId < 0 then
          (.error (.badRequest "Invalid FirstEventID && NextEventID combination."), request2)
        else
          let target : Except Err VersionHistory :=
            if request2.EndEventId = wrapInt64 (lastItem.eventID + 1) ∧
                request2.EndEventVersion = lastItem.version then
              .ok currentBranch
            else
              let endItem := NewVersionHistoryItem request2.EndEventId request2.EndEventVersion
              match versionHistories.FindFirstVersionHistoryIndexByItem endItem with
              | .error e => .error e
              | .ok idx => versionHistories.GetVersionHistory idx
          match target with
          | .error e => (.error e, request2)
          | .ok targetBranch =>
            let startItem :=
              NewVersionHistoryItem request2.StartEventId request2.StartEventVersion
            if request2.StartEventId = FirstEventID - 1 ∧
                request2.StartEventVersion = firstItem.version then
              (.ok targetBranch, request2)
            else if targetBranch.ContainsItem startItem = false then
              match versionHistories.FindFirstVersionHistoryIndexByItem startItem with
              | .error e => (.error e, request2)
              | .ok idx =>
                match versionHistories.GetVersionHistory idx with
                | .error e => (.error e, request2)
                | .ok startBranch =>
                  match targetBranch.FindLCAItem startBranch with
                  | .error e => (.error e, request2)
                  | .ok lca =>
                    (.ok targetBranch,
                      { request2 with
                          StartEventId := lca.eventID
                          StartEventVersion := lca.version })
            else (.ok targetBranch, request2)

/-- Function `generatePaginationToken`. -/
def generatePaginationToken (_adh : AdminHandler)
    (request : GetWorkflowExecutionRawHistoryV2Request)
    (versionHistories : VersionHistories) : getWorkflowRawHistoryV2Token :=
  let execution := request.Execution
  { DomainName := request.Domain
    WorkflowID := GetWorkflowId execution
    RunID := GetRunId execution
    StartEventID := request.StartEventId
    StartEventVersion := request.StartEventVersion
    EndEventID := request.EndEventId
    EndEventVersion := request.EndEventVersion
    VersionHistories := some versionHistories.ToProto
    PersistenceToken := none }

/-- Function `validatePaginationToken`; the result is the error, `none` for
nil. -/
def validatePaginationToken (_adh : AdminHandler)
    (request : GetWorkflowExecutionRawHistoryV2Request)
    (token : getWorkflowRawHistoryV2Token) : Option Err :=
  let execution := request.Execution
  if request.Domain ≠ token.DomainName ∨
      GetWorkflowId execution ≠ token.WorkflowID ∨
      GetRunId execution ≠ token.RunID ∨
      request.StartEventId ≠ token.StartEventID ∨
      request.StartEventVersion ≠ token.StartEventVersion ∨
      request.EndEventId ≠ token.EndEventID ∨
      request.EndEventVersion ≠ token.EndEventVersion then
    some (.badRequest "Invalid pagination token.")
  else none

end AdminHandler

namespace AdminHandler

/-- The part of `GetWorkflowExecutionRawHistoryV2` that precedes the store
read (validation, domain lookup, target branch, page token and its
validation): the request as the defaults leave it, the target version history
and the page token, or the error the handler returns. -/
def prepareRawHistoryV2 (adh : AdminHandler)
    (request : GetWorkflowExecutionRawHistoryV2Request) :
    Except Err (GetWorkflowExecutionRawHistoryV2Request × VersionHistory ×
      getWorkflowRawHistoryV2Token) :=
  match adh.validateGetWorkflowExecutionRawHistoryV2Request request with
  | some err => .error (adh.error err)
  | none =>
    match adh.GetDomainID request.Domain with
    | .error err => .error (adh.error err)
    | .ok domainID =>
      let execution := request.Execution
      let resolved : Except Err (GetWorkflowExecutionRawHistoryV2Request × VersionHistory ×
          getWorkflowRawHistoryV2Token) :=
        match request.NextPageToken with
        | none =>
          match adh.GetMutableState domainID execution with
          | .error err => .error (adh.error err)
          | .ok response =>
            let versionHistories := NewVersionHistoriesFromProto response.VersionHistories
            match adh.setRequestDefaultValueAndGetTargetVersionHistory request
                versionHistories with
            | (.error err, _) => .error (adh.error err)
            | (.ok targetVersionHistory, request1) =>
              .ok (request1, targetVersionHistory,
                adh.generatePaginationToken request1 versionHistories)
        | some bytes =>
          match adh.deserializeRawHistoryToken bytes with
          | .error err => .error (adh.error err)
          | .ok pageToken =>
            match pageToken.VersionHistories with
            | none => .error (adh.error (.badRequest "Invalid version histories."))
            | some versionHistories =>
              match adh.setRequestDefaultValueAndGetTargetVersionHistory request
                  (NewVersionHistoriesFromProto versionHistories) with
              | (.error err, _) => .error (adh.error err)
              | (.ok targetVersionHistory, request1) =>
                .ok (request1, targetVersionHistory, pageToken)
      match resolved with
      | .error err => .error err
      | .ok (request1, targetVersionHistory, pageToken) =>
        match adh.validatePaginationToken request1 pageToken with
        | some err => .error (adh.error err)
        | none => .ok (request1, targetVersionHistory, pageToken)

/-- The request `GetWorkflowExecutionRawHistoryV2` hands to
`ReadRawHistoryBranch`. -/
def rawHistoryV2ReadRequest (adh : AdminHandler)
    (request : GetWorkflowExecutionRawHistoryV2Request)
    (targetVersionHistory : VersionHistory) (pageToken : getWorkflowRawHistoryV2Token) :
    ReadHistoryBranchRequest :=
  { BranchToken := targetVersionHistory.branchToken
    MinEventID := wrapInt64 (pageToken.StartEventID + 1)
    MaxEventID := pageToken.EndEventID
    PageSize := request.MaximumPageSize
    NextPageToken := pageToken.PersistenceToken
    ShardID := adh.WorkflowIDToHistoryShard (GetWorkflowId request.Execution)
      adh.numberOfHistoryShards }

/-- Function `GetWorkflowExecutionRawHistoryV2`: the response or the error,
and the reads of the history store it made. -/
def GetWorkflowExecutionRawHistoryV2 (adh : AdminHandler)
    (request : GetWorkflowExecutionRawHistoryV2Request) :
    Except Err GetWorkflowExecutionRawHistoryV2Response × List StoreRead :=
  match adh.prepareRawHistoryV2 request with
  | .error err => (.error err, [])
  | .ok (request1, targetVersionHistory, pageToken) =>
    if wrapInt64 (pageToken.StartEventID + 1) = pageToken.EndEventID then
      (.ok { HistoryBatches := []
             NextPageToken := none
             VersionHistory := targetVersionHistory.ToProto }, [])
    else
      let readRequest := adh.rawHistoryV2ReadRequest request1 targetVersionHistory pageToken
      let reads := [StoreRead.readRawHistoryBranch readRequest]
      match adh.ReadRawHistoryBranch readRequest with
      | .error err =>
        match err with
        | .entityNotExists _ =>
          (.ok { HistoryBatches := []
                 NextPageToken := none
                 VersionHistory := targetVersionHistory.ToProto }, reads)
        | _ => (.error err, reads)
      | .ok rawHistoryResponse =>
        let pageToken1 :=
          { pageToken with PersistenceToken := rawHistoryResponse.NextPageToken }
        let blobs := rawHistoryResponse.HistoryEventBlobs
        if lenBytes pageToken1.PersistenceToken = 0 then
          (.ok { HistoryBatches := blobs
                 NextPageToken := none
                 VersionHistory := targetVersionHistory.ToProto }, reads)
        else
          match adh.serializeRawHistoryToken (some pageToken1) with
          | .error err => (.error err, reads)
          | .ok bytes =>
            (.ok { HistoryBatches := blobs
                   NextPageToken := bytes
                   VersionHistory := targetVersionHistory.ToProto }, reads)

/-- The part of `GetWorkflowExecutionRawHistory` that precedes the store read:
the checks of the request and the continuation token, taken from the request
or built from the mutable state. -/
def prepareRawHistory (adh : AdminHandler)
    (request : GetWorkflowExecutionRawHistoryRequest) :
    Except Err getHistoryContinuationTokenGRPC :=
  match adh.GetDomainID request.Domain with
  | .error err => .error (adh.error err)
  | .ok domainID =>
    let execution := request.Execution
    if (GetWorkflowId execution).length = 0 then
      .error (.badRequest "Invalid WorkflowID.")
    else if (GetRunId execution).length = 0 ∨ adh.uuidParse (GetRunId execution) = false then
      .error (.badRequest "Invalid RunID.")
    else
      let pageSize := request.MaximumPageSize
      if pageSize ≤ 0 then
        .error (.badRequest "Invalid PageSize.")
      else
        match request.NextPageToken with
        | some bytes =>
          match adh.deserializeHistoryToken bytes with
          | .error err => .error err
          | .ok token =>
            if GetRunId execution ≠ token.RunID ∨
                request.FirstEventId ≠ token.FirstEventID ∨
                request.NextEventId < token.NextEventID then
              .error (.badRequest "Invalid pagination token.")
            else .ok token
        | none =>
          let firstEventID := request.FirstEventId
          let nextEventID := request.NextEventId
          if firstEventID < 0 ∨ firstEventID > nextEventID then
            .error (.badRequest "Invalid FirstEventID && NextEventID combination.")
          else
            match adh.GetMutableState domainID execution with
            | .error err => .error err
            | .ok response =>
              let nextEventID1 :=
                if nextEventID > response.NextEventId then response.NextEventId
                else nextEventID
              .ok { RunID := GetRunId execution
                    BranchToken := response.CurrentBranchToken
                    FirstEventID := firstEventID
                    NextEventID := nextEventID1
                    PersistenceToken := none
                    ReplicationInfo := response.ReplicationInfo }

/-- The loop of `GetWorkflowExecutionRawHistory` over the history batches:
each batch is serialized into a blob, the first failure ends the call. -/
def serializeHistoryBatches (adh : AdminHandler) :
    List (List Nat) → Except Err (List DataBlob)
  | [] => .ok []
  | historyBatch :: rest =>
    match adh.SerializeBatchEvents historyBatch with
    | .error err => .error err
    | .ok data =>
      match serializeHistoryBatches adh rest with
      | .error err => .error err
      | .ok blobs => .ok ({ EncodingType := EncodingTypeThriftRW, Data := data } :: blobs)

/-- The arguments `GetWorkflowExecutionRawHistory` hands to
`history.PaginateHistory`. -/
def rawHistoryPaginateCall (adh : AdminHandler)
    (request : GetWorkflowExecutionRawHistoryRequest)
    (token : getHistoryContinuationTokenGRPC) : PaginateHistoryCall :=
  { BranchToken := token.BranchToken
    FirstEventID := token.FirstEventID
    NextEventID := token.NextEventID
    PersistenceToken := token.PersistenceToken
    PageSize := request.MaximumPageSize
    ShardID := adh.WorkflowIDToHistoryShard (GetWorkflowId request.Execution)
      adh.numberOfHistoryShards }

/-- Function `GetWorkflowExecutionRawHistory`: the response or the error, and
the reads of the history store it made. -/
def GetWorkflowExecutionRawHistory (adh : AdminHandler)
    (request : GetWorkflowExecutionRawHistoryRequest) :
    Except Err GetWorkflowExecutionRawHistoryResponse × List StoreRead :=
  match adh.prepareRawHistory request with
  | .error err => (.error err, [])
  | .ok token =>
    if token.FirstEventID ≥ token.NextEventID then
      (.ok { HistoryBatches := []
             ReplicationInfo := token.ReplicationInfo
             NextPageToken := none }, [])
    else
      let call := adh.rawHistoryPaginateCall request token
      let reads := [StoreRead.paginateHistory call]
      match adh.PaginateHistory call with
      | .error err =>
        match err with
        | .entityNotExists _ =>
          (.ok { HistoryBatches := []
                 ReplicationInfo := token.ReplicationInfo
                 NextPageToken := none }, reads)
        | _ => (.error err, reads)
      | .ok (historyBatches, persistenceToken, _size) =>
        let token1 := { token with PersistenceToken := persistenceToken }
        match adh.serializeHistoryBatches historyBatches with
        | .error err => (.error err, reads)
        | .ok blobs =>
          if lenBytes token1.PersistenceToken = 0 then
            (.ok { HistoryBatches := blobs
                   ReplicationInfo := token1.ReplicationInfo
                   NextPageToken := none }, reads)
          else
            match adh.serializeHistoryToken (some token1) with
            | .error err => (.error err, reads)
            | .ok bytes =>
              (.ok { HistoryBatches := blobs
                     ReplicationInfo := token1.ReplicationInfo
                     NextPageToken := bytes }, reads)

end AdminHandler

/-! ## Scenarios for the admin handler -/

/-- A set of two branches that share the events 1 to 3 at version 11: the
current one goes on to event 5 at version 12, the other one to event 4 at
version 13. -/
def adminVersionHistories : VersionHistories :=
  ⟨[NewVersionHistory [0] [NewVersionHistoryItem 3 11, NewVersionHistoryItem 5 12],
    NewVersionHistory [1] [NewVersionHistoryItem 3 11, NewVersionHistoryItem 4 13]], 0⟩

/-- A V2 request with the given start and end event, page size 10 and no page
token. -/
def adminRequestV2 (startEventId startEventVersion endEventId endEventVersion : Int) :
    GetWorkflowExecutionRawHistoryV2Request :=
  { Domain := "domain"
    Execution := some ⟨"workflow", "run"⟩
    StartEventId := startEventId
    StartEventVersion := startEventVersion
    EndEventId := endEventId
    EndEventVersion := endEventVersion
    MaximumPageSize := 10
    NextPageToken := none }

/-- A request of the first API with the given range, page size 10 and no page
token. -/
def adminRequest (firstEventId nextEventId : Int) : GetWorkflowExecutionRawHistoryRequest :=
  { Domain := "domain"
    Execution := some ⟨"workflow", "run"⟩
    FirstEventId := firstEventId
    NextEventId := nextEventId
    MaximumPageSize := 10
    NextPageToken := none }

/-- A handler whose collaborators all succeed: the mutable state has next
event ID 6 and the set `adminVersionHistories`, the store returns one blob and
the continuation token `[9]`. -/
def testAdminHandler : AdminHandler :=
  { numberOfHistoryShards := 4
    GetDomainID := fun _ => .ok "domain-id"
    GetMutableState := fun _ _ =>
      .ok { NextEventId := 6
            CurrentBranchToken := [0]
            ReplicationInfo := []
            VersionHistories := adminVersionHistories }
    ReadRawHistoryBranch := fun _ =>
      .ok { HistoryEventBlobs := [⟨1, [7]⟩], NextPageToken := some [9], Size := 1 }
    PaginateHistory := fun _ => .ok ([[7]], some [9], 1)
    SerializeBatchEvents := fun events => .ok events
    uuidParse := fun _ => true
    WorkflowIDToHistoryShard := fun _ _ => 0
    jsonMarshalRawHistoryToken := fun _ => .ok [1]
    jsonUnmarshalRawHistoryToken := fun _ => .error (.external "unexpected end of JSON input")
    jsonMarshalHistoryToken := fun _ => .ok [2]
    jsonUnmarshalHistoryToken := fun _ => .error (.external "unexpected end of JSON input")
    statusFromError := fun _ => false
    ToProtoError := fun err => err }

/-- The handler `testAdminHandler` over a store that has no events to return:
every read fails with an `EntityNotExistsError`. -/
def emptyStoreAdminHandler : AdminHandler :=
  { testAdminHandler with
    ReadRawHistoryBranch := fun _ => .error (.entityNotExists "no events")
    PaginateHistory := fun _ => .error (.entityNotExists "no events") }

/-- The handler `testAdminHandler` over a store that is busy. -/
def busyStoreAdminHandler : AdminHandler :=
  { testAdminHandler with
    ReadRawHistoryBranch := fun _ => .error (.serviceBusy "busy")
    PaginateHistory := fun _ => .error (.serviceBusy "busy") }

/-! ## Further parts of the admin handler and the enum adapter -/

/-- Lines 839-854 of `setRequestDefaultValueAndGetTargetVersionHistory`, the
choice of the target branch, for the request as the defaults leave it: the
current branch when the end event is its last item moved on by one, otherwise
the first branch that contains the end item. -/
def AdminHandler.targetBranchByEndItem (versionHistories : VersionHistories)
    (currentBranch : VersionHistory) (lastItem : VersionHistoryItem)
    (request2 : GetWorkflowExecutionRawHistoryV2Request) : Except Err VersionHistory :=
  if request2.EndEventId = wrapInt64 (lastItem.eventID + 1) ∧
      request2.EndEventVersion = lastItem.version then
    .ok currentBranch
  else
    match versionHistories.FindFirstVersionHistoryIndexByItem
        (NewVersionHistoryItem request2.EndEventId request2.EndEventVersion) with
    | .error e => .error e
    | .ok idx => versionHistories.GetVersionHistory idx

/-- The two settings of `Config` that `checkPermission` reads, each a dynamic
property read once. -/
structure Config where
  EnableAdminProtection : Bool
  AdminOperationToken : String
deriving DecidableEq, Repr

/-- Modelled from the spec: the error value `errNoPermission` is declared in
a file of package `frontend` that is not among the sources; upstream it is a
`BadRequestError` with this message. -/
def errNoPermission : Err := .badRequest "No permission to do this operation."

/-- Function `checkPermission`; the result is the error, `none` for nil. -/
def AdminHandler.checkPermission (_adh : AdminHandler) (config : Config)
    (securityToken : String) : Option Err :=
  if config.EnableAdminProtection = true then
    if securityToken = "" then some errNoPermission
    else
      let requiredToken := config.AdminOperationToken
      if securityToken ≠ requiredToken then some errNoPermission
      else none
  else none

/-- Two's-complement wrap of an integer to the `int32` range, the range of
the enum types of both schemas. -/
def wrapInt32 (x : Int) : Int := (x + 2 ^ 31) % 2 ^ 32 - 2 ^ 31

/-- Modelled from the spec: constant `enums.ArchivalStatusDefault` (package
`enums` is not among the sources), the zero value of its enum. -/
def ArchivalStatusDefault : Int := 0

/-- Modelled from the spec: constant
`enums.WorkflowExecutionCloseStatusRunning` (not among the sources), the zero
value of its enum. -/
def WorkflowExecutionCloseStatusRunning : Int := 0

/-- Modelled from the spec: constant `enums.ContinueAsNewInitiatorNotSet`
(not among the sources), the zero value of its enum. -/
def ContinueAsNewInitiatorNotSet : Int := 0

/-- Function `ToThriftArchivalStatus` of `common/adapter/enums.go`; the
result is a pointer, `none` for nil. -/
def ToThriftArchivalStatus (value : Int) : Option Int :=
  if value = ArchivalStatusDefault then none
  else some (wrapInt32 (value - 1))

/-- Function `ToProtoArchivalStatus`. -/
def ToProtoArchivalStatus : Option Int → Int
  | none => ArchivalStatusDefault
  | some value => wrapInt32 (value + 1)

/-- Function `ToProtoWorkflowExecutionCloseStatus`. -/
def ToProtoWorkflowExecutionCloseStatus : Option Int → Int
  | none => WorkflowExecutionCloseStatusRunning
  | some value => wrapInt32 (value + 1)

/-- Function `ToThriftWorkflowExecutionCloseStatus`. -/
def ToThriftWorkflowExecutionCloseStatus (value : Int) : Option Int :=
  if value = WorkflowExecutionCloseStatusRunning then none
  else some (wrapInt32 (value - 1))

/-- Function `ToThriftContinueAsNewInitiator`. -/
def ToThriftContinueAsNewInitiator (value : Int) : Option Int :=
  if value = ContinueAsNewInitiatorNotSet then none
  else some (wrapInt32 (value - 1))

/-- Function `ToProtoContinueAsNewInitiator`. -/
def ToProtoContinueAsNewInitiator : Option Int → Int
  | none => ContinueAsNewInitiatorNotSet
  | some value => wrapInt32 (value + 1)

/-- Whether an error is of one of the four kinds `errorThrift` names. -/
def Err.isThriftKind : Err → Bool
  | .internalServiceError _ => true
  | .badRequest _ => true
  | .serviceBusy _ => true
  | .entityNotExists _ => true
  | _ => false

/-- A request of the first API with a page token. -/
def adminRequestWithToken (runId : String) (firstEventId nextEventId : Int) :
    GetWorkflowExecutionRawHistoryRequest :=
  { Domain := "domain"
    Execution := some ⟨"workflow", runId⟩
    FirstEventId := firstEventId
    NextEventId := nextEventId
    MaximumPageSize := 10
    NextPageToken := some [2] }

/-- The handler `testAdminHandler` with a JSON codec that reads every page
token of the first API as the token of run `run` for the events 1 to 6. -/
def tokenAdminHandler : AdminHandler :=
  { testAdminHandler with
    jsonUnmarshalHistoryToken := fun _ => .ok ⟨"run", [0], 1, 6, some [9], []⟩ }

end Temporal

/-! ## Theorems -/

namespace Temporal
open VersionHistory VersionHistories

theorem containsItemFrom_mem (it : VersionHistoryItem) :
    ∀ (l : List VersionHistoryItem) (prev : Int), containsItemFrom prev l it = true →
      ∃ z ∈ l, z.version = it.version ∧ it.eventID ≤ z.eventID := by
  intro l
  induction l with
  | nil => intro prev h; simp [containsItemFrom] at h
  | cons cur rest ih =>
    intro prev h
    simp only [containsItemFrom, Bool.or_eq_true, Bool.and_eq_true, decide_eq_true_eq] at h
    rcases h with ⟨⟨hv, _⟩, hle⟩ | h
    · exact ⟨cur, List.mem_cons_self _ _, hv.symm, hle⟩
    · obtain ⟨z, hz, h1, h2⟩ := ih _ h
      exact ⟨z, List.mem_cons_of_mem _ hz, h1, h2⟩

theorem containsItemFrom_prev_lt (it : VersionHistoryItem) :
    ∀ (l : List VersionHistoryItem) (prev : Int), containsItemFrom prev l it = true →
      (∀ z ∈ l, prev < z.eventID) → l.Pairwise (fun x y => x.eventID < y.eventID) →
      prev < it.eventID := by
  intro l
  induction l with
  | nil => intro prev h; simp [containsItemFrom] at h
  | cons cur rest ih =>
    intro prev h hprev hs
    simp only [containsItemFrom, Bool.or_eq_true, Bool.and_eq_true, decide_eq_true_eq] at h
    rcases h with ⟨⟨_, hlt⟩, _⟩ | h
    · exact hlt
    · rw [List.pairwise_cons] at hs
      have h1 := ih _ h hs.1 hs.2
      have h2 := hprev cur (List.mem_cons_self _ _)
      omega

theorem containsItemFrom_cover (it : VersionHistoryItem) :
    ∀ (l : List VersionHistoryItem) (prev : Int), containsItemFrom prev l it = true →
      l.Pairwise (fun x y => x.eventID < y.eventID) →
      ∃ c ∈ l, c.version = it.version ∧ it.eventID ≤ c.eventID ∧
        ∀ z ∈ l, it.eventID ≤ z.eventID → z = c ∨ c.eventID < z.eventID := by
  intro l
  induction l with
  | nil => intro prev h; simp [containsItemFrom] at h
  | cons cur rest ih =>
    intro prev h hs
    rw [List.pairwise_cons] at hs
    simp only [containsItemFrom, Bool.or_eq_true, Bool.and_eq_true, decide_eq_true_eq] at h
    rcases h with ⟨⟨hv, _⟩, hle⟩ | h
    · refine ⟨cur, List.mem_cons_self _ _, hv.symm, hle, ?_⟩
      intro z hz _
      rcases List.mem_cons.mp hz with rfl | hz
      · exact Or.inl rfl
      · exact Or.inr (hs.1 z hz)
    · obtain ⟨c, hc, h1, h2, h3⟩ := ih _ h hs.2
      have hlt := containsItemFrom_prev_lt it rest _ h hs.1 hs.2
      refine ⟨c, List.mem_cons_of_mem _ hc, h1, h2, ?_⟩
      intro z hz hle
      rcases List.mem_cons.mp hz with rfl | hz
      · omega
      · exact h3 z hz hle

theorem head_ge_of_mem {x c : VersionHistoryItem} {xs : List VersionHistoryItem}
    (hv : (x :: xs).Pairwise (fun a b => b.version ≤ a.version))
    (he : (x :: xs).Pairwise (fun a b => b.eventID < a.eventID))
    (hc : c ∈ x :: xs) : c.version ≤ x.version ∧ c.eventID ≤ x.eventID := by
  rw [List.pairwise_cons] at hv he
  rcases List.mem_cons.mp hc with rfl | hc
  · exact ⟨le_refl _, le_refl _⟩
  · exact ⟨hv.1 c hc, le_of_lt (he.1 c hc)⟩

theorem findLCAFromEnd_fork (p : VersionHistoryItem) :
    ∀ (A B : List VersionHistoryItem),
      A.Pairwise (fun a b => b.version ≤ a.version) →
      A.Pairwise (fun a b => b.eventID < a.eventID) →
      B.Pairwise (fun a b => b.version ≤ a.version) →
      B.Pairwise (fun a b => b.eventID < a.eventID) →
      (∃ c ∈ A, c.version = p.version ∧ p.eventID ≤ c.eventID) →
      (∃ c ∈ B, c.version = p.version ∧ p.eventID ≤ c.eventID) →
      (∀ z ∈ A, z.eventID = p.eventID → z.version = p.version) →
      (∀ z ∈ B, z.eventID = p.eventID → z.version = p.version) →
      (∀ x ∈ A, ∀ y ∈ B, p.eventID < x.eventID → p.eventID < y.eventID →
        x.version ≠ y.version) →
      findLCAFromEnd A B = .ok p := by
  intro A B
  induction A, B using findLCAFromEnd.induct with
  | case1 ys =>
    intro _ _ _ _ hcA
    obtain ⟨c, hc, _⟩ := hcA
    simp at hc
  | case2 x xs =>
    intro _ _ _ _ _ hcB
    obtain ⟨c, hc, _⟩ := hcB
    simp at hc
  | case3 x xs y ys hv he =>
    intro hAv hAe hBv hBe hcA hcB hAp hBp hd
    obtain ⟨cA, hcA, hcAv, hcAe⟩ := hcA
    obtain ⟨cB, hcB, hcBv, hcBe⟩ := hcB
    have hx := head_ge_of_mem hAv hAe hcA
    have hy := head_ge_of_mem hBv hBe hcB
    have hye : y.eventID = p.eventID := by
      by_contra hne
      exact hd x (List.mem_cons_self _ _) y (List.mem_cons_self _ _) (by omega) (by omega) hv
    have hyv := hBp y (List.mem_cons_self _ _) hye
    have hyp : y = p := by cases y; cases p; simp_all
    rw [findLCAFromEnd, if_pos hv, if_pos he, hyp]
  | case4 x xs y ys hv he =>
    intro hAv hAe hBv hBe hcA hcB hAp hBp hd
    obtain ⟨cA, hcA, hcAv, hcAe⟩ := hcA
    obtain ⟨cB, hcB, hcBv, hcBe⟩ := hcB
    have hx := head_ge_of_mem hAv hAe hcA
    have hy := head_ge_of_mem hBv hBe hcB
    have hxe : x.eventID = p.eventID := by
      by_contra hne
      exact hd x (List.mem_cons_self _ _) y (List.mem_cons_self _ _) (by omega) (by omega) hv
    have hxv := hAp x (List.mem_cons_self _ _) hxe
    have hxp : x = p := by cases x; cases p; simp_all
    rw [findLCAFromEnd, if_pos hv, if_neg he, hxp]
  | case5 x xs y ys hv hgt ih =>
    intro hAv hAe hBv hBe hcA hcB hAp hBp hd
    rw [findLCAFromEnd]
    simp only [hv, hgt, if_true, if_false]
    obtain ⟨cA, hcA, hcAv, hcAe⟩ := hcA
    obtain ⟨cB, hcB', hcBv, hcBe⟩ := hcB
    have hy := head_ge_of_mem hBv hBe hcB'
    have hcxs : cA ∈ xs := by
      rcases List.mem_cons.mp hcA with rfl | h
      · omega
      · exact h
    exact ih (List.Pairwise.of_cons hAv) (List.Pairwise.of_cons hAe) hBv hBe
      ⟨cA, hcxs, hcAv, hcAe⟩ ⟨cB, hcB', hcBv, hcBe⟩
      (fun z hz => hAp z (List.mem_cons_of_mem _ hz)) hBp
      (fun a ha b hb => hd a (List.mem_cons_of_mem _ ha) b hb)
  | case6 x xs y ys hv hgt ih =>
    intro hAv hAe hBv hBe hcA hcB hAp hBp hd
    rw [findLCAFromEnd]
    simp only [hv, hgt, if_true, if_false]
    obtain ⟨cA, hcA', hcAv, hcAe⟩ := hcA
    obtain ⟨cB, hcB, hcBv, hcBe⟩ := hcB
    have hx := head_ge_of_mem hAv hAe hcA'
    have hcys : cB ∈ ys := by
      rcases List.mem_cons.mp hcB with rfl | h
      · omega
      · exact h
    exact ih hAv hAe (List.Pairwise.of_cons hBv) (List.Pairwise.of_cons hBe)
      ⟨cA, hcA', hcAv, hcAe⟩ ⟨cB, hcys, hcBv, hcBe⟩
      hAp (fun z hz => hBp z (List.mem_cons_of_mem _ hz))
      (fun a ha b hb => hd a ha b (List.mem_cons_of_mem _ hb))

theorem findLCAFromEnd_comm (xs ys : List VersionHistoryItem) :
    findLCAFromEnd xs ys = findLCAFromEnd ys xs := by
  induction xs, ys using findLCAFromEnd.induct with
  | case1 ys => cases ys <;> simp [findLCAFromEnd]
  | case2 x xs => simp [findLCAFromEnd]
  | case3 x xs y ys hv he =>
    have h2 : ¬ y.eventID > x.eventID := by omega
    simp [findLCAFromEnd, hv, he, h2]
  | case4 x xs y ys hv he =>
    rw [findLCAFromEnd, findLCAFromEnd]
    simp only [hv, he, if_true, if_false]
    by_cases h2 : y.eventID > x.eventID
    · simp [h2]
    · have h3 : x.eventID = y.eventID := by omega
      have hxy : x = y := by
        cases x; cases y; simp_all
      simp [h2, hxy]
  | case5 x xs y ys hv hgt ih =>
    have h1 : ¬ y.version = x.version := fun h => hv h.symm
    have h2 : ¬ y.version > x.version := by omega
    rw [findLCAFromEnd, findLCAFromEnd]
    simp only [hv, hgt, h1, h2, if_true, if_false]
    exact ih
  | case6 x xs y ys hv hgt ih =>
    have h1 : ¬ y.version = x.version := fun h => hv h.symm
    have h2 : y.version > x.version := by omega
    rw [findLCAFromEnd, findLCAFromEnd]
    simp only [hv, hgt, h1, h2, if_true, if_false]
    exact ih

theorem FindLCAItem_of_forkAt (a b : VersionHistory) (p : VersionHistoryItem)
    (ha : WellFormedItems a.items) (hb : WellFormedItems b.items) (hfork : ForkAt a b p) :
    a.FindLCAItem b = .ok p := by
  obtain ⟨hpa, hpb, hd⟩ := hfork
  obtain ⟨cA, hcA, hcAv, hcAe, hcAu⟩ := containsItemFrom_cover p a.items _ hpa ha.1
  obtain ⟨cB, hcB, hcBv, hcBe, hcBu⟩ := containsItemFrom_cover p b.items _ hpb hb.1
  unfold FindLCAItem
  apply findLCAFromEnd_fork p
  · exact List.pairwise_reverse.mpr ha.2
  · exact List.pairwise_reverse.mpr ha.1
  · exact List.pairwise_reverse.mpr hb.2
  · exact List.pairwise_reverse.mpr hb.1
  · exact ⟨cA, List.mem_reverse.mpr hcA, hcAv, hcAe⟩
  · exact ⟨cB, List.mem_reverse.mpr hcB, hcBv, hcBe⟩
  · intro z hz hze
    rcases hcAu z (List.mem_reverse.mp hz) (by omega) with rfl | hlt
    · exact hcAv
    · omega
  · intro z hz hze
    rcases hcBu z (List.mem_reverse.mp hz) (by omega) with rfl | hlt
    · exact hcBv
    · omega
  · intro x hx y hy
    exact hd x (List.mem_reverse.mp hx) y (List.mem_reverse.mp hy)

theorem common_item_le_fork (a b : VersionHistory) (p it : VersionHistoryItem)
    (hfork : ForkAt a b p) (hia : a.ContainsItem it = true) (hib : b.ContainsItem it = true) :
    it.eventID ≤ p.eventID := by
  obtain ⟨_, _, hd⟩ := hfork
  obtain ⟨x, hx, hxv, hxe⟩ := containsItemFrom_mem it a.items _ hia
  obtain ⟨y, hy, hyv, hye⟩ := containsItemFrom_mem it b.items _ hib
  by_contra hlt
  exact hd x hx y hy (by omega) (by omega) (by omega)

/-- C1: for two well-formed version histories of the same execution that share
a common prefix (they fork at some item), `a.FindLCAItem(b)` returns an item
that is present in both and whose event ID is the greatest among the items
present in both; for the branches `[(5, 12)]` and `[(2, 12)]` of `TestRebuild`
the result is `(2, 12)`, in either order. -/
theorem FindLCAItem_latest_common (a b : VersionHistory)
    (ha : WellFormedItems a.items) (hb : WellFormedItems b.items)
    (hsame : SameExecution a b) :
    (∃ r, a.FindLCAItem b = .ok r ∧ a.ContainsItem r = true ∧ b.ContainsItem r = true ∧
      ∀ it, a.ContainsItem it = true → b.ContainsItem it = true →
        it.eventID ≤ r.eventID) ∧
    testBranch0.FindLCAItem testBranch1 = .ok ⟨2, 12⟩ ∧
    testBranch1.FindLCAItem testBranch0 = .ok ⟨2, 12⟩ := by
  obtain ⟨p, hfork⟩ := hsame
  refine ⟨⟨p, FindLCAItem_of_forkAt a b p ha hb hfork, hfork.1, hfork.2.1, ?_⟩, ?_, ?_⟩
  · intro it hia hib
    exact common_item_le_fork a b p it hfork hia hib
  · simp [FindLCAItem, findLCAFromEnd, testBranch0, testBranch1, NewVersionHistory,
      NewVersionHistoryItem]
  · simp [FindLCAItem, findLCAFromEnd, testBranch0, testBranch1, NewVersionHistory,
      NewVersionHistoryItem]

/-- Witness of C1 on two branches that share `(2, 11)` and carry the versions
12 and 13 past it. -/
theorem FindLCAItem_latest_common_witness :
    WellFormedItems [⟨2, 11⟩, ⟨5, 12⟩] ∧ WellFormedItems [⟨3, 11⟩, ⟨4, 13⟩] ∧
    SameExecution ⟨[0], [⟨2, 11⟩, ⟨5, 12⟩]⟩ ⟨[1], [⟨3, 11⟩, ⟨4, 13⟩]⟩ ∧
    ((∃ r, FindLCAItem ⟨[0], [⟨2, 11⟩, ⟨5, 12⟩]⟩ ⟨[1], [⟨3, 11⟩, ⟨4, 13⟩]⟩ = .ok r ∧
        ContainsItem ⟨[0], [⟨2, 11⟩, ⟨5, 12⟩]⟩ r = true ∧
        ContainsItem ⟨[1], [⟨3, 11⟩, ⟨4, 13⟩]⟩ r = true ∧
        ∀ it, ContainsItem ⟨[0], [⟨2, 11⟩, ⟨5, 12⟩]⟩ it = true →
          ContainsItem ⟨[1], [⟨3, 11⟩, ⟨4, 13⟩]⟩ it = true → it.eventID ≤ r.eventID) ∧
      testBranch0.FindLCAItem testBranch1 = .ok ⟨2, 12⟩ ∧
      testBranch1.FindLCAItem testBranch0 = .ok ⟨2, 12⟩) :=
  ⟨by decide, by decide, ⟨⟨2, 11⟩, by decide⟩,
    FindLCAItem_latest_common ⟨[0], [⟨2, 11⟩, ⟨5, 12⟩]⟩ ⟨[1], [⟨3, 11⟩, ⟨4, 13⟩]⟩
      (by decide) (by decide) ⟨⟨2, 11⟩, by decide⟩⟩

/-- C2: `FindLCAItem` is symmetric: `a.FindLCAItem(b)` and `b.FindLCAItem(a)`
give the same outcome, the same item or the same failure. -/
theorem FindLCAItem_symmetric (a b : VersionHistory) :
    a.FindLCAItem b = b.FindLCAItem a := by
  unfold FindLCAItem
  exact findLCAFromEnd_comm _ _

/-! ### The conflict resolver -/

theorem wrapInt64_of_inRange (x : Int) (hlo : -(2 ^ 63) ≤ x) (hhi : x < 2 ^ 63) :
    wrapInt64 x = x := by
  unfold wrapInt64
  rw [Int.emod_eq_of_lt (by omega) (by omega)]
  omega

theorem rebuild_of_stateRebuilder_ok (sr : StateRebuilder) (ms : MutableState) (w : World)
    (branchIndex : Int) (requestID : String) (target current : VersionHistory)
    (lca : VersionHistoryItem) (newMS : MutableState) (size : Int)
    (htarget : (w.heap ms.versionHistories).GetVersionHistory branchIndex = .ok target)
    (hcurrent : (w.heap ms.versionHistories).GetCurrentVersionHistory = .ok current)
    (hlca : target.FindLCAItem current = .ok lca)
    (hsr : sr (NewWorkflowIdentifier ms.executionInfo.DomainID ms.executionInfo.WorkflowID
        ms.executionInfo.RunID) target.branchToken (wrapInt64 (lca.eventID + 1))
        (NewWorkflowIdentifier ms.executionInfo.DomainID ms.executionInfo.WorkflowID
        ms.executionInfo.RunID) requestID = .ok (newMS, size)) :
    rebuild sr ms w branchIndex requestID =
      (.ok { newMS with
              versionHistories := ms.versionHistories
              updateCondition := ms.updateCondition },
        { heap := w.setHeap ms.versionHistories
            { histories := (w.heap ms.versionHistories).histories,
              currentIndex := branchIndex }
          calls := w.calls ++
            [Call.rebuild (NewWorkflowIdentifier ms.executionInfo.DomainID
                ms.executionInfo.WorkflowID ms.executionInfo.RunID) target.branchToken
              (wrapInt64 (lca.eventID + 1))
              (NewWorkflowIdentifier ms.executionInfo.DomainID
                ms.executionInfo.WorkflowID ms.executionInfo.RunID) requestID,
             Call.clear, Call.setHistorySize size] }) := by
  unfold rebuild
  simp only [htarget, hcurrent, hlca, hsr, List.append_assoc, List.singleton_append]

theorem rebuild_of_stateRebuilder_error (sr : StateRebuilder) (ms : MutableState) (w : World)
    (branchIndex : Int) (requestID : String) (target current : VersionHistory)
    (lca : VersionHistoryItem) (e : Err)
    (htarget : (w.heap ms.versionHistories).GetVersionHistory branchIndex = .ok target)
    (hcurrent : (w.heap ms.versionHistories).GetCurrentVersionHistory = .ok current)
    (hlca : target.FindLCAItem current = .ok lca)
    (hsr : sr (NewWorkflowIdentifier ms.executionInfo.DomainID ms.executionInfo.WorkflowID
        ms.executionInfo.RunID) target.branchToken (wrapInt64 (lca.eventID + 1))
        (NewWorkflowIdentifier ms.executionInfo.DomainID ms.executionInfo.WorkflowID
        ms.executionInfo.RunID) requestID = .error e) :
    rebuild sr ms w branchIndex requestID =
      (.error e,
        { heap := w.heap
          calls := w.calls ++
            [Call.rebuild (NewWorkflowIdentifier ms.executionInfo.DomainID
                ms.executionInfo.WorkflowID ms.executionInfo.RunID) target.branchToken
              (wrapInt64 (lca.eventID + 1))
              (NewWorkflowIdentifier ms.executionInfo.DomainID
                ms.executionInfo.WorkflowID ms.executionInfo.RunID) requestID] }) := by
  unfold rebuild
  simp only [htarget, hcurrent, hlca, hsr]

theorem prepareMutableState_stale (sr : StateRebuilder) (ms : MutableState) (w : World)
    (branchIndex incomingVersion : Int) (requestID : String) (target current : VersionHistory)
    (htarget : (w.heap ms.versionHistories).GetVersionHistory branchIndex = .ok target)
    (hcurrent : (w.heap ms.versionHistories).GetCurrentVersionHistory = .ok current)
    (hne : branchIndex ≠ (w.heap ms.versionHistories).GetCurrentVersionHistoryIndex)
    (hext : isStrictExtension target current = false) :
    prepareMutableState sr ms w branchIndex incomingVersion requestID =
      match rebuild sr ms w branchIndex requestID with
      | (.error e, w1) => (.error e, w1)
      | (.ok rebuilt, w1) => (.ok (rebuilt, true), w1) := by
  unfold prepareMutableState
  simp only [htarget, hcurrent, hne, hext, if_false, Bool.false_eq_true]

theorem GetVersionHistory_of_valid (h : VersionHistories) (idx : Int)
    (hlo : 0 ≤ idx) (hhi : idx < (h.histories.length : Int)) :
    ∃ v, h.GetVersionHistory idx = .ok v := by
  unfold GetVersionHistory
  have hlt : idx.toNat < h.histories.length := by omega
  rw [if_pos hlo, List.get?_eq_get hlt]
  exact ⟨_, rfl⟩

/-- C3: `prepareMutableState` called with the branch index that is already the
current one (a valid index, by the invariant of section 3) returns no error,
`isRebuilt = false` and the cached mutable state itself, for every incoming
version; the world is untouched, so neither the state rebuilder nor `clear`
nor `setHistorySize` is invoked. -/
theorem prepareMutableState_current_branch (sr : StateRebuilder) (ms : MutableState)
    (w : World) (incomingVersion : Int) (requestID : String)
    (hlo : 0 ≤ (w.heap ms.versionHistories).currentIndex)
    (hhi : (w.heap ms.versionHistories).currentIndex <
      ((w.heap ms.versionHistories).histories.length : Int)) :
    prepareMutableState sr ms w (w.heap ms.versionHistories).GetCurrentVersionHistoryIndex
        incomingVersion requestID = (.ok (ms, false), w) ∧
      (prepareMutableState sr ms w (w.heap ms.versionHistories).GetCurrentVersionHistoryIndex
        incomingVersion requestID).2.calls = w.calls := by
  obtain ⟨v, hv⟩ := GetVersionHistory_of_valid _ _ hlo hhi
  have h : prepareMutableState sr ms w
      (w.heap ms.versionHistories).GetCurrentVersionHistoryIndex
      incomingVersion requestID = (.ok (ms, false), w) := by
    unfold prepareMutableState
    simp only [GetCurrentVersionHistoryIndex, hv, if_true]
  exact ⟨h, by rw [h]⟩

theorem World.setHeap_same (w : World) (r : Ref) (v : VersionHistories) :
    w.setHeap r v r = v := by
  simp [World.setHeap]

theorem rebuild_cases (sr : StateRebuilder) (ms : MutableState) (w : World)
    (branchIndex : Int) (requestID : String) :
    ((∃ e, (rebuild sr ms w branchIndex requestID).1 = .error e) ∧
        (rebuild sr ms w branchIndex requestID).2.heap = w.heap ∧
        Call.clear ∉ (rebuild sr ms w branchIndex requestID).2.calls.drop w.calls.length ∧
        ∀ n, Call.setHistorySize n ∉
          (rebuild sr ms w branchIndex requestID).2.calls.drop w.calls.length) ∨
      ∃ target current lca newMS size,
        (w.heap ms.versionHistories).GetVersionHistory branchIndex = .ok target ∧
        (w.heap ms.versionHistories).GetCurrentVersionHistory = .ok current ∧
        target.FindLCAItem current = .ok lca ∧
        sr (NewWorkflowIdentifier ms.executionInfo.DomainID ms.executionInfo.WorkflowID
          ms.executionInfo.RunID) target.branchToken (wrapInt64 (lca.eventID + 1))
          (NewWorkflowIdentifier ms.executionInfo.DomainID ms.executionInfo.WorkflowID
          ms.executionInfo.RunID) requestID = .ok (newMS, size) := by
  rcases htarget : (w.heap ms.versionHistories).GetVersionHistory branchIndex with e | target
  · left
    unfold rebuild
    simp only [htarget]
    simp
  rcases hcurrent : (w.heap ms.versionHistories).GetCurrentVersionHistory with e | current
  · left
    unfold rebuild
    simp only [htarget, hcurrent]
    simp
  rcases hlca : target.FindLCAItem current with e | lca
  · left
    unfold rebuild
    simp only [htarget, hcurrent, hlca]
    simp
  rcases hsr : sr (NewWorkflowIdentifier ms.executionInfo.DomainID ms.executionInfo.WorkflowID
      ms.executionInfo.RunID) target.branchToken (wrapInt64 (lca.eventID + 1))
      (NewWorkflowIdentifier ms.executionInfo.DomainID ms.executionInfo.WorkflowID
      ms.executionInfo.RunID) requestID with e | ⟨newMS, size⟩
  · left
    rw [rebuild_of_stateRebuilder_error sr ms w branchIndex requestID target current lca e
      htarget hcurrent hlca hsr]
    simp
  · right
    exact ⟨target, current, lca, newMS, size, rfl, rfl, hlca, hsr⟩

/-- C4 as amended: for a valid branch index that is not the current index,
`prepareMutableState` decides on the target branch. When the target is a
strict extension of the current branch, the state is `Valid`: the call returns
the cached mutable state and `isRebuilt = false`, and changes nothing. When it
is not, the branches having a common ancestor and the state rebuilder
succeeding, the call returns `isRebuilt = true` and a mutable state whose
`updateCondition` is the one of the cached state and whose `versionHistories`
is the very object the caller supplied; after the call that object holds the
branches it held before and has `branchIndex` as its current index. -/
theorem prepareMutableState_divergent_branch (sr : StateRebuilder) (ms : MutableState)
    (w : World) (branchIndex incomingVersion : Int) (requestID : String)
    (target current : VersionHistory)
    (htarget : (w.heap ms.versionHistories).GetVersionHistory branchIndex = .ok target)
    (hcurrent : (w.heap ms.versionHistories).GetCurrentVersionHistory = .ok current)
    (hne : branchIndex ≠ (w.heap ms.versionHistories).GetCurrentVersionHistoryIndex) :
    (isStrictExtension target current = true →
      prepareMutableState sr ms w branchIndex incomingVersion requestID =
        (.ok (ms, false), w)) ∧
    (isStrictExtension target current = false →
      ∀ (lca : VersionHistoryItem) (newMS : MutableState) (size : Int),
        target.FindLCAItem current = .ok lca →
        sr (NewWorkflowIdentifier ms.executionInfo.DomainID ms.executionInfo.WorkflowID
          ms.executionInfo.RunID) target.branchToken (wrapInt64 (lca.eventID + 1))
          (NewWorkflowIdentifier ms.executionInfo.DomainID ms.executionInfo.WorkflowID
          ms.executionInfo.RunID) requestID = .ok (newMS, size) →
        ∃ rebuilt w1,
          prepareMutableState sr ms w branchIndex incomingVersion requestID =
            (.ok (rebuilt, true), w1) ∧
          rebuilt.versionHistories = ms.versionHistories ∧
          w1.heap rebuilt.versionHistories =
            ⟨(w.heap ms.versionHistories).histories, branchIndex⟩ ∧
          (∀ r, r ≠ ms.versionHistories → w1.heap r = w.heap r) ∧
          rebuilt.updateCondition = ms.updateCondition) := by
  constructor
  · intro hext
    unfold prepareMutableState
    simp only [htarget, hcurrent, hext, if_true]
    rw [if_neg hne]
  · intro hext lca newMS size hlca hsr
    rw [prepareMutableState_stale sr ms w branchIndex incomingVersion requestID target current
      htarget hcurrent hne hext,
      rebuild_of_stateRebuilder_ok sr ms w branchIndex requestID target current lca newMS size
        htarget hcurrent hlca hsr]
    refine ⟨_, _, rfl, rfl, by simp [World.setHeap], ?_, rfl⟩
    intro r hr
    simp [World.setHeap, hr]

/-- Witness of C4 on `TestPrepareMutableState_Rebuild`: current branch
`[(2, 12)]`, target branch index 1 `[(1, 12)]`, incoming version 13, update
condition 59; after the call the caller's set has current index 1. -/
theorem prepareMutableState_divergent_branch_witness :
    testStaleVersionHistories.GetVersionHistory 1 =
        .ok (NewVersionHistory [1] [NewVersionHistoryItem 1 12]) ∧
      testStaleVersionHistories.GetCurrentVersionHistory =
        .ok (NewVersionHistory [0] [NewVersionHistoryItem 2 12]) ∧
      testMutableState.updateCondition = 59 ∧
      ∃ rebuilt w1,
        prepareMutableState testStateRebuilder testMutableState
          (testWorld testStaleVersionHistories) 1 13 "fresh" = (.ok (rebuilt, true), w1) ∧
        rebuilt.versionHistories = testMutableState.versionHistories ∧
        w1.heap rebuilt.versionHistories =
          ⟨((testWorld testStaleVersionHistories).heap
            testMutableState.versionHistories).histories, 1⟩ ∧
        (∀ r, r ≠ testMutableState.versionHistories →
          w1.heap r = (testWorld testStaleVersionHistories).heap r) ∧
        rebuilt.updateCondition = testMutableState.updateCondition :=
  ⟨rfl, rfl, rfl,
    (prepareMutableState_divergent_branch testStateRebuilder testMutableState
      (testWorld testStaleVersionHistories) 1 13 "fresh"
      (NewVersionHistory [1] [NewVersionHistoryItem 1 12])
      (NewVersionHistory [0] [NewVersionHistoryItem 2 12])
      rfl rfl (by decide)).2 (by decide) ⟨1, 12⟩ testRebuiltMutableState 12345
      (by simp [FindLCAItem, findLCAFromEnd, NewVersionHistory, NewVersionHistoryItem])
      rfl⟩

/-- C4, the claim refuted: in the set with current branch `[(2, 12)]` at
index 0 the index 1 is valid and is not the current one, its branch
`[(2, 12), (5, 13)]` being a strict extension of the current branch; called
with index 1 and incoming version 13, `prepareMutableState` returns the cached
mutable state and `isRebuilt = false`, and invokes no collaborator. And on the
set of `TestPrepareMutableState_Rebuild`, where the call does rebuild, the
caller's set has current index 1 afterwards where it had 0 before, so it is
not equal to the set as it was before the rebuild. -/
theorem prepareMutableState_strict_extension_not_rebuilt :
    testExtendedVersionHistories.GetVersionHistory 1 =
        .ok (NewVersionHistory [1] [NewVersionHistoryItem 2 12, NewVersionHistoryItem 5 13]) ∧
      (1 : Int) ≠ testExtendedVersionHistories.GetCurrentVersionHistoryIndex ∧
      prepareMutableState testStateRebuilder testMutableState
          (testWorld testExtendedVersionHistories) 1 13 "fresh" =
        (.ok (testMutableState, false), testWorld testExtendedVersionHistories) ∧
      (prepareMutableState testStateRebuilder testMutableState
          (testWorld testExtendedVersionHistories) 1 13 "fresh").2.calls = [] ∧
      (testWorld testStaleVersionHistories).heap testMutableState.versionHistories =
        ⟨testStaleVersionHistories.histories, 0⟩ ∧
      (prepareMutableState testStateRebuilder testMutableState
          (testWorld testStaleVersionHistories) 1 13 "fresh").2.heap
            testMutableState.versionHistories =
        ⟨testStaleVersionHistories.histories, 1⟩ := by
  refine ⟨rfl, by decide, rfl, rfl, rfl, ?_⟩
  rw [prepareMutableState_stale testStateRebuilder testMutableState
    (testWorld testStaleVersionHistories) 1 13 "fresh"
    (NewVersionHistory [1] [NewVersionHistoryItem 1 12])
    (NewVersionHistory [0] [NewVersionHistoryItem 2 12]) rfl rfl (by decide) (by decide),
    rebuild_of_stateRebuilder_ok testStateRebuilder testMutableState
    (testWorld testStaleVersionHistories) 1 "fresh"
    (NewVersionHistory [1] [NewVersionHistoryItem 1 12])
    (NewVersionHistory [0] [NewVersionHistoryItem 2 12]) ⟨1, 12⟩
    testRebuiltMutableState 12345 rfl rfl
    (by simp [FindLCAItem, findLCAFromEnd, NewVersionHistory, NewVersionHistoryItem])
    rfl]
  simp [World.setHeap, testWorld, testMutableState]

/-- Witness of C3 on `TestPrepareMutableState_NoRebuild`: one branch
`[(2, 12)]`, branch index 0, incoming version 12. -/
theorem prepareMutableState_current_branch_witness :
    prepareMutableState failingStateRebuilder testMutableState
        (testWorld (NewVersionHistories (NewVersionHistory [0] [NewVersionHistoryItem 2 12])))
        0 12 "fresh" =
      (.ok (testMutableState, false),
        testWorld (NewVersionHistories (NewVersionHistory [0] [NewVersionHistoryItem 2 12]))) ∧
    (prepareMutableState failingStateRebuilder testMutableState
        (testWorld (NewVersionHistories (NewVersionHistory [0] [NewVersionHistoryItem 2 12])))
        0 12 "fresh").2.calls = [] :=
  prepareMutableState_current_branch failingStateRebuilder testMutableState
    (testWorld (NewVersionHistories (NewVersionHistory [0] [NewVersionHistoryItem 2 12])))
    12 "fresh" (by decide) (by decide)

/-- C5: `rebuild(branchIndex, requestID)` on a valid branch index, the
branches having a common ancestor `lca = target.FindLCAItem(currentBranch)`,
invokes the state rebuilder exactly once, with the workflow identifier built
from the cached execution info, the branch token of the target, the start
event ID `lca.eventID + 1` (in `int64` arithmetic, which is the exact sum
unless `lca.eventID` is the greatest `int64`), the same workflow identifier
again, and the request ID the caller gave. -/
theorem rebuild_invokes_stateRebuilder_once (sr : StateRebuilder) (ms : MutableState)
    (w : World) (branchIndex : Int) (requestID : String)
    (target current : VersionHistory) (lca : VersionHistoryItem)
    (htarget : (w.heap ms.versionHistories).GetVersionHistory branchIndex = .ok target)
    (hcurrent : (w.heap ms.versionHistories).GetCurrentVersionHistory = .ok current)
    (hlca : target.FindLCAItem current = .ok lca) :
    (∃ rest, (rebuild sr ms w branchIndex requestID).2.calls =
        w.calls ++
          Call.rebuild
            (NewWorkflowIdentifier ms.executionInfo.DomainID ms.executionInfo.WorkflowID
              ms.executionInfo.RunID)
            target.branchToken (wrapInt64 (lca.eventID + 1))
            (NewWorkflowIdentifier ms.executionInfo.DomainID ms.executionInfo.WorkflowID
              ms.executionInfo.RunID)
            requestID :: rest ∧
        ∀ c ∈ rest, c.isRebuild = false) ∧
      (-(2 ^ 63) ≤ lca.eventID → lca.eventID < 2 ^ 63 - 1 →
        wrapInt64 (lca.eventID + 1) = lca.eventID + 1) := by
  refine ⟨?_, fun hlo hhi => wrapInt64_of_inRange _ (by omega) (by omega)⟩
  rcases hsr : sr (NewWorkflowIdentifier ms.executionInfo.DomainID ms.executionInfo.WorkflowID
      ms.executionInfo.RunID) target.branchToken (wrapInt64 (lca.eventID + 1))
      (NewWorkflowIdentifier ms.executionInfo.DomainID ms.executionInfo.WorkflowID
      ms.executionInfo.RunID) requestID with e | ⟨newMS, size⟩
  · rw [rebuild_of_stateRebuilder_error sr ms w branchIndex requestID target current lca e
      htarget hcurrent hlca hsr]
    exact ⟨[], rfl, by simp⟩
  · rw [rebuild_of_stateRebuilder_ok sr ms w branchIndex requestID target current lca newMS
      size htarget hcurrent hlca hsr]
    exact ⟨[Call.clear, Call.setHistorySize size], rfl, by simp [Call.isRebuild]⟩

/-- Witness of C5 on `TestRebuild`: rebuilding onto branch 1 `[(2, 12)]` with
request ID `R1` invokes the state rebuilder with branch token 1, start event
ID 3 and `R1`. -/
theorem rebuild_invokes_stateRebuilder_once_witness :
    (∃ rest, (rebuild testStateRebuilder testMutableState (testWorld testVersionHistories)
          1 "R1").2.calls =
        [] ++ Call.rebuild ⟨"domain", "workflow", "run"⟩ [1] (wrapInt64 (2 + 1))
          ⟨"domain", "workflow", "run"⟩ "R1" :: rest ∧
        ∀ c ∈ rest, c.isRebuild = false) ∧
      wrapInt64 (2 + 1) = 3 :=
  ⟨(rebuild_invokes_stateRebuilder_once testStateRebuilder testMutableState
      (testWorld testVersionHistories) 1 "R1" testBranch1 testBranch0 ⟨2, 12⟩ rfl rfl
      (by simp [FindLCAItem, findLCAFromEnd, testBranch0, testBranch1, NewVersionHistory,
        NewVersionHistoryItem])).1,
    by decide⟩

/-- C6: if the state rebuilder returns an error, `rebuild` returns that same
error, every `VersionHistories` object (so the cached mutable state) is as
before, and the only collaborator invoked is the state rebuilder: neither
`clear` nor `setHistorySize` is called; `prepareMutableState` on the stale
path does the same. -/
theorem rebuild_error_all_or_nothing (sr : StateRebuilder) (ms : MutableState)
    (w : World) (branchIndex incomingVersion : Int) (requestID : String)
    (target current : VersionHistory) (lca : VersionHistoryItem) (e : Err)
    (htarget : (w.heap ms.versionHistories).GetVersionHistory branchIndex = .ok target)
    (hcurrent : (w.heap ms.versionHistories).GetCurrentVersionHistory = .ok current)
    (hlca : target.FindLCAItem current = .ok lca)
    (hsr : sr (NewWorkflowIdentifier ms.executionInfo.DomainID ms.executionInfo.WorkflowID
        ms.executionInfo.RunID) target.branchToken (wrapInt64 (lca.eventID + 1))
        (NewWorkflowIdentifier ms.executionInfo.DomainID ms.executionInfo.WorkflowID
        ms.executionInfo.RunID) requestID = .error e) :
    ((rebuild sr ms w branchIndex requestID).1 = .error e ∧
      (rebuild sr ms w branchIndex requestID).2.heap = w.heap ∧
      (rebuild sr ms w branchIndex requestID).2.calls =
        w.calls ++
          [Call.rebuild
            (NewWorkflowIdentifier ms.executionInfo.DomainID ms.executionInfo.WorkflowID
              ms.executionInfo.RunID)
            target.branchToken (wrapInt64 (lca.eventID + 1))
            (NewWorkflowIdentifier ms.executionInfo.DomainID ms.executionInfo.WorkflowID
              ms.executionInfo.RunID)
            requestID]) ∧
    (branchIndex ≠ (w.heap ms.versionHistories).GetCurrentVersionHistoryIndex →
      isStrictExtension target current = false →
      (prepareMutableState sr ms w branchIndex incomingVersion requestID).1 = .error e ∧
      (prepareMutableState sr ms w branchIndex incomingVersion requestID).2.heap = w.heap ∧
      (prepareMutableState sr ms w branchIndex incomingVersion requestID).2.calls =
        w.calls ++
          [Call.rebuild
            (NewWorkflowIdentifier ms.executionInfo.DomainID ms.executionInfo.WorkflowID
              ms.executionInfo.RunID)
            target.branchToken (wrapInt64 (lca.eventID + 1))
            (NewWorkflowIdentifier ms.executionInfo.DomainID ms.executionInfo.WorkflowID
              ms.executionInfo.RunID)
            requestID]) := by
  have hr := rebuild_of_stateRebuilder_error sr ms w branchIndex requestID target current
    lca e htarget hcurrent hlca hsr
  refine ⟨by rw [hr]; exact ⟨rfl, rfl, rfl⟩, fun hne hext => ?_⟩
  rw [prepareMutableState_stale sr ms w branchIndex incomingVersion requestID target current
    htarget hcurrent hne hext, hr]
  exact ⟨rfl, rfl, rfl⟩

/-- Witness of C6 on the branches of `TestRebuild` with a state rebuilder that
fails: from `rebuild` and from `prepareMutableState` alike the error comes
back, the heap is as before and the only call is the one to the rebuilder. -/
theorem rebuild_error_all_or_nothing_witness :
    ((rebuild failingStateRebuilder testMutableState (testWorld testVersionHistories)
        1 "R1").1 = .error (.external "store unavailable") ∧
      (rebuild failingStateRebuilder testMutableState (testWorld testVersionHistories)
        1 "R1").2.heap = (testWorld testVersionHistories).heap ∧
      (rebuild failingStateRebuilder testMutableState (testWorld testVersionHistories)
        1 "R1").2.calls =
        [] ++ [Call.rebuild ⟨"domain", "workflow", "run"⟩ [1] (wrapInt64 (2 + 1))
          ⟨"domain", "workflow", "run"⟩ "R1"]) ∧
    ((prepareMutableState failingStateRebuilder testMutableState
        (testWorld testVersionHistories) 1 13 "R1").1 =
        .error (.external "store unavailable") ∧
      (prepareMutableState failingStateRebuilder testMutableState
        (testWorld testVersionHistories) 1 13 "R1").2.heap =
        (testWorld testVersionHistories).heap ∧
      (prepareMutableState failingStateRebuilder testMutableState
        (testWorld testVersionHistories) 1 13 "R1").2.calls =
        [] ++ [Call.rebuild ⟨"domain", "workflow", "run"⟩ [1] (wrapInt64 (2 + 1))
          ⟨"domain", "workflow", "run"⟩ "R1"]) :=
  have h := rebuild_error_all_or_nothing failingStateRebuilder testMutableState
    (testWorld testVersionHistories) 1 13 "R1" testBranch1 testBranch0 ⟨2, 12⟩
    (.external "store unavailable") rfl rfl
    (by simp [FindLCAItem, findLCAFromEnd, testBranch0, testBranch1, NewVersionHistory,
      NewVersionHistoryItem])
    rfl
  ⟨h.1, h.2 (by decide) (by decide)⟩

/-- C7: when the state rebuilder succeeds with `(newMutableState, size)`,
`rebuild` returns `newMutableState` with `versionHistories` and
`updateCondition` taken over from the cached state and the rest as rebuilt,
and after the call to the rebuilder it calls `clear()` once and
`setHistorySize(size)` once, with the size the rebuilder reported. -/
theorem rebuild_success_installs (sr : StateRebuilder) (ms : MutableState)
    (w : World) (branchIndex : Int) (requestID : String)
    (target current : VersionHistory) (lca : VersionHistoryItem)
    (newMS : MutableState) (size : Int)
    (htarget : (w.heap ms.versionHistories).GetVersionHistory branchIndex = .ok target)
    (hcurrent : (w.heap ms.versionHistories).GetCurrentVersionHistory = .ok current)
    (hlca : target.FindLCAItem current = .ok lca)
    (hsr : sr (NewWorkflowIdentifier ms.executionInfo.DomainID ms.executionInfo.WorkflowID
        ms.executionInfo.RunID) target.branchToken (wrapInt64 (lca.eventID + 1))
        (NewWorkflowIdentifier ms.executionInfo.DomainID ms.executionInfo.WorkflowID
        ms.executionInfo.RunID) requestID = .ok (newMS, size)) :
    ∃ rebuilt, (rebuild sr ms w branchIndex requestID).1 = .ok rebuilt ∧
      rebuilt.versionHistories = ms.versionHistories ∧
      rebuilt.updateCondition = ms.updateCondition ∧
      rebuilt.executionInfo = newMS.executionInfo ∧
      rebuilt.pendingWork = newMS.pendingWork ∧
      (rebuild sr ms w branchIndex requestID).2.calls =
        w.calls ++
          [Call.rebuild
            (NewWorkflowIdentifier ms.executionInfo.DomainID ms.executionInfo.WorkflowID
              ms.executionInfo.RunID)
            target.branchToken (wrapInt64 (lca.eventID + 1))
            (NewWorkflowIdentifier ms.executionInfo.DomainID ms.executionInfo.WorkflowID
              ms.executionInfo.RunID)
            requestID,
           Call.clear, Call.setHistorySize size] := by
  rw [rebuild_of_stateRebuilder_ok sr ms w branchIndex requestID target current lca newMS
    size htarget hcurrent hlca hsr]
  exact ⟨_, rfl, rfl, rfl, rfl, rfl, rfl⟩

/-- Witness of C7 on `TestRebuild`: update condition 59 and the pointer of the
cached state are taken over, and the context sees `clear` and
`setHistorySize(12345)`. -/
theorem rebuild_success_installs_witness :
    ∃ rebuilt, (rebuild testStateRebuilder testMutableState (testWorld testVersionHistories)
        1 "R1").1 = .ok rebuilt ∧
      rebuilt.versionHistories = 0 ∧
      rebuilt.updateCondition = 59 ∧
      rebuilt.executionInfo = testRebuiltMutableState.executionInfo ∧
      rebuilt.pendingWork = [7] ∧
      (rebuild testStateRebuilder testMutableState (testWorld testVersionHistories)
        1 "R1").2.calls =
        [] ++ [Call.rebuild ⟨"domain", "workflow", "run"⟩ [1] (wrapInt64 (2 + 1))
          ⟨"domain", "workflow", "run"⟩ "R1", Call.clear, Call.setHistorySize 12345] :=
  rebuild_success_installs testStateRebuilder testMutableState
    (testWorld testVersionHistories) 1 "R1" testBranch1 testBranch0 ⟨2, 12⟩
    testRebuiltMutableState 12345 rfl rfl
    (by simp [FindLCAItem, findLCAFromEnd, testBranch0, testBranch1, NewVersionHistory,
      NewVersionHistoryItem])
    rfl

theorem prepareMutableState_valid_or_stale (sr : StateRebuilder) (ms : MutableState)
    (w : World) (branchIndex incomingVersion : Int) (requestID : String) :
    (∃ res, prepareMutableState sr ms w branchIndex incomingVersion requestID = (res, w)) ∨
      prepareMutableState sr ms w branchIndex incomingVersion requestID =
        match rebuild sr ms w branchIndex requestID with
        | (.error e, w1) => (.error e, w1)
        | (.ok rebuilt, w1) => (.ok (rebuilt, true), w1) := by
  rcases htarget : (w.heap ms.versionHistories).GetVersionHistory branchIndex with e | target
  · left
    unfold prepareMutableState
    simp only [htarget]
    exact ⟨_, rfl⟩
  by_cases hidx : branchIndex = (w.heap ms.versionHistories).GetCurrentVersionHistoryIndex
  · left
    unfold prepareMutableState
    simp only [htarget]
    rw [if_pos hidx]
    exact ⟨_, rfl⟩
  rcases hcurrent : (w.heap ms.versionHistories).GetCurrentVersionHistory with e | current
  · left
    unfold prepareMutableState
    simp only [htarget, hidx, hcurrent, if_false]
    exact ⟨_, rfl⟩
  by_cases hext : isStrictExtension target current = true
  · left
    unfold prepareMutableState
    simp only [htarget, hidx, hcurrent, hext, if_false, if_true]
    exact ⟨_, rfl⟩
  · right
    exact prepareMutableState_stale sr ms w branchIndex incomingVersion requestID target
      current htarget hcurrent hidx (by simpa using hext)

/-- C8: after a successful `rebuild(branchIndex, requestID)` the
`VersionHistories` of the caller, which the returned mutable state points to
as well, reports `branchIndex` as its current version history index. -/
theorem rebuild_sets_current_index (sr : StateRebuilder) (ms : MutableState)
    (w : World) (branchIndex : Int) (requestID : String) (rebuilt : MutableState)
    (hok : (rebuild sr ms w branchIndex requestID).1 = .ok rebuilt) :
    ((rebuild sr ms w branchIndex requestID).2.heap
        ms.versionHistories).GetCurrentVersionHistoryIndex = branchIndex ∧
      rebuilt.versionHistories = ms.versionHistories := by
  rcases rebuild_cases sr ms w branchIndex requestID with ⟨⟨e, he⟩, _⟩ | h
  · rw [he] at hok
    cases hok
  · obtain ⟨target, current, lca, newMS, size, htarget, hcurrent, hlca, hsr⟩ := h
    rw [rebuild_of_stateRebuilder_ok sr ms w branchIndex requestID target current lca newMS
      size htarget hcurrent hlca hsr] at hok ⊢
    simp only [Except.ok.injEq] at hok
    subst hok
    exact ⟨by simp [World.setHeap, GetCurrentVersionHistoryIndex], rfl⟩

/-- Witness of C8 on `TestRebuild`: two branches, current index 0; after the
rebuild onto index 1 the current version history index is 1. -/
theorem rebuild_sets_current_index_witness :
    testVersionHistories.GetCurrentVersionHistoryIndex = 0 ∧
    ((rebuild testStateRebuilder testMutableState (testWorld testVersionHistories)
        1 "R1").2.heap testMutableState.versionHistories).GetCurrentVersionHistoryIndex = 1 :=
  ⟨rfl,
    (rebuild_sets_current_index testStateRebuilder testMutableState
      (testWorld testVersionHistories) 1 "R1"
      { testRebuiltMutableState with versionHistories := 0, updateCondition := 59 }
      (by
        rw [rebuild_of_stateRebuilder_ok testStateRebuilder testMutableState
          (testWorld testVersionHistories) 1 "R1" testBranch1 testBranch0 ⟨2, 12⟩
          testRebuiltMutableState 12345 rfl rfl
          (by simp [FindLCAItem, findLCAFromEnd, testBranch0, testBranch1,
            NewVersionHistory, NewVersionHistoryItem])
          rfl]
        rfl)).1⟩

/-- C9, the claim refuted: on `TestRebuild` the current index of the
`VersionHistories` handed to the resolver is 0 before `rebuild` and 1 after
it, and likewise for `prepareMutableState` on the set of
`TestPrepareMutableState_Rebuild`. -/
theorem resolver_changes_currentIndex :
    ((testWorld testVersionHistories).heap testMutableState.versionHistories).currentIndex
        = 0 ∧
      ((rebuild testStateRebuilder testMutableState (testWorld testVersionHistories)
        1 "R1").2.heap testMutableState.versionHistories).currentIndex = 1 ∧
      ((testWorld testStaleVersionHistories).heap
        testMutableState.versionHistories).currentIndex = 0 ∧
      ((prepareMutableState testStateRebuilder testMutableState
        (testWorld testStaleVersionHistories) 1 13 "fresh").2.heap
          testMutableState.versionHistories).currentIndex = 1 := by
  refine ⟨rfl, ?_, rfl, ?_⟩
  · rw [rebuild_of_stateRebuilder_ok testStateRebuilder testMutableState
      (testWorld testVersionHistories) 1 "R1" testBranch1 testBranch0 ⟨2, 12⟩
      testRebuiltMutableState 12345 rfl rfl
      (by simp [FindLCAItem, findLCAFromEnd, testBranch0, testBranch1,
        NewVersionHistory, NewVersionHistoryItem])
      rfl]
    simp [World.setHeap]
  · rw [prepareMutableState_stale testStateRebuilder testMutableState
      (testWorld testStaleVersionHistories) 1 13 "fresh"
      (NewVersionHistory [1] [NewVersionHistoryItem 1 12])
      (NewVersionHistory [0] [NewVersionHistoryItem 2 12]) rfl rfl (by decide) (by decide),
      rebuild_of_stateRebuilder_ok testStateRebuilder testMutableState
      (testWorld testStaleVersionHistories) 1 "fresh"
      (NewVersionHistory [1] [NewVersionHistoryItem 1 12])
      (NewVersionHistory [0] [NewVersionHistoryItem 2 12]) ⟨1, 12⟩
      testRebuiltMutableState 12345 rfl rfl
      (by simp [FindLCAItem, findLCAFromEnd, NewVersionHistory, NewVersionHistoryItem])
      rfl]
    simp [World.setHeap]

theorem prepareMutableState_cases (sr : StateRebuilder) (ms : MutableState)
    (w : World) (branchIndex incomingVersion : Int) (requestID : String) :
    (∃ e, prepareMutableState sr ms w branchIndex incomingVersion requestID = (.error e, w)) ∨
      prepareMutableState sr ms w branchIndex incomingVersion requestID =
        (.ok (ms, false), w) ∨
      prepareMutableState sr ms w branchIndex incomingVersion requestID =
        match rebuild sr ms w branchIndex requestID with
        | (.error e, w1) => (.error e, w1)
        | (.ok rebuilt, w1) => (.ok (rebuilt, true), w1) := by
  rcases htarget : (w.heap ms.versionHistories).GetVersionHistory branchIndex with e | target
  · left
    unfold prepareMutableState
    simp only [htarget]
    exact ⟨_, rfl⟩
  by_cases hidx : branchIndex = (w.heap ms.versionHistories).GetCurrentVersionHistoryIndex
  · right; left
    unfold prepareMutableState
    simp only [htarget]
    rw [if_pos hidx]
  rcases hcurrent : (w.heap ms.versionHistories).GetCurrentVersionHistory with e | current
  · left
    unfold prepareMutableState
    simp only [htarget, hidx, hcurrent, if_false]
    exact ⟨_, rfl⟩
  by_cases hext : isStrictExtension target current = true
  · right; left
    unfold prepareMutableState
    simp only [htarget, hidx, hcurrent, hext, if_false, if_true]
  · right; right
    exact prepareMutableState_stale sr ms w branchIndex incomingVersion requestID target
      current htarget hcurrent hidx (by simpa using hext)

theorem rebuild_heap_of_error (sr : StateRebuilder) (ms : MutableState) (w : World)
    (branchIndex : Int) (requestID : String) (e : Err)
    (herr : (rebuild sr ms w branchIndex requestID).1 = .error e) :
    (rebuild sr ms w branchIndex requestID).2.heap = w.heap := by
  rcases rebuild_cases sr ms w branchIndex requestID with ⟨_, hheap, _⟩ | h
  · exact hheap
  · obtain ⟨target, current, lca, newMS, size, htarget, hcurrent, hlca, hsr⟩ := h
    rw [rebuild_of_stateRebuilder_ok sr ms w branchIndex requestID target current lca newMS
      size htarget hcurrent hlca hsr] at herr
    cases herr

theorem rebuild_heap_of_ok (sr : StateRebuilder) (ms : MutableState) (w : World)
    (branchIndex : Int) (requestID : String) (m : MutableState)
    (hok : (rebuild sr ms w branchIndex requestID).1 = .ok m) :
    (rebuild sr ms w branchIndex requestID).2.heap =
      w.setHeap ms.versionHistories
        ⟨(w.heap ms.versionHistories).histories, branchIndex⟩ := by
  rcases rebuild_cases sr ms w branchIndex requestID with ⟨⟨e, he⟩, _⟩ | h
  · rw [he] at hok
    cases hok
  · obtain ⟨target, current, lca, newMS, size, htarget, hcurrent, hlca, hsr⟩ := h
    rw [rebuild_of_stateRebuilder_ok sr ms w branchIndex requestID target current lca newMS
      size htarget hcurrent hlca hsr]

/-- C9 as amended: the resolver changes a current index only by a successful
rebuild, and then it does change it. When `rebuild` returns an error, every
`VersionHistories` object is after the call as it was before; when it
succeeds, the object of the cached state holds the branches it held before
and has `branchIndex` as its current index, and every other object is as it
was. The same holds of `prepareMutableState`: nothing changes when it returns
an error or `isRebuilt = false`, and with `isRebuilt = true` the object of the
cached state has `branchIndex` as its current index, its branches and every
other object being as they were. -/
theorem resolver_currentIndex_frame (sr : StateRebuilder) (ms : MutableState)
    (w : World) (branchIndex incomingVersion : Int) (requestID : String) :
    (∀ e, (rebuild sr ms w branchIndex requestID).1 = .error e →
      ∀ r, (rebuild sr ms w branchIndex requestID).2.heap r = w.heap r) ∧
    (∀ m, (rebuild sr ms w branchIndex requestID).1 = .ok m →
      (rebuild sr ms w branchIndex requestID).2.heap ms.versionHistories =
        ⟨(w.heap ms.versionHistories).histories, branchIndex⟩ ∧
      ∀ r, r ≠ ms.versionHistories →
        (rebuild sr ms w branchIndex requestID).2.heap r = w.heap r) ∧
    (∀ e, (prepareMutableState sr ms w branchIndex incomingVersion requestID).1 = .error e →
      ∀ r, (prepareMutableState sr ms w branchIndex incomingVersion requestID).2.heap r =
        w.heap r) ∧
    (∀ m, (prepareMutableState sr ms w branchIndex incomingVersion requestID).1 =
        .ok (m, false) →
      ∀ r, (prepareMutableState sr ms w branchIndex incomingVersion requestID).2.heap r =
        w.heap r) ∧
    (∀ m, (prepareMutableState sr ms w branchIndex incomingVersion requestID).1 =
        .ok (m, true) →
      (prepareMutableState sr ms w branchIndex incomingVersion requestID).2.heap
          ms.versionHistories =
        ⟨(w.heap ms.versionHistories).histories, branchIndex⟩ ∧
      ∀ r, r ≠ ms.versionHistories →
        (prepareMutableState sr ms w branchIndex incomingVersion requestID).2.heap r =
          w.heap r) := by
  have hset : ∀ r, r ≠ ms.versionHistories →
      w.setHeap ms.versionHistories
        ⟨(w.heap ms.versionHistories).histories, branchIndex⟩ r = w.heap r := by
    intro r hr
    simp [World.setHeap, hr]
  refine ⟨?_, ?_, ?_, ?_, ?_⟩
  · intro e he r
    rw [rebuild_heap_of_error sr ms w branchIndex requestID e he]
  · intro m hm
    rw [rebuild_heap_of_ok sr ms w branchIndex requestID m hm]
    exact ⟨World.setHeap_same _ _ _, hset⟩
  · intro e he r
    rcases prepareMutableState_cases sr ms w branchIndex incomingVersion requestID with
      ⟨e1, h1⟩ | h2 | h3
    · rw [h1]
    · rw [h2]
    · rw [h3] at he ⊢
      rcases hreb : rebuild sr ms w branchIndex requestID with ⟨res, w1⟩
      rcases res with e2 | m2
      · have := rebuild_heap_of_error sr ms w branchIndex requestID e2 (by rw [hreb])
        rw [hreb] at this
        exact congrFun this r
      · rw [hreb] at he
        cases he
  · intro m hm r
    rcases prepareMutableState_cases sr ms w branchIndex incomingVersion requestID with
      ⟨e1, h1⟩ | h2 | h3
    · rw [h1]
    · rw [h2]
    · rw [h3] at hm
      rcases hreb : rebuild sr ms w branchIndex requestID with ⟨res, w1⟩
      rw [hreb] at hm
      rcases res with e2 | m2
      · cases hm
      · simp at hm
  · intro m hm
    rcases prepareMutableState_cases sr ms w branchIndex incomingVersion requestID with
      ⟨e1, h1⟩ | h2 | h3
    · rw [h1] at hm
      cases hm
    · rw [h2] at hm
      simp at hm
    · rw [h3] at hm ⊢
      rcases hreb : rebuild sr ms w branchIndex requestID with ⟨res, w1⟩
      rcases res with e2 | m2
      · rw [hreb] at hm
        cases hm
      · have := rebuild_heap_of_ok sr ms w branchIndex requestID m2 (by rw [hreb])
        rw [hreb] at this
        simp only at this ⊢
        rw [this]
        exact ⟨World.setHeap_same _ _ _, hset⟩

/-- Witness of C9 as amended, on `TestRebuild`: the rebuild onto index 1
succeeds, and the caller's set, whose current index was 0, holds the same two
branches with current index 1. -/
theorem resolver_currentIndex_frame_witness :
    (rebuild testStateRebuilder testMutableState (testWorld testVersionHistories)
        1 "R1").2.heap testMutableState.versionHistories =
      ⟨[testBranch0, testBranch1], 1⟩ :=
  ((resolver_currentIndex_frame testStateRebuilder testMutableState
    (testWorld testVersionHistories) 1 13 "R1").2.1
    { testRebuiltMutableState with versionHistories := 0, updateCondition := 59 }
    (by
      rw [rebuild_of_stateRebuilder_ok testStateRebuilder testMutableState
        (testWorld testVersionHistories) 1 "R1" testBranch1 testBranch0 ⟨2, 12⟩
        testRebuiltMutableState 12345 rfl rfl
        (by simp [FindLCAItem, findLCAFromEnd, testBranch0, testBranch1,
          NewVersionHistory, NewVersionHistoryItem])
        rfl]
      rfl)).1

/-! ### AddVersionHistory -/

/-- C10, the claim refuted on `TestRebuild`: every event of the branch
`[(2, 12)]` is an event of the stored branch `[(5, 12)]` at the same version,
so the new branch is a prefix of a branch already in the set, and yet
`AddVersionHistory` reports a new branch at index 1 and the set grows from one
branch to two; index 1 then addresses the added branch. -/
theorem AddVersionHistory_appends_contained_branch :
    (∀ it, testBranch1.ContainsItem it = true → testBranch0.ContainsItem it = true) ∧
      (NewVersionHistories testBranch0).histories.length = 1 ∧
      (NewVersionHistories testBranch0).AddVersionHistory testBranch1 =
        .ok (true, 1, testVersionHistories) ∧
      testVersionHistories.histories.length = 2 ∧
      testVersionHistories.GetVersionHistory 1 = .ok testBranch1 := by
  refine ⟨?_, rfl, rfl, rfl, rfl⟩
  intro it h
  simp only [ContainsItem, containsItemFrom, testBranch0, testBranch1, NewVersionHistory,
    NewVersionHistoryItem, FirstEventID, Bool.or_false, Bool.and_eq_true,
    decide_eq_true_eq] at h ⊢
  omega

/-- C10 as amended: for every set and every branch whose item sequence is,
item for item, a prefix of the item sequence of a stored branch,
`AddVersionHistory` reports that no new branch was created, names the index of
a stored branch and returns the set as it was, so the number of branches does
not grow. -/
theorem AddVersionHistory_item_prefix_dedup (hs : VersionHistories) (v : VersionHistory)
    (hpre : ∃ e ∈ hs.histories, v.items.isPrefixOf e.items = true) :
    ∃ i : Nat, hs.AddVersionHistory v = .ok (false, (i : Int), hs) ∧
      i < hs.histories.length := by
  obtain ⟨e, he, hp⟩ := hpre
  have hex : ∃ x, x ∈ hs.histories ∧ prefixesOrExtends v x = true :=
    ⟨e, he, by simp [prefixesOrExtends, hp]⟩
  refine ⟨hs.histories.findIdx (prefixesOrExtends v), ?_, List.findIdx_lt_length_of_exists hex⟩
  unfold AddVersionHistory
  rw [List.findIdx?_eq_some_of_exists hex]

/-- Witness of the amended C10: adding `[(2, 12)]` to a set that holds
`[(2, 12), (5, 13)]` creates nothing. -/
theorem AddVersionHistory_item_prefix_dedup_witness :
    ∃ i : Nat,
      (NewVersionHistories (NewVersionHistory [0] [⟨2, 12⟩, ⟨5, 13⟩])).AddVersionHistory
          (NewVersionHistory [1] [⟨2, 12⟩]) =
        .ok (false, (i : Int), NewVersionHistories (NewVersionHistory [0] [⟨2, 12⟩, ⟨5, 13⟩])) ∧
      i < (NewVersionHistories (NewVersionHistory [0] [⟨2, 12⟩, ⟨5, 13⟩])).histories.length :=
  AddVersionHistory_item_prefix_dedup
    (NewVersionHistories (NewVersionHistory [0] [⟨2, 12⟩, ⟨5, 13⟩]))
    (NewVersionHistory [1] [⟨2, 12⟩])
    ⟨NewVersionHistory [0] [⟨2, 12⟩, ⟨5, 13⟩], by simp [NewVersionHistories], by decide⟩

/-- C11: `AddVersionHistory` never changes the current index: for every set
and every new branch it returns a set whose current version history index is
the one before the call, whether the branch was appended or found to be
there already. -/
theorem AddVersionHistory_keeps_currentIndex (hs : VersionHistories) (v : VersionHistory) :
    ∃ created idx hs1, hs.AddVersionHistory v = .ok (created, idx, hs1) ∧
      hs1.GetCurrentVersionHistoryIndex = hs.GetCurrentVersionHistoryIndex ∧
      (created = true → hs1.histories = hs.histories ++ [v]) ∧
      (created = false → hs1 = hs) := by
  unfold AddVersionHistory
  rcases h : hs.histories.findIdx? (prefixesOrExtends v) with _ | i
  · exact ⟨true, _, _, rfl, rfl, fun _ => rfl, fun h => (by cases h)⟩
  · exact ⟨false, _, _, rfl, rfl, fun h => (by cases h), fun _ => rfl⟩

/-- C12: `rebuild` is not short-circuited on an empty replay range. When the
common ancestor is the last item of the target branch, the state rebuilder is
still invoked, with start event ID the last event ID of the target plus one,
and when it succeeds its result is installed: returned with the pointer and
update condition of the cached state, after `clear` and `setHistorySize`. -/
theorem rebuild_runs_on_empty_range (sr : StateRebuilder) (ms : MutableState)
    (w : World) (branchIndex : Int) (requestID : String)
    (target current : VersionHistory) (last : VersionHistoryItem)
    (htarget : (w.heap ms.versionHistories).GetVersionHistory branchIndex = .ok target)
    (hcurrent : (w.heap ms.versionHistories).GetCurrentVersionHistory = .ok current)
    (hlast : target.GetLastItem = .ok last)
    (hlca : target.FindLCAItem current = .ok last) :
    (∃ rest, (rebuild sr ms w branchIndex requestID).2.calls =
        w.calls ++
          Call.rebuild
            (NewWorkflowIdentifier ms.executionInfo.DomainID ms.executionInfo.WorkflowID
              ms.executionInfo.RunID)
            target.branchToken (wrapInt64 (last.eventID + 1))
            (NewWorkflowIdentifier ms.executionInfo.DomainID ms.executionInfo.WorkflowID
              ms.executionInfo.RunID)
            requestID :: rest) ∧
    ∀ newMS size,
      sr (NewWorkflowIdentifier ms.executionInfo.DomainID ms.executionInfo.WorkflowID
          ms.executionInfo.RunID) target.branchToken (wrapInt64 (last.eventID + 1))
          (NewWorkflowIdentifier ms.executionInfo.DomainID ms.executionInfo.WorkflowID
          ms.executionInfo.RunID) requestID = .ok (newMS, size) →
      (rebuild sr ms w branchIndex requestID).1 =
          .ok { newMS with
                  versionHistories := ms.versionHistories
                  updateCondition := ms.updateCondition } ∧
        (rebuild sr ms w branchIndex requestID).2.calls =
          w.calls ++
            [Call.rebuild
              (NewWorkflowIdentifier ms.executionInfo.DomainID ms.executionInfo.WorkflowID
                ms.executionInfo.RunID)
              target.branchToken (wrapInt64 (last.eventID + 1))
              (NewWorkflowIdentifier ms.executionInfo.DomainID ms.executionInfo.WorkflowID
                ms.executionInfo.RunID)
              requestID,
             Call.clear, Call.setHistorySize size] := by
  have _hl := hlast
  constructor
  · rcases hsr : sr (NewWorkflowIdentifier ms.executionInfo.DomainID
        ms.executionInfo.WorkflowID ms.executionInfo.RunID) target.branchToken
        (wrapInt64 (last.eventID + 1))
        (NewWorkflowIdentifier ms.executionInfo.DomainID ms.executionInfo.WorkflowID
        ms.executionInfo.RunID) requestID with e | ⟨newMS, size⟩
    · rw [rebuild_of_stateRebuilder_error sr ms w branchIndex requestID target current last e
        htarget hcurrent hlca hsr]
      exact ⟨[], rfl⟩
    · rw [rebuild_of_stateRebuilder_ok sr ms w branchIndex requestID target current last newMS
        size htarget hcurrent hlca hsr]
      exact ⟨[Call.clear, Call.setHistorySize size], rfl⟩
  · intro newMS size hsr
    rw [rebuild_of_stateRebuilder_ok sr ms w branchIndex requestID target current last newMS
      size htarget hcurrent hlca hsr]
    exact ⟨rfl, rfl⟩

/-- Witness of C12 on `TestRebuild`: the target branch `[(2, 12)]` ends at the
common ancestor `(2, 12)`, and the state rebuilder is called with start event
ID 3; its result is installed. -/
theorem rebuild_runs_on_empty_range_witness :
    testBranch1.GetLastItem = .ok ⟨2, 12⟩ ∧
    testBranch1.FindLCAItem testBranch0 = .ok ⟨2, 12⟩ ∧
    wrapInt64 (2 + 1) = 3 ∧
    (rebuild testStateRebuilder testMutableState (testWorld testVersionHistories)
        1 "R1").1 =
      .ok { testRebuiltMutableState with versionHistories := 0, updateCondition := 59 } ∧
    (rebuild testStateRebuilder testMutableState (testWorld testVersionHistories)
        1 "R1").2.calls =
      [] ++ [Call.rebuild ⟨"domain", "workflow", "run"⟩ [1] (wrapInt64 (2 + 1))
        ⟨"domain", "workflow", "run"⟩ "R1", Call.clear, Call.setHistorySize 12345] :=
  have hlca : testBranch1.FindLCAItem testBranch0 = .ok ⟨2, 12⟩ := by
    simp [FindLCAItem, findLCAFromEnd, testBranch0, testBranch1, NewVersionHistory,
      NewVersionHistoryItem]
  have h := (rebuild_runs_on_empty_range testStateRebuilder testMutableState
    (testWorld testVersionHistories) 1 "R1" testBranch1 testBranch0 ⟨2, 12⟩ rfl rfl rfl
    hlca).2 testRebuiltMutableState 12345 rfl
  ⟨rfl, hlca, by decide, h.1, h.2⟩

/-! ### The admin handler -/

theorem string_length_eq_zero_iff (s : String) : s.length = 0 ↔ s = "" := by
  constructor
  · intro h
    have hd : s.data = [] := List.length_eq_zero.mp h
    exact String.ext (by simpa using hd)
  · intro h
    subst h
    rfl

/-- C13: `validateGetWorkflowExecutionRawHistoryV2Request` returns no error
if and only if the workflow ID is not empty, the run ID is not empty and
parses as a UUID, the maximum page size is positive, the four range fields are
not all empty, the start event ID is `EmptyEventID` exactly when the start
event version is `EmptyVersion`, and likewise for the end event; in every
other case the error is a `BadRequestError`. -/
theorem validateGetWorkflowExecutionRawHistoryV2Request_iff (adh : AdminHandler)
    (request : GetWorkflowExecutionRawHistoryV2Request) :
    (adh.validateGetWorkflowExecutionRawHistoryV2Request request = none ↔
      GetWorkflowId request.Execution ≠ "" ∧
      (GetRunId request.Execution ≠ "" ∧ adh.uuidParse (GetRunId request.Execution) = true) ∧
      0 < request.MaximumPageSize ∧
      ¬ (request.StartEventId = EmptyEventID ∧ request.EndEventId = EmptyEventID ∧
          request.StartEventVersion = EmptyVersion ∧
          request.EndEventVersion = EmptyVersion) ∧
      (request.StartEventId = EmptyEventID ↔ request.StartEventVersion = EmptyVersion) ∧
      (request.EndEventId = EmptyEventID ↔ request.EndEventVersion = EmptyVersion)) ∧
    (adh.validateGetWorkflowExecutionRawHistoryV2Request request ≠ none →
      ∃ message, adh.validateGetWorkflowExecutionRawHistoryV2Request request =
        some (.badRequest message)) := by
  unfold AdminHandler.validateGetWorkflowExecutionRawHistoryV2Request
  simp only [string_length_eq_zero_iff]
  constructor
  · constructor
    · intro h
      split_ifs at h with h1 h2 h3 h4 h5 h6
      refine ⟨h1, ?_, by omega, ?_, ?_, ?_⟩
      · constructor
        · exact fun h => h2 (Or.inl h)
        · cases hu : adh.uuidParse (GetRunId request.Execution)
          · exact absurd (Or.inr hu) h2
          · rfl
      · tauto
      · tauto
      · tauto
    · rintro ⟨h1, ⟨h2, h2u⟩, h3, h4, h5, h6⟩
      rw [if_neg h1, if_neg (by simp [h2, h2u]), if_neg (by omega), if_neg (by tauto),
        if_neg (by tauto), if_neg (by tauto)]
  · intro h
    split_ifs at h ⊢ <;> first | exact ⟨_, rfl⟩ | exact absurd rfl h

theorem GetFirstItem_of_GetLastItem (v : VersionHistory) (last : VersionHistoryItem)
    (h : v.GetLastItem = .ok last) : ∃ first, v.GetFirstItem = .ok first := by
  unfold GetLastItem at h
  unfold GetFirstItem
  cases hi : v.items with
  | nil => simp [hi] at h
  | cons x xs => exact ⟨x, rfl⟩

theorem endEventDefaulted_start (request : GetWorkflowExecutionRawHistoryV2Request)
    (last : VersionHistoryItem) :
    (AdminHandler.endEventDefaulted request last).StartEventId = request.StartEventId ∧
      (AdminHandler.endEventDefaulted request last).StartEventVersion =
        request.StartEventVersion := by
  unfold AdminHandler.endEventDefaulted
  split_ifs <;> exact ⟨rfl, rfl⟩

theorem startEventDefaulted_end (request : GetWorkflowExecutionRawHistoryV2Request)
    (first : VersionHistoryItem) :
    (AdminHandler.startEventDefaulted request first).EndEventId = request.EndEventId ∧
      (AdminHandler.startEventDefaulted request first).EndEventVersion =
        request.EndEventVersion := by
  unfold AdminHandler.startEventDefaulted
  split_ifs <;> exact ⟨rfl, rfl⟩

/-- The request and the target branch once the current branch and its first
and last item are known: what
`setRequestDefaultValueAndGetTargetVersionHistory` does from line 822 on. -/
theorem setRequestDefault_of_current (adh : AdminHandler)
    (request : GetWorkflowExecutionRawHistoryV2Request) (versionHistories : VersionHistories)
    (current : VersionHistory) (first last : VersionHistoryItem)
    (hcur : versionHistories.GetCurrentVersionHistory = .ok current)
    (hfirst : current.GetFirstItem = .ok first)
    (hlast : current.GetLastItem = .ok last) :
    adh.setRequestDefaultValueAndGetTargetVersionHistory request versionHistories =
      if (AdminHandler.endEventDefaulted
          (AdminHandler.startEventDefaulted request first) last).StartEventId < 0 then
        (.error (.badRequest "Invalid FirstEventID && NextEventID combination."),
          AdminHandler.endEventDefaulted (AdminHandler.startEventDefaulted request first) last)
      else
        match (if (AdminHandler.endEventDefaulted
                (AdminHandler.startEventDefaulted request first) last).EndEventId =
                  wrapInt64 (last.eventID + 1) ∧
              (AdminHandler.endEventDefaulted
                (AdminHandler.startEventDefaulted request first) last).EndEventVersion =
                  last.version then
            (.ok current : Except Err VersionHistory)
          else
            match versionHistories.FindFirstVersionHistoryIndexByItem
                (NewVersionHistoryItem
                  (AdminHandler.endEventDefaulted
                    (AdminHandler.startEventDefaulted request first) last).EndEventId
                  (AdminHandler.endEventDefaulted
                    (AdminHandler.startEventDefaulted request first) last).EndEventVersion)
              with
            | .error e => .error e
            | .ok idx => versionHistories.GetVersionHistory idx) with
        | .error e =>
          (.error e,
            AdminHandler.endEventDefaulted (AdminHandler.startEventDefaulted request first) last)
        | .ok targetBranch =>
          if (AdminHandler.endEventDefaulted
                (AdminHandler.startEventDefaulted request first) last).StartEventId =
                FirstEventID - 1 ∧
              (AdminHandler.endEventDefaulted
                (AdminHandler.startEventDefaulted request first) last).StartEventVersion =
                first.version then
            (.ok targetBranch,
              AdminHandler.endEventDefaulted
                (AdminHandler.startEventDefaulted request first) last)
          else if targetBranch.ContainsItem
              (NewVersionHistoryItem
                (AdminHandler.endEventDefaulted
                  (AdminHandler.startEventDefaulted request first) last).StartEventId
                (AdminHandler.endEventDefaulted
                  (AdminHandler.startEventDefaulted request first) last).StartEventVersion)
              = false then
            match versionHistories.FindFirstVersionHistoryIndexByItem
                (NewVersionHistoryItem
                  (AdminHandler.endEventDefaulted
                    (AdminHandler.startEventDefaulted request first) last).StartEventId
                  (AdminHandler.endEventDefaulted
                    (AdminHandler.startEventDefaulted request first) last).StartEventVersion)
              with
            | .error e =>
              (.error e,
                AdminHandler.endEventDefaulted
                  (AdminHandler.startEventDefaulted request first) last)
            | .ok idx =>
              match versionHistories.GetVersionHistory idx with
              | .error e =>
                (.error e,
                  AdminHandler.endEventDefaulted
                    (AdminHandler.startEventDefaulted request first) last)
              | .ok startBranch =>
                match targetBranch.FindLCAItem startBranch with
                | .error e =>
                  (.error e,
                    AdminHandler.endEventDefaulted
                      (AdminHandler.startEventDefaulted request first) last)
                | .ok lca =>
                  (.ok targetBranch,
                    { AdminHandler.endEventDefaulted
                        (AdminHandler.startEventDefaulted request first) last with
                        StartEventId := lca.eventID
                        StartEventVersion := lca.version })
          else
            (.ok targetBranch,
              AdminHandler.endEventDefaulted
                (AdminHandler.startEventDefaulted request first) last) := by
  unfold AdminHandler.setRequestDefaultValueAndGetTargetVersionHistory
  simp only [hcur, hfirst, hlast]

/-- C19: for a request whose end event is not set and a set of version
histories with a non-empty current branch,
`setRequestDefaultValueAndGetTargetVersionHistory` leaves the request with
`EndEventId` the event ID of the last item of the current branch plus one (in
`int64` arithmetic) and `EndEventVersion` the version of that item, and a
target branch it returns is the current branch. -/
theorem setRequestDefault_end_not_set (adh : AdminHandler)
    (request : GetWorkflowExecutionRawHistoryV2Request) (versionHistories : VersionHistories)
    (current : VersionHistory) (last : VersionHistoryItem)
    (hcur : versionHistories.GetCurrentVersionHistory = .ok current)
    (hlast : current.GetLastItem = .ok last)
    (hend : request.EndEventId = EmptyEventID ∨ request.EndEventVersion = EmptyVersion) :
    (adh.setRequestDefaultValueAndGetTargetVersionHistory request versionHistories).2.EndEventId
        = wrapInt64 (last.eventID + 1) ∧
      (adh.setRequestDefaultValueAndGetTargetVersionHistory request
        versionHistories).2.EndEventVersion = last.version ∧
      ∀ target,
        (adh.setRequestDefaultValueAndGetTargetVersionHistory request versionHistories).1 =
          .ok target → target = current := by
  obtain ⟨first, hfirst⟩ := GetFirstItem_of_GetLastItem current last hlast
  rw [setRequestDefault_of_current adh request versionHistories current first last hcur
    hfirst hlast]
  have hse := startEventDefaulted_end request first
  have hE : (AdminHandler.endEventDefaulted
      (AdminHandler.startEventDefaulted request first) last).EndEventId =
      wrapInt64 (last.eventID + 1) := by
    unfold AdminHandler.endEventDefaulted
    rw [if_pos (by rw [hse.1, hse.2]; exact hend)]
  have hV : (AdminHandler.endEventDefaulted
      (AdminHandler.startEventDefaulted request first) last).EndEventVersion =
      last.version := by
    unfold AdminHandler.endEventDefaulted
    rw [if_pos (by rw [hse.1, hse.2]; exact hend)]
  generalize AdminHandler.endEventDefaulted
    (AdminHandler.startEventDefaulted request first) last = r2 at hE hV ⊢
  simp only [hE, hV, and_self, if_true]
  split_ifs
  · exact ⟨hE, hV, fun t h => by cases h⟩
  · exact ⟨hE, hV, fun t h => by cases h; rfl⟩
  · split
    · exact ⟨hE, hV, fun t h => by cases h⟩
    · split
      · exact ⟨hE, hV, fun t h => by cases h⟩
      · split
        · exact ⟨hE, hV, fun t h => by cases h⟩
        · exact ⟨rfl, rfl, fun t h => by cases h; rfl⟩
  · exact ⟨hE, hV, fun t h => by cases h; rfl⟩

theorem findIdx?_some_first {α : Type} (p : α → Bool) (l : List α) (i : Nat)
    (h : l.findIdx? p = some i) :
    (∃ v, l.get? i = some v ∧ p v = true) ∧
      ∀ (j : Nat) (v : α), j < i → l.get? j = some v → p v = false := by
  rw [List.findIdx?_eq_some_iff_getElem] at h
  obtain ⟨hlt, hp, hbefore⟩ := h
  refine ⟨⟨l[i], by simp [hlt], hp⟩, ?_⟩
  intro j v hj hv
  have hjl : j < l.length := Nat.lt_trans hj hlt
  have hvj : v = l[j] := by
    rw [List.get?_eq_getElem?, List.getElem?_eq_getElem hjl] at hv
    exact (Option.some.inj hv).symm
  have := hbefore j hj
  rw [hvj]
  simpa using this

theorem FindFirstVersionHistoryIndexByItem_ok (h : VersionHistories)
    (item : VersionHistoryItem) (idx : Int)
    (hf : h.FindFirstVersionHistoryIndexByItem item = .ok idx) :
    ∃ target, h.GetVersionHistory idx = .ok target ∧ target.ContainsItem item = true ∧
      ∀ (j : Nat) (v : VersionHistory), (j : Int) < idx → h.histories.get? j = some v →
        v.ContainsItem item = false := by
  unfold FindFirstVersionHistoryIndexByItem at hf
  rcases hi : h.histories.findIdx? (fun v => v.ContainsItem item) with _ | i
  · simp [hi] at hf
  · simp only [hi, Except.ok.injEq] at hf
    subst hf
    obtain ⟨⟨v, hv, hp⟩, hbefore⟩ := findIdx?_some_first _ _ _ hi
    refine ⟨v, ?_, hp, ?_⟩
    · unfold GetVersionHistory
      rw [if_pos (by omega), Int.toNat_ofNat, hv]
    · intro j w hj hw
      exact hbefore j w (by omega) hw

theorem FindFirstVersionHistoryIndexByItem_error (h : VersionHistories)
    (item : VersionHistoryItem) (e : Err)
    (hf : h.FindFirstVersionHistoryIndexByItem item = .error e) :
    e = .itemNotFound ∧ ∀ v ∈ h.histories, v.ContainsItem item = false := by
  unfold FindFirstVersionHistoryIndexByItem at hf
  rcases hi : h.histories.findIdx? (fun v => v.ContainsItem item) with _ | i
  · simp only [hi, Except.error.injEq] at hf
    exact ⟨hf.symm, by simpa using hi⟩
  · simp [hi] at hf

/-- C20 as amended: when the end event of the request is set and is not the
last item of the current branch moved on by one, and the start event ID after
the default is not negative, the target branch
`setRequestDefaultValueAndGetTargetVersionHistory` returns is the branch at
the index `FindFirstVersionHistoryIndexByItem` gives for the end item, which
is the first stored branch containing that item; it is returned whenever the
start event needs no look-up; and when no branch contains the end item the
call fails with the error of that look-up. -/
theorem setRequestDefault_target_by_end_item (adh : AdminHandler)
    (request : GetWorkflowExecutionRawHistoryV2Request) (versionHistories : VersionHistories)
    (current : VersionHistory) (first last : VersionHistoryItem)
    (hcur : versionHistories.GetCurrentVersionHistory = .ok current)
    (hfirst : current.GetFirstItem = .ok first)
    (hlast : current.GetLastItem = .ok last)
    (hset : request.EndEventId ≠ EmptyEventID ∧ request.EndEventVersion ≠ EmptyVersion)
    (hnot : ¬ (request.EndEventId = wrapInt64 (last.eventID + 1) ∧
      request.EndEventVersion = last.version))
    (hstart : 0 ≤ (AdminHandler.startEventDefaulted request first).StartEventId) :
    (∀ idx,
      versionHistories.FindFirstVersionHistoryIndexByItem
          (NewVersionHistoryItem request.EndEventId request.EndEventVersion) = .ok idx →
      ∃ target, versionHistories.GetVersionHistory idx = .ok target ∧
        target.ContainsItem
          (NewVersionHistoryItem request.EndEventId request.EndEventVersion) = true ∧
        (∀ (j : Nat) (v : VersionHistory), (j : Int) < idx →
          versionHistories.histories.get? j = some v →
          v.ContainsItem
            (NewVersionHistoryItem request.EndEventId request.EndEventVersion) = false) ∧
        (∀ t,
          (adh.setRequestDefaultValueAndGetTargetVersionHistory request versionHistories).1 =
            .ok t → t = target) ∧
        (((AdminHandler.startEventDefaulted request first).StartEventId = FirstEventID - 1 ∧
            (AdminHandler.startEventDefaulted request first).StartEventVersion =
              first.version) ∨
          target.ContainsItem
            (NewVersionHistoryItem
              (AdminHandler.startEventDefaulted request first).StartEventId
              (AdminHandler.startEventDefaulted request first).StartEventVersion) = true →
          (adh.setRequestDefaultValueAndGetTargetVersionHistory request versionHistories).1 =
            .ok target)) ∧
    (∀ e,
      versionHistories.FindFirstVersionHistoryIndexByItem
          (NewVersionHistoryItem request.EndEventId request.EndEventVersion) = .error e →
      (adh.setRequestDefaultValueAndGetTargetVersionHistory request versionHistories).1 =
          .error e ∧
        ∀ v ∈ versionHistories.histories,
          v.ContainsItem
            (NewVersionHistoryItem request.EndEventId request.EndEventVersion) = false) := by
  rw [setRequestDefault_of_current adh request versionHistories current first last hcur
    hfirst hlast]
  have hse := startEventDefaulted_end request first
  have hes := endEventDefaulted_start (AdminHandler.startEventDefaulted request first) last
  have hE : (AdminHandler.endEventDefaulted
      (AdminHandler.startEventDefaulted request first) last).EndEventId =
      request.EndEventId := by
    unfold AdminHandler.endEventDefaulted
    rw [if_neg (by rw [hse.1, hse.2]; tauto)]
    exact hse.1
  have hV : (AdminHandler.endEventDefaulted
      (AdminHandler.startEventDefaulted request first) last).EndEventVersion =
      request.EndEventVersion := by
    unfold AdminHandler.endEventDefaulted
    rw [if_neg (by rw [hse.1, hse.2]; tauto)]
    exact hse.2
  generalize AdminHandler.endEventDefaulted
    (AdminHandler.startEventDefaulted request first) last = r2 at hE hV hes ⊢
  generalize AdminHandler.startEventDefaulted request first = r1 at hes hstart ⊢
  have hneg : ¬ r2.StartEventId < 0 := by rw [hes.1]; omega
  rw [if_neg hneg, hE, hV, if_neg hnot, hes.1, hes.2]
  constructor
  · intro idx hidx
    obtain ⟨target, htarget, hcont, hbefore⟩ :=
      FindFirstVersionHistoryIndexByItem_ok versionHistories _ idx hidx
    refine ⟨target, htarget, hcont, hbefore, ?_, ?_⟩
    · simp only [hidx, htarget]
      intro t
      split_ifs
      · exact fun h => by cases h; rfl
      · split
        · exact fun h => by cases h
        · split
          · exact fun h => by cases h
          · split
            · exact fun h => by cases h
            · exact fun h => by cases h; rfl
      · exact fun h => by cases h; rfl
    · simp only [hidx, htarget]
      rintro (hsp | hc)
      · rw [if_pos hsp]
      · split_ifs with h1 h2
        · rfl
        · rw [hc] at h2
          cases h2
        · rfl
  · intro e he
    simp only [he]
    exact ⟨trivial, (FindFirstVersionHistoryIndexByItem_error versionHistories _ e he).2⟩

theorem GetWorkflowExecutionRawHistoryV2_of_prepare (adh : AdminHandler)
    (request request1 : GetWorkflowExecutionRawHistoryV2Request)
    (target : VersionHistory) (pageToken : getWorkflowRawHistoryV2Token)
    (hprep : adh.prepareRawHistoryV2 request = .ok (request1, target, pageToken))
    (hne : wrapInt64 (pageToken.StartEventID + 1) ≠ pageToken.EndEventID) :
    adh.GetWorkflowExecutionRawHistoryV2 request =
      match adh.ReadRawHistoryBranch (adh.rawHistoryV2ReadRequest request1 target pageToken) with
      | .error err =>
        match err with
        | .entityNotExists _ =>
          (.ok { HistoryBatches := []
                 NextPageToken := none
                 VersionHistory := target.ToProto },
            [StoreRead.readRawHistoryBranch
              (adh.rawHistoryV2ReadRequest request1 target pageToken)])
        | _ =>
          (.error err,
            [StoreRead.readRawHistoryBranch
              (adh.rawHistoryV2ReadRequest request1 target pageToken)])
      | .ok rawHistoryResponse =>
        if lenBytes rawHistoryResponse.NextPageToken = 0 then
          (.ok { HistoryBatches := rawHistoryResponse.HistoryEventBlobs
                 NextPageToken := none
                 VersionHistory := target.ToProto },
            [StoreRead.readRawHistoryBranch
              (adh.rawHistoryV2ReadRequest request1 target pageToken)])
        else
          match adh.serializeRawHistoryToken
              (some { pageToken with PersistenceToken := rawHistoryResponse.NextPageToken }) with
          | .error err =>
            (.error err,
              [StoreRead.readRawHistoryBranch
                (adh.rawHistoryV2ReadRequest request1 target pageToken)])
          | .ok bytes =>
            (.ok { HistoryBatches := rawHistoryResponse.HistoryEventBlobs
                   NextPageToken := bytes
                   VersionHistory := target.ToProto },
              [StoreRead.readRawHistoryBranch
                (adh.rawHistoryV2ReadRequest request1 target pageToken)]) := by
  unfold AdminHandler.GetWorkflowExecutionRawHistoryV2
  simp only [hprep, hne, if_false]

theorem GetWorkflowExecutionRawHistoryV2_reads (adh : AdminHandler)
    (request : GetWorkflowExecutionRawHistoryV2Request) :
    (adh.GetWorkflowExecutionRawHistoryV2 request).2 = [] ∨
      ∃ request1 target pageToken,
        adh.prepareRawHistoryV2 request = .ok (request1, target, pageToken) ∧
        wrapInt64 (pageToken.StartEventID + 1) ≠ pageToken.EndEventID ∧
        (adh.GetWorkflowExecutionRawHistoryV2 request).2 =
          [StoreRead.readRawHistoryBranch
            (adh.rawHistoryV2ReadRequest request1 target pageToken)] := by
  rcases hprep : adh.prepareRawHistoryV2 request with e | ⟨request1, target, pageToken⟩
  · left
    unfold AdminHandler.GetWorkflowExecutionRawHistoryV2
    simp only [hprep]
  · by_cases hne : wrapInt64 (pageToken.StartEventID + 1) = pageToken.EndEventID
    · left
      unfold AdminHandler.GetWorkflowExecutionRawHistoryV2
      simp only [hprep, hne, if_true]
    · right
      refine ⟨request1, target, pageToken, rfl, hne, ?_⟩
      rw [GetWorkflowExecutionRawHistoryV2_of_prepare adh request request1 target pageToken
        hprep hne]
      split
      · split <;> rfl
      · split
        · rfl
        · split <;> rfl

/-- C14: `GetWorkflowExecutionRawHistoryV2` is exclusive-exclusive over the
inclusive-exclusive store read. A read of the store it makes is its only one,
a call of `ReadRawHistoryBranch` with the branch token of the target version
history, `MinEventID` the start event ID of the page token plus one (in
`int64` arithmetic) and `MaxEventID` its end event ID; so, the start event ID
being an `int64` below the greatest one, the events asked for are those with
`StartEventID < eventID < EndEventID`. -/
theorem GetWorkflowExecutionRawHistoryV2_read_exclusive (adh : AdminHandler)
    (request : GetWorkflowExecutionRawHistoryV2Request) (r : StoreRead)
    (hr : r ∈ (adh.GetWorkflowExecutionRawHistoryV2 request).2) :
    ∃ request1 target pageToken readRequest,
      adh.prepareRawHistoryV2 request = .ok (request1, target, pageToken) ∧
      (adh.GetWorkflowExecutionRawHistoryV2 request).2 = [r] ∧
      r = StoreRead.readRawHistoryBranch readRequest ∧
      readRequest.BranchToken = target.branchToken ∧
      readRequest.MinEventID = wrapInt64 (pageToken.StartEventID + 1) ∧
      readRequest.MaxEventID = pageToken.EndEventID ∧
      (-(2 ^ 63) ≤ pageToken.StartEventID → pageToken.StartEventID < 2 ^ 63 - 1 →
        ∀ eventID : Int,
          (readRequest.MinEventID ≤ eventID ∧ eventID < readRequest.MaxEventID) ↔
            (pageToken.StartEventID < eventID ∧ eventID < pageToken.EndEventID)) := by
  rcases GetWorkflowExecutionRawHistoryV2_reads adh request with hnil | h
  · rw [hnil] at hr
    cases hr
  · obtain ⟨request1, target, pageToken, hprep, _, hreads⟩ := h
    rw [hreads] at hr
    have hrr : r = StoreRead.readRawHistoryBranch
        (adh.rawHistoryV2ReadRequest request1 target pageToken) := by
      simpa using hr
    refine ⟨request1, target, pageToken, _, hprep, by rw [hreads, hrr], hrr, rfl, rfl, rfl, ?_⟩
    intro hlo hhi eventID
    have hw : wrapInt64 (pageToken.StartEventID + 1) = pageToken.StartEventID + 1 :=
      wrapInt64_of_inRange _ (by omega) (by omega)
    simp only [AdminHandler.rawHistoryV2ReadRequest, hw]
    constructor
    · rintro ⟨h1, h2⟩
      exact ⟨by omega, h2⟩
    · rintro ⟨h1, h2⟩
      exact ⟨by omega, h2⟩

/-- C17: after a successful store read the `NextPageToken` of
`GetWorkflowExecutionRawHistoryV2` is nil if the continuation token the store
returned is empty; otherwise the response carries the serialization of the
page token with that persistence token (and there is no response if the
serialization fails). So in a response the token is nil exactly when the
store's token is empty. -/
theorem GetWorkflowExecutionRawHistoryV2_next_page_token (adh : AdminHandler)
    (request request1 : GetWorkflowExecutionRawHistoryV2Request)
    (target : VersionHistory) (pageToken : getWorkflowRawHistoryV2Token)
    (rawHistoryResponse : ReadRawHistoryBranchResponse)
    (hprep : adh.prepareRawHistoryV2 request = .ok (request1, target, pageToken))
    (hne : wrapInt64 (pageToken.StartEventID + 1) ≠ pageToken.EndEventID)
    (hread : adh.ReadRawHistoryBranch (adh.rawHistoryV2ReadRequest request1 target pageToken)
      = .ok rawHistoryResponse) :
    (lenBytes rawHistoryResponse.NextPageToken = 0 →
      (adh.GetWorkflowExecutionRawHistoryV2 request).1 =
        .ok { HistoryBatches := rawHistoryResponse.HistoryEventBlobs
              NextPageToken := none
              VersionHistory := target.ToProto }) ∧
    (lenBytes rawHistoryResponse.NextPageToken ≠ 0 →
      (adh.GetWorkflowExecutionRawHistoryV2 request).1 =
        match adh.jsonMarshalRawHistoryToken
            { pageToken with PersistenceToken := rawHistoryResponse.NextPageToken } with
        | .error err => .error err
        | .ok bytes =>
          .ok { HistoryBatches := rawHistoryResponse.HistoryEventBlobs
                NextPageToken := some bytes
                VersionHistory := target.ToProto }) ∧
    (∀ response, (adh.GetWorkflowExecutionRawHistoryV2 request).1 = .ok response →
      (response.NextPageToken = none ↔ lenBytes rawHistoryResponse.NextPageToken = 0)) := by
  rw [GetWorkflowExecutionRawHistoryV2_of_prepare adh request request1 target pageToken
    hprep hne]
  simp only [hread, AdminHandler.serializeRawHistoryToken]
  refine ⟨fun h => by rw [if_pos h], fun h => ?_, fun response hresp => ?_⟩
  · rw [if_neg h]
    rcases hm : adh.jsonMarshalRawHistoryToken
        { pageToken with PersistenceToken := rawHistoryResponse.NextPageToken } with e | bytes
    · simp only [hm]
    · simp only [hm]
  · by_cases h : lenBytes rawHistoryResponse.NextPageToken = 0
    · rw [if_pos h] at hresp
      cases hresp
      simp [h]
    · rw [if_neg h] at hresp
      rcases hm : adh.jsonMarshalRawHistoryToken
          { pageToken with PersistenceToken := rawHistoryResponse.NextPageToken } with e | bytes
      · simp [hm] at hresp
      · simp only [hm, Except.ok.injEq] at hresp
        subst hresp
        simp [h]

theorem GetWorkflowExecutionRawHistory_of_prepare (adh : AdminHandler)
    (request : GetWorkflowExecutionRawHistoryRequest)
    (token : getHistoryContinuationTokenGRPC)
    (hprep : adh.prepareRawHistory request = .ok token)
    (hlt : token.FirstEventID < token.NextEventID) :
    adh.GetWorkflowExecutionRawHistory request =
      match adh.PaginateHistory (adh.rawHistoryPaginateCall request token) with
      | .error err =>
        match err with
        | .entityNotExists _ =>
          (.ok { HistoryBatches := []
                 ReplicationInfo := token.ReplicationInfo
                 NextPageToken := none },
            [StoreRead.paginateHistory (adh.rawHistoryPaginateCall request token)])
        | _ =>
          (.error err, [StoreRead.paginateHistory (adh.rawHistoryPaginateCall request token)])
      | .ok (historyBatches, persistenceToken, _size) =>
        match adh.serializeHistoryBatches historyBatches with
        | .error err =>
          (.error err, [StoreRead.paginateHistory (adh.rawHistoryPaginateCall request token)])
        | .ok blobs =>
          if lenBytes persistenceToken = 0 then
            (.ok { HistoryBatches := blobs
                   ReplicationInfo := token.ReplicationInfo
                   NextPageToken := none },
              [StoreRead.paginateHistory (adh.rawHistoryPaginateCall request token)])
          else
            match adh.serializeHistoryToken
                (some { token with PersistenceToken := persistenceToken }) with
            | .error err =>
              (.error err,
                [StoreRead.paginateHistory (adh.rawHistoryPaginateCall request token)])
            | .ok bytes =>
              (.ok { HistoryBatches := blobs
                     ReplicationInfo := token.ReplicationInfo
                     NextPageToken := bytes },
                [StoreRead.paginateHistory (adh.rawHistoryPaginateCall request token)]) := by
  unfold AdminHandler.GetWorkflowExecutionRawHistory
  have hge : ¬ token.FirstEventID ≥ token.NextEventID := by omega
  simp only [hprep, hge, if_false]

theorem GetWorkflowExecutionRawHistory_reads (adh : AdminHandler)
    (request : GetWorkflowExecutionRawHistoryRequest) :
    (adh.GetWorkflowExecutionRawHistory request).2 = [] ∨
      ∃ token, adh.prepareRawHistory request = .ok token ∧
        token.FirstEventID < token.NextEventID ∧
        (adh.GetWorkflowExecutionRawHistory request).2 =
          [StoreRead.paginateHistory (adh.rawHistoryPaginateCall request token)] := by
  rcases hprep : adh.prepareRawHistory request with e | token
  · left
    unfold AdminHandler.GetWorkflowExecutionRawHistory
    simp only [hprep]
  · by_cases hge : token.FirstEventID ≥ token.NextEventID
    · left
      unfold AdminHandler.GetWorkflowExecutionRawHistory
      simp only [hprep, hge, if_true]
    · right
      refine ⟨token, rfl, by omega, ?_⟩
      rw [GetWorkflowExecutionRawHistory_of_prepare adh request token hprep (by omega)]
      split
      · split <;> rfl
      · split
        · rfl
        · split
          · rfl
          · split <;> rfl

/-- C15: when the history store answers a read with an `EntityNotExistsError`,
`GetWorkflowExecutionRawHistoryV2` and `GetWorkflowExecutionRawHistory`
return a response with no history batches and a nil `NextPageToken`, and no
error; any other error of the store is returned as it is, with no response. -/
theorem store_EntityNotExists_gives_empty_response (adh : AdminHandler) :
    (∀ (request request1 : GetWorkflowExecutionRawHistoryV2Request)
        (target : VersionHistory) (pageToken : getWorkflowRawHistoryV2Token) (err : Err),
      adh.prepareRawHistoryV2 request = .ok (request1, target, pageToken) →
      wrapInt64 (pageToken.StartEventID + 1) ≠ pageToken.EndEventID →
      adh.ReadRawHistoryBranch (adh.rawHistoryV2ReadRequest request1 target pageToken) =
        .error err →
      ((∃ message, err = .entityNotExists message) →
        (adh.GetWorkflowExecutionRawHistoryV2 request).1 =
          .ok { HistoryBatches := []
                NextPageToken := none
                VersionHistory := target.ToProto }) ∧
      ((∀ message, err ≠ .entityNotExists message) →
        (adh.GetWorkflowExecutionRawHistoryV2 request).1 = .error err)) ∧
    (∀ (request : GetWorkflowExecutionRawHistoryRequest)
        (token : getHistoryContinuationTokenGRPC) (err : Err),
      adh.prepareRawHistory request = .ok token →
      token.FirstEventID < token.NextEventID →
      adh.PaginateHistory (adh.rawHistoryPaginateCall request token) = .error err →
      ((∃ message, err = .entityNotExists message) →
        (adh.GetWorkflowExecutionRawHistory request).1 =
          .ok { HistoryBatches := []
                ReplicationInfo := token.ReplicationInfo
                NextPageToken := none }) ∧
      ((∀ message, err ≠ .entityNotExists message) →
        (adh.GetWorkflowExecutionRawHistory request).1 = .error err)) := by
  constructor
  · intro request request1 target pageToken err hprep hne hread
    rw [GetWorkflowExecutionRawHistoryV2_of_prepare adh request request1 target pageToken
      hprep hne]
    simp only [hread]
    constructor
    · rintro ⟨message, rfl⟩
      rfl
    · intro hother
      cases err <;> first | rfl | exact absurd rfl (hother _)
  · intro request token err hprep hlt hread
    rw [GetWorkflowExecutionRawHistory_of_prepare adh request token hprep hlt]
    simp only [hread]
    constructor
    · rintro ⟨message, rfl⟩
      rfl
    · intro hother
      cases err <;> first | rfl | exact absurd rfl (hother _)

theorem prepareRawHistory_without_token (adh : AdminHandler)
    (request : GetWorkflowExecutionRawHistoryRequest)
    (domainID : String) (response : GetMutableStateResponse)
    (hnone : request.NextPageToken = none)
    (hdomain : adh.GetDomainID request.Domain = .ok domainID)
    (hworkflow : GetWorkflowId request.Execution ≠ "")
    (hrun : GetRunId request.Execution ≠ "" ∧ adh.uuidParse (GetRunId request.Execution) = true)
    (hpage : 0 < request.MaximumPageSize)
    (hrange : 0 ≤ request.FirstEventId ∧ request.FirstEventId ≤ request.NextEventId)
    (hms : adh.GetMutableState domainID request.Execution = .ok response) :
    adh.prepareRawHistory request =
      .ok { RunID := GetRunId request.Execution
            BranchToken := response.CurrentBranchToken
            FirstEventID := request.FirstEventId
            NextEventID := min request.NextEventId response.NextEventId
            PersistenceToken := none
            ReplicationInfo := response.ReplicationInfo } := by
  unfold AdminHandler.prepareRawHistory
  simp only [hdomain, string_length_eq_zero_iff, hnone, hms]
  rw [if_neg hworkflow, if_neg (by simp [hrun.1, hrun.2]), if_neg (by omega),
    if_neg (by omega)]
  have hmin : (if request.NextEventId > response.NextEventId then response.NextEventId
      else request.NextEventId) = min request.NextEventId response.NextEventId := by
    split_ifs with h
    · exact (min_eq_right (le_of_lt h)).symm
    · exact (min_eq_left (by omega)).symm
  rw [hmin]

/-- C16: in `GetWorkflowExecutionRawHistory` without a page token, the request
having passed the checks and the mutable state being read, the continuation
token holds the first event ID of the request and, as next event ID, the
smaller of the next event ID of the request and the one of the mutable state;
a read of the store asks for that range, which ends at or before the actual
next event ID of the execution. -/
theorem GetWorkflowExecutionRawHistory_initial_token (adh : AdminHandler)
    (request : GetWorkflowExecutionRawHistoryRequest)
    (domainID : String) (response : GetMutableStateResponse)
    (hnone : request.NextPageToken = none)
    (hdomain : adh.GetDomainID request.Domain = .ok domainID)
    (hworkflow : GetWorkflowId request.Execution ≠ "")
    (hrun : GetRunId request.Execution ≠ "" ∧ adh.uuidParse (GetRunId request.Execution) = true)
    (hpage : 0 < request.MaximumPageSize)
    (hrange : 0 ≤ request.FirstEventId ∧ request.FirstEventId ≤ request.NextEventId)
    (hms : adh.GetMutableState domainID request.Execution = .ok response) :
    ∃ token, adh.prepareRawHistory request = .ok token ∧
      token.FirstEventID = request.FirstEventId ∧
      token.NextEventID = min request.NextEventId response.NextEventId ∧
      ∀ r ∈ (adh.GetWorkflowExecutionRawHistory request).2,
        ∃ call, r = StoreRead.paginateHistory call ∧
          call.FirstEventID = request.FirstEventId ∧
          call.NextEventID = min request.NextEventId response.NextEventId ∧
          call.NextEventID ≤ response.NextEventId := by
  have hprep := prepareRawHistory_without_token adh request domainID response hnone hdomain
    hworkflow hrun hpage hrange hms
  refine ⟨_, hprep, rfl, rfl, ?_⟩
  intro r hr
  rcases GetWorkflowExecutionRawHistory_reads adh request with hnil | ⟨token, htoken, _, hreads⟩
  · rw [hnil] at hr
    cases hr
  · rw [hreads] at hr
    rw [hprep] at htoken
    cases htoken
    refine ⟨_, by simpa using hr, rfl, rfl, ?_⟩
    exact min_le_right _ _

/-- Witness of C14: a request for the events after `(2, 11)` up to the end of
the current branch `[(3, 11), (5, 12)]` reads the store once, with the token
of that branch, `MinEventID` 3 and `MaxEventID` 6. -/
theorem GetWorkflowExecutionRawHistoryV2_read_exclusive_witness :
    (testAdminHandler.GetWorkflowExecutionRawHistoryV2
        (adminRequestV2 2 11 EmptyEventID EmptyVersion)).2 =
      [StoreRead.readRawHistoryBranch ⟨[0], 3, 6, 10, none, 0⟩] ∧
    ∃ request1 target pageToken readRequest,
      testAdminHandler.prepareRawHistoryV2 (adminRequestV2 2 11 EmptyEventID EmptyVersion) =
        .ok (request1, target, pageToken) ∧
      (testAdminHandler.GetWorkflowExecutionRawHistoryV2
        (adminRequestV2 2 11 EmptyEventID EmptyVersion)).2 =
        [StoreRead.readRawHistoryBranch ⟨[0], 3, 6, 10, none, 0⟩] ∧
      StoreRead.readRawHistoryBranch ⟨[0], 3, 6, 10, none, 0⟩ =
        StoreRead.readRawHistoryBranch readRequest ∧
      readRequest.BranchToken = target.branchToken ∧
      readRequest.MinEventID = wrapInt64 (pageToken.StartEventID + 1) ∧
      readRequest.MaxEventID = pageToken.EndEventID ∧
      (-(2 ^ 63) ≤ pageToken.StartEventID → pageToken.StartEventID < 2 ^ 63 - 1 →
        ∀ eventID : Int,
          (readRequest.MinEventID ≤ eventID ∧ eventID < readRequest.MaxEventID) ↔
            (pageToken.StartEventID < eventID ∧ eventID < pageToken.EndEventID)) :=
  ⟨rfl,
    GetWorkflowExecutionRawHistoryV2_read_exclusive testAdminHandler
      (adminRequestV2 2 11 EmptyEventID EmptyVersion)
      (StoreRead.readRawHistoryBranch ⟨[0], 3, 6, 10, none, 0⟩) (by decide)⟩

/-- Witness of C15: over a store with no events both handlers answer with an
empty response, over a busy store both return the store's error. -/
theorem store_EntityNotExists_gives_empty_response_witness :
    (emptyStoreAdminHandler.GetWorkflowExecutionRawHistoryV2
        (adminRequestV2 2 11 EmptyEventID EmptyVersion)).1 =
      .ok { HistoryBatches := []
            NextPageToken := none
            VersionHistory :=
              NewVersionHistory [0] [NewVersionHistoryItem 3 11, NewVersionHistoryItem 5 12] } ∧
    (emptyStoreAdminHandler.GetWorkflowExecutionRawHistory (adminRequest 1 10)).1 =
      .ok { HistoryBatches := [], ReplicationInfo := [], NextPageToken := none } ∧
    (busyStoreAdminHandler.GetWorkflowExecutionRawHistoryV2
        (adminRequestV2 2 11 EmptyEventID EmptyVersion)).1 = .error (.serviceBusy "busy") ∧
    (busyStoreAdminHandler.GetWorkflowExecutionRawHistory (adminRequest 1 10)).1 =
      .error (.serviceBusy "busy") :=
  ⟨((store_EntityNotExists_gives_empty_response emptyStoreAdminHandler).1
      (adminRequestV2 2 11 EmptyEventID EmptyVersion) (adminRequestV2 2 11 6 12)
      (NewVersionHistory [0] [NewVersionHistoryItem 3 11, NewVersionHistoryItem 5 12])
      ⟨"domain", "workflow", "run", 2, 11, 6, 12, none, some adminVersionHistories⟩
      (.entityNotExists "no events") rfl (by decide) rfl).1 ⟨_, rfl⟩,
    ((store_EntityNotExists_gives_empty_response emptyStoreAdminHandler).2
      (adminRequest 1 10) ⟨"run", [0], 1, 6, none, []⟩
      (.entityNotExists "no events") rfl (by decide) rfl).1 ⟨_, rfl⟩,
    ((store_EntityNotExists_gives_empty_response busyStoreAdminHandler).1
      (adminRequestV2 2 11 EmptyEventID EmptyVersion) (adminRequestV2 2 11 6 12)
      (NewVersionHistory [0] [NewVersionHistoryItem 3 11, NewVersionHistoryItem 5 12])
      ⟨"domain", "workflow", "run", 2, 11, 6, 12, none, some adminVersionHistories⟩
      (.serviceBusy "busy") rfl (by decide) rfl).2 (fun _ h => by cases h),
    ((store_EntityNotExists_gives_empty_response busyStoreAdminHandler).2
      (adminRequest 1 10) ⟨"run", [0], 1, 6, none, []⟩
      (.serviceBusy "busy") rfl (by decide) rfl).2 (fun _ h => by cases h)⟩

/-- Witness of C16: the request asks for the events 1 to 10 of an execution
whose next event ID is 6; the token and the read end at 6. -/
theorem GetWorkflowExecutionRawHistory_initial_token_witness :
    (testAdminHandler.GetWorkflowExecutionRawHistory (adminRequest 1 10)).2 =
      [StoreRead.paginateHistory ⟨[0], 1, 6, none, 10, 0⟩] ∧
    ∃ token, testAdminHandler.prepareRawHistory (adminRequest 1 10) = .ok token ∧
      token.FirstEventID = (adminRequest 1 10).FirstEventId ∧
      token.NextEventID = min (adminRequest 1 10).NextEventId 6 ∧
      ∀ r ∈ (testAdminHandler.GetWorkflowExecutionRawHistory (adminRequest 1 10)).2,
        ∃ call, r = StoreRead.paginateHistory call ∧
          call.FirstEventID = (adminRequest 1 10).FirstEventId ∧
          call.NextEventID = min (adminRequest 1 10).NextEventId 6 ∧
          call.NextEventID ≤ 6 :=
  ⟨rfl,
    GetWorkflowExecutionRawHistory_initial_token testAdminHandler (adminRequest 1 10)
      "domain-id" ⟨6, [0], [], adminVersionHistories⟩ rfl rfl (by decide)
      ⟨by decide, rfl⟩ (by decide) ⟨by decide, by decide⟩ rfl⟩

/-- Witness of C17: the store returns the continuation token `[9]`, so the
response carries the serialized page token; with a store that returns an
empty token the `NextPageToken` is nil. -/
theorem GetWorkflowExecutionRawHistoryV2_next_page_token_witness :
    (testAdminHandler.GetWorkflowExecutionRawHistoryV2
        (adminRequestV2 2 11 EmptyEventID EmptyVersion)).1 =
      .ok { HistoryBatches := [⟨1, [7]⟩]
            NextPageToken := some [1]
            VersionHistory :=
              NewVersionHistory [0] [NewVersionHistoryItem 3 11, NewVersionHistoryItem 5 12] } ∧
    ({ testAdminHandler with
        ReadRawHistoryBranch := fun _ =>
          .ok { HistoryEventBlobs := [⟨1, [7]⟩], NextPageToken := some [], Size := 1 }
        : AdminHandler }.GetWorkflowExecutionRawHistoryV2
        (adminRequestV2 2 11 EmptyEventID EmptyVersion)).1 =
      .ok { HistoryBatches := [⟨1, [7]⟩]
            NextPageToken := none
            VersionHistory :=
              NewVersionHistory [0] [NewVersionHistoryItem 3 11, NewVersionHistoryItem 5 12] } :=
  ⟨(GetWorkflowExecutionRawHistoryV2_next_page_token testAdminHandler
      (adminRequestV2 2 11 EmptyEventID EmptyVersion) (adminRequestV2 2 11 6 12)
      (NewVersionHistory [0] [NewVersionHistoryItem 3 11, NewVersionHistoryItem 5 12])
      ⟨"domain", "workflow", "run", 2, 11, 6, 12, none, some adminVersionHistories⟩
      ⟨[⟨1, [7]⟩], some [9], 1⟩ rfl (by decide) rfl).2.1 (by decide),
    (GetWorkflowExecutionRawHistoryV2_next_page_token
      { testAdminHandler with
        ReadRawHistoryBranch := fun _ =>
          .ok { HistoryEventBlobs := [⟨1, [7]⟩], NextPageToken := some [], Size := 1 } }
      (adminRequestV2 2 11 EmptyEventID EmptyVersion) (adminRequestV2 2 11 6 12)
      (NewVersionHistory [0] [NewVersionHistoryItem 3 11, NewVersionHistoryItem 5 12])
      ⟨"domain", "workflow", "run", 2, 11, 6, 12, none, some adminVersionHistories⟩
      ⟨[⟨1, [7]⟩], some [], 1⟩ rfl (by decide) rfl).1 (by decide)⟩

/-- C18, the code at the failing input: the request has the start event ID
`EmptyVersion` (-24, not `EmptyEventID`) and the start event version 12, so
its start event is set, and it passes the validation of the handler; yet on
the set with current branch `[(3, 11), (5, 12)]` the call overwrites the start
event with the default `(0, 11)`. -/
theorem setRequestDefault_overwrites_set_start :
    testAdminHandler.validateGetWorkflowExecutionRawHistoryV2Request
        (adminRequestV2 (-24) 12 EmptyEventID EmptyVersion) = none ∧
      (adminRequestV2 (-24) 12 EmptyEventID EmptyVersion).StartEventId ≠ EmptyEventID ∧
      (adminRequestV2 (-24) 12 EmptyEventID EmptyVersion).StartEventVersion ≠ EmptyVersion ∧
      testAdminHandler.setRequestDefaultValueAndGetTargetVersionHistory
          (adminRequestV2 (-24) 12 EmptyEventID EmptyVersion) adminVersionHistories =
        (.ok (NewVersionHistory [0] [NewVersionHistoryItem 3 11, NewVersionHistoryItem 5 12]),
          adminRequestV2 0 11 6 12) ∧
      (testAdminHandler.setRequestDefaultValueAndGetTargetVersionHistory
          (adminRequestV2 EmptyEventID 12 EmptyEventID EmptyVersion)
          adminVersionHistories).2.StartEventId = EmptyEventID := by
  refine ⟨rfl, by decide, by decide, rfl, rfl⟩

/-- Witness of C19: the end event of the request is not set; on the current
branch `[(3, 11), (5, 12)]` the request ends up with the end event `(6, 12)`
and the current branch is the target. -/
theorem setRequestDefault_end_not_set_witness :
    testAdminHandler.setRequestDefaultValueAndGetTargetVersionHistory
        (adminRequestV2 2 11 EmptyEventID EmptyVersion) adminVersionHistories =
      (.ok (NewVersionHistory [0] [NewVersionHistoryItem 3 11, NewVersionHistoryItem 5 12]),
        adminRequestV2 2 11 6 12) ∧
    (testAdminHandler.setRequestDefaultValueAndGetTargetVersionHistory
        (adminRequestV2 2 11 EmptyEventID EmptyVersion) adminVersionHistories).2.EndEventId =
      wrapInt64 (5 + 1) ∧
    (testAdminHandler.setRequestDefaultValueAndGetTargetVersionHistory
        (adminRequestV2 2 11 EmptyEventID EmptyVersion) adminVersionHistories).2.EndEventVersion
      = 12 :=
  have h := setRequestDefault_end_not_set testAdminHandler
    (adminRequestV2 2 11 EmptyEventID EmptyVersion) adminVersionHistories
    (NewVersionHistory [0] [NewVersionHistoryItem 3 11, NewVersionHistoryItem 5 12])
    ⟨5, 12⟩ rfl rfl (Or.inl rfl)
  ⟨rfl, h.1, h.2.1⟩

/-- Witness of C20: the end event `(4, 13)` lies on the second branch only,
which becomes the target. -/
theorem setRequestDefault_target_by_end_item_witness :
    adminVersionHistories.FindFirstVersionHistoryIndexByItem (NewVersionHistoryItem 4 13) =
      .ok 1 ∧
    (testAdminHandler.setRequestDefaultValueAndGetTargetVersionHistory
        (adminRequestV2 2 11 4 13) adminVersionHistories).1 =
      .ok (NewVersionHistory [1] [NewVersionHistoryItem 3 11, NewVersionHistoryItem 4 13]) ∧
    adminVersionHistories.FindFirstVersionHistoryIndexByItem (NewVersionHistoryItem 9 13) =
      .error .itemNotFound ∧
    (testAdminHandler.setRequestDefaultValueAndGetTargetVersionHistory
        (adminRequestV2 2 11 9 13) adminVersionHistories).1 = .error .itemNotFound :=
  ⟨rfl,
    by
      obtain ⟨target, htarget, _, _, _, hok⟩ :=
        (setRequestDefault_target_by_end_item testAdminHandler (adminRequestV2 2 11 4 13)
          adminVersionHistories
          (NewVersionHistory [0] [NewVersionHistoryItem 3 11, NewVersionHistoryItem 5 12])
          ⟨3, 11⟩ ⟨5, 12⟩ rfl rfl rfl (by decide) (by decide) (by decide)).1 1 rfl
      have ht : target =
          NewVersionHistory [1] [NewVersionHistoryItem 3 11, NewVersionHistoryItem 4 13] := by
        have h2 : adminVersionHistories.GetVersionHistory 1 =
            .ok (NewVersionHistory [1]
              [NewVersionHistoryItem 3 11, NewVersionHistoryItem 4 13]) := rfl
        rw [h2] at htarget
        exact (Except.ok.inj htarget).symm
      subst ht
      exact hok (Or.inr rfl),
    rfl,
    ((setRequestDefault_target_by_end_item testAdminHandler (adminRequestV2 2 11 9 13)
      adminVersionHistories
      (NewVersionHistory [0] [NewVersionHistoryItem 3 11, NewVersionHistoryItem 5 12])
      ⟨3, 11⟩ ⟨5, 12⟩ rfl rfl rfl (by decide) (by decide) (by decide)).2
      .itemNotFound rfl).1⟩

/-- C20, the claim refuted: the end event `(9, 13)` of the request is set, is
not the end of the current branch moved on by one, and lies on no stored
branch, so the look-up fails with `ItemNotFound`; but the start event ID is
-5, and the call fails before the look-up, with the `BadRequestError` of the
test on the start event ID. -/
theorem setRequestDefault_negative_start_fails_first :
    (adminRequestV2 (-5) 11 9 13).EndEventId ≠ EmptyEventID ∧
      (adminRequestV2 (-5) 11 9 13).EndEventVersion ≠ EmptyVersion ∧
      adminVersionHistories.GetCurrentVersionHistory =
        .ok (NewVersionHistory [0] [NewVersionHistoryItem 3 11, NewVersionHistoryItem 5 12]) ∧
      ¬ ((adminRequestV2 (-5) 11 9 13).EndEventId = wrapInt64 (5 + 1) ∧
        (adminRequestV2 (-5) 11 9 13).EndEventVersion = 12) ∧
      adminVersionHistories.FindFirstVersionHistoryIndexByItem (NewVersionHistoryItem 9 13) =
        .error .itemNotFound ∧
      (testAdminHandler.setRequestDefaultValueAndGetTargetVersionHistory
          (adminRequestV2 (-5) 11 9 13) adminVersionHistories).1 =
        .error (.badRequest "Invalid FirstEventID && NextEventID combination.") := by
  refine ⟨by decide, by decide, rfl, by decide, rfl, rfl⟩


/-! ## The empty range, page tokens, permissions, enums and errors -/

/-- C22: for a request that passes the checks before the store read with a
page token whose `StartEventID` plus one (in `int64` arithmetic) is its
`EndEventID`, `GetWorkflowExecutionRawHistoryV2` returns a response with no
history batches, a nil `NextPageToken` and the target version history, and
makes no read of the history store. -/
theorem GetWorkflowExecutionRawHistoryV2_empty_range (adh : AdminHandler)
    (request request1 : GetWorkflowExecutionRawHistoryV2Request)
    (target : VersionHistory) (pageToken : getWorkflowRawHistoryV2Token)
    (hprep : adh.prepareRawHistoryV2 request = .ok (request1, target, pageToken))
    (heq : wrapInt64 (pageToken.StartEventID + 1) = pageToken.EndEventID) :
    adh.GetWorkflowExecutionRawHistoryV2 request =
      (.ok { HistoryBatches := []
             NextPageToken := none
             VersionHistory := target.ToProto }, []) := by
  unfold AdminHandler.GetWorkflowExecutionRawHistoryV2
  simp only [hprep, heq, if_true]

/-- Witness of C22: a request for the events between `(4, 12)` and `(5, 12)`
on the current branch gets the empty response with that branch and reads
nothing. -/
theorem GetWorkflowExecutionRawHistoryV2_empty_range_witness :
    testAdminHandler.GetWorkflowExecutionRawHistoryV2 (adminRequestV2 4 12 5 12) =
      (.ok { HistoryBatches := []
             NextPageToken := none
             VersionHistory :=
               NewVersionHistory [0] [NewVersionHistoryItem 3 11, NewVersionHistoryItem 5 12] },
        []) :=
  GetWorkflowExecutionRawHistoryV2_empty_range testAdminHandler (adminRequestV2 4 12 5 12)
    (adminRequestV2 4 12 5 12)
    (NewVersionHistory [0] [NewVersionHistoryItem 3 11, NewVersionHistoryItem 5 12])
    ⟨"domain", "workflow", "run", 4, 12, 5, 12, none, some adminVersionHistories⟩
    rfl (by decide)

/-- C24: when the continuation token of `GetWorkflowExecutionRawHistory`
(read from the request or built from the mutable state) has `FirstEventID`
at least `NextEventID`, the response has no history batches, the replication
info of the token and a nil `NextPageToken`, and the history store is not
read. -/
theorem GetWorkflowExecutionRawHistory_empty_range (adh : AdminHandler)
    (request : GetWorkflowExecutionRawHistoryRequest)
    (token : getHistoryContinuationTokenGRPC)
    (hprep : adh.prepareRawHistory request = .ok token)
    (hge : token.FirstEventID ≥ token.NextEventID) :
    adh.GetWorkflowExecutionRawHistory request =
      (.ok { HistoryBatches := []
             ReplicationInfo := token.ReplicationInfo
             NextPageToken := none }, []) := by
  unfold AdminHandler.GetWorkflowExecutionRawHistory
  simp only [hprep, hge, if_true]

/-- Witness of C24: a request for the events from 3 to 3 gets the empty
response and reads nothing. -/
theorem GetWorkflowExecutionRawHistory_empty_range_witness :
    testAdminHandler.GetWorkflowExecutionRawHistory (adminRequest 3 3) =
      (.ok { HistoryBatches := [], ReplicationInfo := [], NextPageToken := none }, []) :=
  GetWorkflowExecutionRawHistory_empty_range testAdminHandler (adminRequest 3 3)
    ⟨"run", [0], 3, 3, none, []⟩ rfl (by decide)

/-- C25: the token `generatePaginationToken` builds from a request and a set
of version histories passes `validatePaginationToken` against that request;
and `validatePaginationToken` returns no error exactly when the domain, the
workflow ID, the run ID, the start event ID and version and the end event ID
and version of the request equal the fields of the token, the error being the
`BadRequestError` "Invalid pagination token." otherwise. -/
theorem validatePaginationToken_iff (adh : AdminHandler)
    (request : GetWorkflowExecutionRawHistoryV2Request)
    (versionHistories : VersionHistories) (token : getWorkflowRawHistoryV2Token) :
    adh.validatePaginationToken request
        (adh.generatePaginationToken request versionHistories) = none ∧
    (adh.validatePaginationToken request token = none ↔
      (request.Domain = token.DomainName ∧
        GetWorkflowId request.Execution = token.WorkflowID ∧
        GetRunId request.Execution = token.RunID ∧
        request.StartEventId = token.StartEventID ∧
        request.StartEventVersion = token.StartEventVersion ∧
        request.EndEventId = token.EndEventID ∧
        request.EndEventVersion = token.EndEventVersion)) ∧
    (adh.validatePaginationToken request token = none ∨
      adh.validatePaginationToken request token =
        some (.badRequest "Invalid pagination token.")) := by
  refine ⟨?_, ?_, ?_⟩
  · simp [AdminHandler.validatePaginationToken, AdminHandler.generatePaginationToken]
  · unfold AdminHandler.validatePaginationToken
    constructor
    · intro h
      by_contra hne
      rw [if_pos (by tauto)] at h
      cases h
    · intro h
      rw [if_neg (by tauto)]
  · unfold AdminHandler.validatePaginationToken
    dsimp only
    split_ifs
    · exact Or.inr rfl
    · exact Or.inl rfl

/-- C26: `checkPermission` returns `errNoPermission` exactly when admin
protection is enabled and the security token is empty or differs from the
configured `AdminOperationToken`, and returns nil otherwise; with protection
disabled it returns nil for every token. -/
theorem checkPermission_iff (adh : AdminHandler) (config : Config) (securityToken : String) :
    (adh.checkPermission config securityToken = some errNoPermission ↔
      (config.EnableAdminProtection = true ∧
        (securityToken = "" ∨ securityToken ≠ config.AdminOperationToken))) ∧
    (adh.checkPermission config securityToken = none ∨
      adh.checkPermission config securityToken = some errNoPermission) ∧
    (config.EnableAdminProtection = false →
      ∀ token : String, adh.checkPermission config token = none) := by
  refine ⟨?_, ?_, ?_⟩
  · unfold AdminHandler.checkPermission
    dsimp only
    constructor
    · intro h
      split_ifs at h with h1 h2 h3
      · exact ⟨h1, Or.inl h2⟩
      · exact ⟨h1, Or.inr h3⟩
    · rintro ⟨h1, h2 | h2⟩
      · rw [if_pos h1, if_pos h2]
      · rw [if_pos h1, if_pos h2]
        split_ifs <;> rfl
  · unfold AdminHandler.checkPermission
    dsimp only
    split_ifs
    · exact Or.inr rfl
    · exact Or.inr rfl
    · exact Or.inl rfl
    · exact Or.inl rfl
  · intro h token
    unfold AdminHandler.checkPermission
    rw [if_neg (by rw [h]; decide)]

theorem wrapInt32_of_inRange (x : Int) (hlo : -(2 ^ 31) ≤ x) (hhi : x < 2 ^ 31) :
    wrapInt32 x = x := by
  unfold wrapInt32
  omega

theorem wrapInt32_pred_succ (x : Int) (hlo : -(2 ^ 31) ≤ x) (hhi : x < 2 ^ 31) :
    wrapInt32 (wrapInt32 (x - 1) + 1) = x := by
  unfold wrapInt32
  omega

/-- C27: for the three offset-by-one enum pairs (`ArchivalStatus`,
`WorkflowExecutionCloseStatus`, `ContinueAsNewInitiator`) and every proto
enum value `x` in the `int32` range, `ToProtoX (ToThriftX x) = x`;
`ToThriftX x` is nil exactly when `x` is the zero value of the enum, and is
otherwise a pointer to `x - 1` in `int32` arithmetic, which is `x - 1` for
every `x` above the least `int32`. -/
theorem enum_offset_round_trip (x : Int) (hlo : -(2 ^ 31) ≤ x) (hhi : x < 2 ^ 31) :
    (ToProtoArchivalStatus (ToThriftArchivalStatus x) = x ∧
      (ToThriftArchivalStatus x = none ↔ x = ArchivalStatusDefault) ∧
      (x ≠ ArchivalStatusDefault →
        ToThriftArchivalStatus x = some (wrapInt32 (x - 1)) ∧
        (-(2 ^ 31) < x → ToThriftArchivalStatus x = some (x - 1)))) ∧
    (ToProtoWorkflowExecutionCloseStatus (ToThriftWorkflowExecutionCloseStatus x) = x ∧
      (ToThriftWorkflowExecutionCloseStatus x = none ↔
        x = WorkflowExecutionCloseStatusRunning) ∧
      (x ≠ WorkflowExecutionCloseStatusRunning →
        ToThriftWorkflowExecutionCloseStatus x = some (wrapInt32 (x - 1)) ∧
        (-(2 ^ 31) < x → ToThriftWorkflowExecutionCloseStatus x = some (x - 1)))) ∧
    (ToProtoContinueAsNewInitiator (ToThriftContinueAsNewInitiator x) = x ∧
      (ToThriftContinueAsNewInitiator x = none ↔ x = ContinueAsNewInitiatorNotSet) ∧
      (x ≠ ContinueAsNewInitiatorNotSet →
        ToThriftContinueAsNewInitiator x = some (wrapInt32 (x - 1)) ∧
        (-(2 ^ 31) < x → ToThriftContinueAsNewInitiator x = some (x - 1)))) := by
  have hrt := wrapInt32_pred_succ x hlo hhi
  have hin : -(2 ^ 31) < x → wrapInt32 (x - 1) = x - 1 := fun h =>
    wrapInt32_of_inRange _ (by omega) (by omega)
  refine ⟨⟨?_, ?_, ?_⟩, ⟨?_, ?_, ?_⟩, ⟨?_, ?_, ?_⟩⟩
  · unfold ToThriftArchivalStatus
    split_ifs with h
    · exact h.symm
    · exact hrt
  · unfold ToThriftArchivalStatus
    split_ifs with h
    · exact ⟨fun _ => h, fun _ => rfl⟩
    · exact ⟨fun h1 => (by cases h1), fun h1 => absurd h1 h⟩
  · intro h
    unfold ToThriftArchivalStatus
    rw [if_neg h]
    exact ⟨rfl, fun h1 => by rw [hin h1]⟩
  · unfold ToThriftWorkflowExecutionCloseStatus
    split_ifs with h
    · exact h.symm
    · exact hrt
  · unfold ToThriftWorkflowExecutionCloseStatus
    split_ifs with h
    · exact ⟨fun _ => h, fun _ => rfl⟩
    · exact ⟨fun h1 => (by cases h1), fun h1 => absurd h1 h⟩
  · intro h
    unfold ToThriftWorkflowExecutionCloseStatus
    rw [if_neg h]
    exact ⟨rfl, fun h1 => by rw [hin h1]⟩
  · unfold ToThriftContinueAsNewInitiator
    split_ifs with h
    · exact h.symm
    · exact hrt
  · unfold ToThriftContinueAsNewInitiator
    split_ifs with h
    · exact ⟨fun _ => h, fun _ => rfl⟩
    · exact ⟨fun h1 => (by cases h1), fun h1 => absurd h1 h⟩
  · intro h
    unfold ToThriftContinueAsNewInitiator
    rw [if_neg h]
    exact ⟨rfl, fun h1 => by rw [hin h1]⟩

/-- Witness of C27: the proto value 2 of each enum goes to a pointer to 1 and
comes back as 2. -/
theorem enum_offset_round_trip_witness :
    ToThriftArchivalStatus 2 = some 1 ∧
    ToThriftWorkflowExecutionCloseStatus 2 = some 1 ∧
    ToThriftContinueAsNewInitiator 2 = some 1 ∧
    ToProtoArchivalStatus (ToThriftArchivalStatus 2) = 2 ∧
    ToProtoWorkflowExecutionCloseStatus (ToThriftWorkflowExecutionCloseStatus 2) = 2 ∧
    ToProtoContinueAsNewInitiator (ToThriftContinueAsNewInitiator 2) = 2 :=
  have h := enum_offset_round_trip 2 (by decide) (by decide)
  ⟨(h.1.2.2 (by decide)).2 (by decide), (h.2.1.2.2 (by decide)).2 (by decide),
    (h.2.2.2.2 (by decide)).2 (by decide), h.1.1, h.2.1.1, h.2.2.1⟩

/-- C28: `errorThrift` sorts errors by kind. An `InternalServiceError`, a
`BadRequestError`, a `ServiceBusyError` or an `EntityNotExistsError` is
returned as it is; an error of any other kind comes back as an
`InternalServiceError` whose message is the text of the original error. The
result is an error in every case, never nil. -/
theorem errorThrift_by_kind (adh : AdminHandler) (err : Err) :
    (∀ m, adh.errorThrift (.internalServiceError m) = .internalServiceError m) ∧
    (∀ m, adh.errorThrift (.badRequest m) = .badRequest m) ∧
    (∀ m, adh.errorThrift (.serviceBusy m) = .serviceBusy m) ∧
    (∀ m, adh.errorThrift (.entityNotExists m) = .entityNotExists m) ∧
    (err.isThriftKind = true → adh.errorThrift err = err) ∧
    (err.isThriftKind = false →
      adh.errorThrift err = .internalServiceError err.Error) := by
  refine ⟨fun _ => rfl, fun _ => rfl, fun _ => rfl, fun _ => rfl, ?_, ?_⟩
  · intro h
    cases err <;> first | rfl | cases h
  · intro h
    cases err <;> first | rfl | cases h

/-! ## The start event and the target branch -/

theorem setRequestDefault_of_target (adh : AdminHandler)
    (request : GetWorkflowExecutionRawHistoryV2Request) (versionHistories : VersionHistories)
    (current target : VersionHistory) (first last : VersionHistoryItem)
    (hcur : versionHistories.GetCurrentVersionHistory = .ok current)
    (hfirst : current.GetFirstItem = .ok first)
    (hlast : current.GetLastItem = .ok last)
    (hneg : ¬ (AdminHandler.endEventDefaulted
      (AdminHandler.startEventDefaulted request first) last).StartEventId < 0)
    (htarget : AdminHandler.targetBranchByEndItem versionHistories current last
      (AdminHandler.endEventDefaulted (AdminHandler.startEventDefaulted request first) last) =
        .ok target) :
    adh.setRequestDefaultValueAndGetTargetVersionHistory request versionHistories =
      if (AdminHandler.endEventDefaulted
            (AdminHandler.startEventDefaulted request first) last).StartEventId =
            FirstEventID - 1 ∧
          (AdminHandler.endEventDefaulted
            (AdminHandler.startEventDefaulted request first) last).StartEventVersion =
            first.version then
        (.ok target,
          AdminHandler.endEventDefaulted (AdminHandler.startEventDefaulted request first) last)
      else if target.ContainsItem
          (NewVersionHistoryItem
            (AdminHandler.endEventDefaulted
              (AdminHandler.startEventDefaulted request first) last).StartEventId
            (AdminHandler.endEventDefaulted
              (AdminHandler.startEventDefaulted request first) last).StartEventVersion) =
          false then
        match versionHistories.FindFirstVersionHistoryIndexByItem
            (NewVersionHistoryItem
              (AdminHandler.endEventDefaulted
                (AdminHandler.startEventDefaulted request first) last).StartEventId
              (AdminHandler.endEventDefaulted
                (AdminHandler.startEventDefaulted request first) last).StartEventVersion)
          with
        | .error e =>
          (.error e,
            AdminHandler.endEventDefaulted (AdminHandler.startEventDefaulted request first) last)
        | .ok idx =>
          match versionHistories.GetVersionHistory idx with
          | .error e =>
            (.error e,
              AdminHandler.endEventDefaulted
                (AdminHandler.startEventDefaulted request first) last)
          | .ok startBranch =>
            match target.FindLCAItem startBranch with
            | .error e =>
              (.error e,
                AdminHandler.endEventDefaulted
                  (AdminHandler.startEventDefaulted request first) last)
            | .ok lca =>
              (.ok target,
                { AdminHandler.endEventDefaulted
                    (AdminHandler.startEventDefaulted request first) last with
                    StartEventId := lca.eventID
                    StartEventVersion := lca.version })
      else
        (.ok target,
          AdminHandler.endEventDefaulted
            (AdminHandler.startEventDefaulted request first) last) := by
  rw [setRequestDefault_of_current adh request versionHistories current first last hcur
    hfirst hlast, if_neg hneg]
  unfold AdminHandler.targetBranchByEndItem at htarget
  rw [htarget]

theorem startEventDefaulted_of_set (request : GetWorkflowExecutionRawHistoryV2Request)
    (first : VersionHistoryItem)
    (hid : 0 ≤ request.StartEventId) (hver : request.StartEventVersion ≠ EmptyVersion) :
    AdminHandler.startEventDefaulted request first = request := by
  unfold AdminHandler.startEventDefaulted
  have hE : EmptyVersion = -24 := rfl
  rw [if_neg]
  rintro (h | h)
  · rw [hE] at h
    omega
  · exact hver h

/-- C21 as amended: for a request whose start event is set with an event ID
that is not negative, and the target branch chosen by the end event,
`setRequestDefaultValueAndGetTargetVersionHistory` behaves as follows. The
pair of `FirstEventID - 1` and the version of the first item of the current
branch is taken as it is, with no look-up. For any other start event: when the
target branch contains the start item the call succeeds with the start
unchanged; when it does not, the call fails with the error of the look-up if
no branch contains the start item or if there is no LCA, and otherwise
replaces `StartEventId` and `StartEventVersion` by the LCA item of the target
branch and the first branch containing the start item, which lies on the
target branch when the two are well-formed branches of one execution. -/
theorem setRequestDefault_start_on_target (adh : AdminHandler)
    (request : GetWorkflowExecutionRawHistoryV2Request) (versionHistories : VersionHistories)
    (current target : VersionHistory) (first last : VersionHistoryItem)
    (hcur : versionHistories.GetCurrentVersionHistory = .ok current)
    (hfirst : current.GetFirstItem = .ok first)
    (hlast : current.GetLastItem = .ok last)
    (hid : 0 ≤ request.StartEventId)
    (hver : request.StartEventVersion ≠ EmptyVersion)
    (htarget : AdminHandler.targetBranchByEndItem versionHistories current last
      (AdminHandler.endEventDefaulted request last) = .ok target) :
    ((AdminHandler.endEventDefaulted request last).StartEventId = request.StartEventId ∧
      (AdminHandler.endEventDefaulted request last).StartEventVersion =
        request.StartEventVersion) ∧
    ((request.StartEventId = FirstEventID - 1 ∧ request.StartEventVersion = first.version) →
      adh.setRequestDefaultValueAndGetTargetVersionHistory request versionHistories =
        (.ok target, AdminHandler.endEventDefaulted request last)) ∧
    (¬ (request.StartEventId = FirstEventID - 1 ∧ request.StartEventVersion = first.version) →
      (target.ContainsItem
          (NewVersionHistoryItem request.StartEventId request.StartEventVersion) = true →
        adh.setRequestDefaultValueAndGetTargetVersionHistory request versionHistories =
          (.ok target, AdminHandler.endEventDefaulted request last)) ∧
      (target.ContainsItem
          (NewVersionHistoryItem request.StartEventId request.StartEventVersion) = false →
        (∀ e,
          versionHistories.FindFirstVersionHistoryIndexByItem
              (NewVersionHistoryItem request.StartEventId request.StartEventVersion) =
            .error e →
          (adh.setRequestDefaultValueAndGetTargetVersionHistory request versionHistories).1 =
            .error e) ∧
        (∀ idx,
          versionHistories.FindFirstVersionHistoryIndexByItem
              (NewVersionHistoryItem request.StartEventId request.StartEventVersion) =
            .ok idx →
          ∃ startBranch, versionHistories.GetVersionHistory idx = .ok startBranch ∧
            startBranch.ContainsItem
              (NewVersionHistoryItem request.StartEventId request.StartEventVersion) = true ∧
            (∀ e, target.FindLCAItem startBranch = .error e →
              (adh.setRequestDefaultValueAndGetTargetVersionHistory request
                versionHistories).1 = .error e) ∧
            (∀ lca, target.FindLCAItem startBranch = .ok lca →
              adh.setRequestDefaultValueAndGetTargetVersionHistory request versionHistories =
                (.ok target,
                  { AdminHandler.endEventDefaulted request last with
                      StartEventId := lca.eventID
                      StartEventVersion := lca.version })) ∧
            (WellFormedItems target.items → WellFormedItems startBranch.items →
              SameExecution target startBranch →
              ∃ lca, target.FindLCAItem startBranch = .ok lca ∧
                target.ContainsItem lca = true)))) := by
  have hs := startEventDefaulted_of_set request first hid hver
  have hes := endEventDefaulted_start request last
  have hneg : ¬ (AdminHandler.endEventDefaulted
      (AdminHandler.startEventDefaulted request first) last).StartEventId < 0 := by
    rw [hs, hes.1]
    omega
  have hmain := setRequestDefault_of_target adh request versionHistories current target first
    last hcur hfirst hlast hneg (by rw [hs]; exact htarget)
  rw [hs, hes.1, hes.2] at hmain
  refine ⟨hes, ?_, ?_⟩
  · intro hsp
    rw [hmain, if_pos hsp]
  · intro hnsp
    rw [if_neg hnsp] at hmain
    refine ⟨?_, ?_⟩
    · intro hc
      rw [hmain, if_neg (by rw [hc]; decide)]
    · intro hc
      rw [if_pos hc] at hmain
      refine ⟨?_, ?_⟩
      · intro e he
        rw [hmain, he]
      · intro idx hidx
        obtain ⟨startBranch, hsb, hcont, _⟩ :=
          FindFirstVersionHistoryIndexByItem_ok versionHistories _ idx hidx
        refine ⟨startBranch, hsb, hcont, ?_, ?_, ?_⟩
        · intro e he
          rw [hmain, hidx]
          simp only [hsb, he]
        · intro lca hl
          rw [hmain, hidx]
          simp only [hsb, hl]
        · rintro hwt hws ⟨p, hfork⟩
          exact ⟨p, FindLCAItem_of_forkAt target startBranch p hwt hws hfork, hfork.1⟩

/-- Witness of C21: the start event `(4, 13)` lies on the second branch only;
with no end event the target is the current branch `[(3, 11), (5, 12)]`, and
the start becomes the LCA item `(3, 11)`, which lies on the target. The start
event `(2, 11)` lies on the target and stays. -/
theorem setRequestDefault_start_on_target_witness :
    testAdminHandler.setRequestDefaultValueAndGetTargetVersionHistory
        (adminRequestV2 4 13 EmptyEventID EmptyVersion) adminVersionHistories =
      (.ok (NewVersionHistory [0] [NewVersionHistoryItem 3 11, NewVersionHistoryItem 5 12]),
        adminRequestV2 3 11 6 12) ∧
    (NewVersionHistory [0] [NewVersionHistoryItem 3 11, NewVersionHistoryItem 5 12]).ContainsItem
        (NewVersionHistoryItem 3 11) = true ∧
    testAdminHandler.setRequestDefaultValueAndGetTargetVersionHistory
        (adminRequestV2 2 11 EmptyEventID EmptyVersion) adminVersionHistories =
      (.ok (NewVersionHistory [0] [NewVersionHistoryItem 3 11, NewVersionHistoryItem 5 12]),
        adminRequestV2 2 11 6 12) := by
  refine ⟨?_, rfl, ?_⟩
  · obtain ⟨startBranch, hsb, _, _, hlca, _⟩ :=
      ((setRequestDefault_start_on_target testAdminHandler
        (adminRequestV2 4 13 EmptyEventID EmptyVersion) adminVersionHistories
        (NewVersionHistory [0] [NewVersionHistoryItem 3 11, NewVersionHistoryItem 5 12])
        (NewVersionHistory [0] [NewVersionHistoryItem 3 11, NewVersionHistoryItem 5 12])
        ⟨3, 11⟩ ⟨5, 12⟩ rfl rfl rfl (by decide) (by decide) rfl).2.2 (by decide)).2 rfl
        |>.2 1 rfl
    have hb : startBranch =
        NewVersionHistory [1] [NewVersionHistoryItem 3 11, NewVersionHistoryItem 4 13] := by
      have h2 : adminVersionHistories.GetVersionHistory 1 =
          .ok (NewVersionHistory [1]
            [NewVersionHistoryItem 3 11, NewVersionHistoryItem 4 13]) := rfl
      rw [h2] at hsb
      exact (Except.ok.inj hsb).symm
    subst hb
    exact hlca ⟨3, 11⟩ (by
      simp [FindLCAItem, findLCAFromEnd, NewVersionHistory, NewVersionHistoryItem])
  · exact ((setRequestDefault_start_on_target testAdminHandler
      (adminRequestV2 2 11 EmptyEventID EmptyVersion) adminVersionHistories
      (NewVersionHistory [0] [NewVersionHistoryItem 3 11, NewVersionHistoryItem 5 12])
      (NewVersionHistory [0] [NewVersionHistoryItem 3 11, NewVersionHistoryItem 5 12])
      ⟨3, 11⟩ ⟨5, 12⟩ rfl rfl rfl (by decide) (by decide) rfl).2.2 (by decide)).1 rfl

/-- C21, the claim refuted: the start event `(0, 11)` of the request is set;
the target branch, the current one, does not contain the item `(0, 11)`, and
no stored branch does, so there is no LCA item to replace it with. The call
succeeds all the same and leaves the start as it is, an item that does not
lie on the target branch it returns: the pair of `FirstEventID - 1` and the
version of the first item of the current branch is taken without a look-up. -/
theorem setRequestDefault_start_before_first_event :
    (adminRequestV2 0 11 EmptyEventID EmptyVersion).StartEventId ≠ EmptyEventID ∧
      (adminRequestV2 0 11 EmptyEventID EmptyVersion).StartEventVersion ≠ EmptyVersion ∧
      (NewVersionHistory [0]
        [NewVersionHistoryItem 3 11, NewVersionHistoryItem 5 12]).ContainsItem
          (NewVersionHistoryItem 0 11) = false ∧
      adminVersionHistories.FindFirstVersionHistoryIndexByItem (NewVersionHistoryItem 0 11) =
        .error .itemNotFound ∧
      testAdminHandler.setRequestDefaultValueAndGetTargetVersionHistory
          (adminRequestV2 0 11 EmptyEventID EmptyVersion) adminVersionHistories =
        (.ok (NewVersionHistory [0] [NewVersionHistoryItem 3 11, NewVersionHistoryItem 5 12]),
          adminRequestV2 0 11 6 12) := by
  refine ⟨by decide, by decide, rfl, rfl, rfl⟩

/-- C23: in `GetWorkflowExecutionRawHistory` with a `NextPageToken`, the
request having passed the checks that come first and the token being
deserialized, the request is rejected by the check of the token, with the
`BadRequestError` "Invalid pagination token." and no read of the store,
exactly when its run ID differs from the `RunID` of the token, or its
`FirstEventId` differs from the `FirstEventID` of the token, or its
`NextEventId` is smaller than the `NextEventID` of the token. Otherwise the
token is the continuation token of the call, and a read of the store carries
the branch token, the event range and the persistence token of the token. -/
theorem GetWorkflowExecutionRawHistory_token_check (adh : AdminHandler)
    (request : GetWorkflowExecutionRawHistoryRequest)
    (domainID : String) (bytes : List Nat) (token : getHistoryContinuationTokenGRPC)
    (hsome : request.NextPageToken = some bytes)
    (hdomain : adh.GetDomainID request.Domain = .ok domainID)
    (hworkflow : GetWorkflowId request.Execution ≠ "")
    (hrun : GetRunId request.Execution ≠ "" ∧ adh.uuidParse (GetRunId request.Execution) = true)
    (hpage : 0 < request.MaximumPageSize)
    (htoken : adh.deserializeHistoryToken bytes = .ok token) :
    (adh.prepareRawHistory request = .error (.badRequest "Invalid pagination token.") ↔
      (GetRunId request.Execution ≠ token.RunID ∨
        request.FirstEventId ≠ token.FirstEventID ∨
        request.NextEventId < token.NextEventID)) ∧
    ((GetRunId request.Execution ≠ token.RunID ∨
        request.FirstEventId ≠ token.FirstEventID ∨
        request.NextEventId < token.NextEventID) →
      adh.GetWorkflowExecutionRawHistory request =
        (.error (.badRequest "Invalid pagination token."), [])) ∧
    (¬ (GetRunId request.Execution ≠ token.RunID ∨
        request.FirstEventId ≠ token.FirstEventID ∨
        request.NextEventId < token.NextEventID) →
      adh.prepareRawHistory request = .ok token ∧
      ∀ r ∈ (adh.GetWorkflowExecutionRawHistory request).2,
        ∃ call, r = StoreRead.paginateHistory call ∧
          call.BranchToken = token.BranchToken ∧
          call.FirstEventID = token.FirstEventID ∧
          call.NextEventID = token.NextEventID ∧
          call.PersistenceToken = token.PersistenceToken) := by
  have hprep : adh.prepareRawHistory request =
      if GetRunId request.Execution ≠ token.RunID ∨
          request.FirstEventId ≠ token.FirstEventID ∨
          request.NextEventId < token.NextEventID then
        .error (.badRequest "Invalid pagination token.")
      else .ok token := by
    unfold AdminHandler.prepareRawHistory
    simp only [hdomain, string_length_eq_zero_iff, hsome, htoken]
    rw [if_neg hworkflow, if_neg (by simp [hrun.1, hrun.2]), if_neg (by omega)]
  refine ⟨?_, ?_, ?_⟩
  · rw [hprep]
    constructor
    · intro h
      by_contra hc
      rw [if_neg hc] at h
      cases h
    · intro h
      rw [if_pos h]
  · intro h
    rw [if_pos h] at hprep
    unfold AdminHandler.GetWorkflowExecutionRawHistory
    simp only [hprep]
  · intro h
    rw [if_neg h] at hprep
    refine ⟨hprep, ?_⟩
    intro r hr
    rcases GetWorkflowExecutionRawHistory_reads adh request with hnil | ⟨token1, htoken1, _, hreads⟩
    · rw [hnil] at hr
      cases hr
    · rw [hreads] at hr
      rw [hprep] at htoken1
      cases htoken1
      exact ⟨_, by simpa using hr, rfl, rfl, rfl, rfl⟩

/-- Witness of C23: the token of run `run` for the events 1 to 6 is accepted
with the request for the events 1 to 6 of that run, which reads the store
with the values of the token, and rejected with a request that starts at
event 2. -/
theorem GetWorkflowExecutionRawHistory_token_check_witness :
    tokenAdminHandler.prepareRawHistory (adminRequestWithToken "run" 1 6) =
      .ok ⟨"run", [0], 1, 6, some [9], []⟩ ∧
    (tokenAdminHandler.GetWorkflowExecutionRawHistory (adminRequestWithToken "run" 1 6)).2 =
      [StoreRead.paginateHistory ⟨[0], 1, 6, some [9], 10, 0⟩] ∧
    tokenAdminHandler.GetWorkflowExecutionRawHistory (adminRequestWithToken "run" 2 6) =
      (.error (.badRequest "Invalid pagination token."), []) :=
  ⟨((GetWorkflowExecutionRawHistory_token_check tokenAdminHandler
      (adminRequestWithToken "run" 1 6) "domain-id" [2] ⟨"run", [0], 1, 6, some [9], []⟩
      rfl rfl (by decide) ⟨by decide, rfl⟩ (by decide) rfl).2.2 (by decide)).1,
    rfl,
    (GetWorkflowExecutionRawHistory_token_check tokenAdminHandler
      (adminRequestWithToken "run" 2 6) "domain-id" [2] ⟨"run", [0], 1, 6, some [9], []⟩
      rfl rfl (by decide) ⟨by decide, rfl⟩ (by decide) rfl).2.1 (by decide)⟩
end Temporal
